import Mathlib

/-!
# Lyssa: playlist loading pipeline and playback sequencing

A shallow embedding of the playlist code of `src/lyssa.cpp`: the loading
pipeline (`loadPlaylistFileAsync`, `addFileToPlaylistAsync`,
`loadPlaylistAsync`, `handleAsyncPlaylistLoading`, `terminateAudio`), the
sequencer (`playlistPlayFileWithIndex`, `skipSoundUp`, `skipSoundDown`,
`updateSoundProgress`), the reordering (`moveFileInPlaylistIdx`) and the
writers of the `.metadata` file, together with the properties the
specification states about them.

Modelling conventions.

* The global `state` object is the record `State`; every function of the
  source that reads or writes `state` takes a `State` and returns the new one.
* The file system, the tag parser and the texture upload are external to
  `lyssa.cpp`; they are the fields of `Env` and stay fixed during a run.
* A `std::filesystem::path` is modelled by its string form.
* A task started with `std::async` runs `loadPlaylistFileAsync` or
  `addFileToPlaylistAsync`, both of which hold `state.mutex` from their first
  to their last statement, so a task completion is one atomic step
  (`Event.taskDone`).  A frame of the main loop is the step `Event.frame`.
  The unsynchronised reads of the control thread are not modelled below the
  granularity of these steps.
* A `SoundFile*` into the `musicFiles` vector of a playlist is modelled by
  the slot it addresses (`SoundFilePtr`); reading through it yields the
  element stored in that slot at the time of the read.
* The values of the random engine are an argument (`draws`); a function that
  runs the redraw loop returns `none` when the loop has not ended within
  them.
* `float` quantities are rational numbers.
-/

namespace Lyssa

/-! ## Strings, file names and the sort key -/

/-- Lexicographic comparison of character sequences, the order of
`std::string::operator<`: the first differing character decides, a proper
beginning of a string is smaller than the string. -/
def ltChars : List Char → List Char → Bool
  | _, [] => false
  | [], _ :: _ => true
  | a :: as, b :: bs => if a < b then true else if b < a then false else ltChars as bs

/-- The comparison `a < b` of two `std::string`s. -/
def stringLt (a b : String) : Bool := ltChars a.data b.data

/-- Position of the last occurrence of `c`, scanning from index `i`
(`std::string::rfind`); `none` stands for `npos`. -/
def rfindFrom (c : Char) : List Char → Nat → Option Nat → Option Nat
  | [], _, found => found
  | x :: xs, i, found => rfindFrom c xs (i + 1) (if x = c then some i else found)

/-- The call `s.rfind(c)`. -/
def rfind (s : String) (c : Char) : Option Nat := rfindFrom c s.data 0 none

/-- The call `s.substr(0, n)`. -/
def substr0 (s : String) (n : Nat) : String := String.mk (s.data.take n)

/-- Source function `removeFileExtension` (lines 3211-3220). -/
def removeFileExtension (filename : String) : String :=
  match rfind filename '.' with
  | some lastDotIndex => if lastDotIndex > 0 then substr0 filename lastDotIndex else filename
  | none => filename

/-- Source function `removeFileExtensionW` (lines 3232-3241). -/
def removeFileExtensionW (filename : String) : String :=
  match rfind filename '.' with
  | some lastDotIndex => if lastDotIndex > 0 then substr0 filename lastDotIndex else filename
  | none => filename

/-- Characters after the last `/` of a character sequence. -/
def afterLastSlash : List Char → List Char → List Char
  | [], acc => acc.reverse
  | c :: cs, acc => if c = '/' then afterLastSlash cs [] else afterLastSlash cs (c :: acc)

/-- Library function `std::filesystem::path::filename()` on a POSIX path:
the component after the last directory separator. -/
def filename (path : String) : String := String.mk (afterLastSlash path.data [])

/-! ## Data model -/

/-- A texture handle (`LfTexture`): the fields the code reads and writes. -/
structure LfTexture where
  id : Nat := 0
  width : Nat := 0
  height : Nat := 0
deriving DecidableEq

/-- Decoded artwork held until a texture is created from it (`TextureData`). -/
structure TextureData where
  path : String := ""
  width : Nat := 0
  height : Nat := 0
  channels : Nat := 0
  data : List Nat := []
deriving DecidableEq

/-- A track record (`SoundFile`).  A value-initialised `SoundFile` has every
field zero or empty, which is the default of each field here. -/
structure SoundFile where
  path : String := ""
  artist : String := ""
  title : String := ""
  releaseYear : Int := 0
  duration : Int := 0
  thumbnail : LfTexture := {}
  loaded : Bool := false
deriving DecidableEq

/-- Result of `SoundTagParser::getSoundMetadataNoThumbnail`. -/
structure SoundMetadata where
  artist : String := ""
  title : String := ""
  releaseYear : Int := 0
  duration : Int := 0
deriving DecidableEq

/-- A playlist (`Playlist`): directory, track collection, playing and
selected index (`-1` for none), loaded flag, and the contents of the
`.metadata` file of its directory. -/
structure Playlist where
  path : String := ""
  musicFiles : List SoundFile := []
  playingFile : Int := -1
  selectedFile : Int := -1
  loaded : Bool := false
  metadata : String := ""
deriving DecidableEq

/-- A pointer into the `musicFiles` vector of a playlist: the playlist and
the position of the addressed slot. -/
structure SoundFilePtr where
  playlist : Int
  index : Nat
deriving DecidableEq

/-- The playback backend session (`state.soundHandler`).
Modelled from the spec: `soundHandler.hpp` is not part of the sources; the
spec lists the boundary `init(path, sample_callback)`, `play()`, `stop()`,
`uninit()`, `set_position_seconds(x)` and the read-only `length_seconds`
populated by `init`. -/
structure SoundHandler where
  isInit : Bool := false
  isPlaying : Bool := false
  file : String := ""
  lengthInSeconds : Nat := 0
  positionInSeconds : Nat := 0
deriving DecidableEq

/-- A task handle of `state.playlistFileFutures`: the arguments the task was
started with (`files` is the playlist whose `musicFiles` vector the task
appends to, `addTo` is the `playlistIndex` argument of
`addFileToPlaylistAsync` and `none` for `loadPlaylistFileAsync`) and whether
the task has run. -/
structure Future where
  files : Int
  path : String
  addTo : Option Int := none
  finished : Bool := false
deriving DecidableEq

/-- The part of the global `state` the loading pipeline and the sequencer use.
The `float` quantities `deltaTime`, `soundPosUpdateTime` and
`soundPosUpdateTimer` are rational numbers of seconds; the rounding of a
`float` addition is not modelled.  `soundPosUpdateTimer` is set outside
`lyssa.cpp`; its value is a field and no property below depends on it. -/
structure State where
  playlists : List Playlist := []
  currentPlaylist : Int := 0
  playingPlaylist : Int := 0
  loadedPlaylistFilepaths : List String := []
  playlistFileThumbnailData : List TextureData := []
  playlistFileFutures : List Future := []
  currentSoundFile : Option SoundFilePtr := none
  previousSoundFile : Option SoundFilePtr := none
  currentSoundPos : Nat := 0
  previousSoundPos : Nat := 0
  soundHandler : SoundHandler := {}
  alreadyPlayedTracks : List Nat := []
  trackProgressSliderMax : Nat := 0
  shuffle : Bool := false
  replayTrack : Bool := false
  trackProgressSliderHeld : Bool := false
  deltaTime : ℚ := 0
  soundPosUpdateTime : ℚ := 0
  soundPosUpdateTimer : ℚ := 1
deriving DecidableEq

/-- External collaborators of `lyssa.cpp`: the compile-time switch of
`config.hpp`, the file system, the tag parser, the texture upload and the
audio decoder.  `metadataContainsFile contents path` is
`Playlist::metadataContainsFile` applied to a `.metadata` file with the given
contents. -/
structure Env where
  ASYNC_PLAYLIST_LOADING : Bool := true
  fileExists : String → Bool
  fileGood : String → Bool
  metadataIsOpen : String → Bool
  getSoundDuration : String → Int
  getSoundArtist : String → String
  getSoundTitle : String → String
  getSoundReleaseYear : String → Int
  getSoundThubmnailData : String → TextureData
  getSoundThubmnail : String → LfTexture
  getSoundMetadataNoThumbnail : String → SoundMetadata
  createTexture : TextureData → Nat
  lengthInSeconds : String → Nat
  isValidSoundFile : String → Bool := fun _ => true
  metadataContainsFile : String → String → Bool := fun _ _ => false

/-! ## Access to the playlists -/

/-- The playlist `state.playlists[i]`.  An index outside the vector is
undefined behaviour in the source; the model reads an empty playlist there. -/
def playlistAt (s : State) (i : Int) : Playlist :=
  if i < 0 then {} else s.playlists.getD i.toNat {}

/-- Update of `state.playlists[i]` in place (no effect outside the vector). -/
def modifyPlaylist (s : State) (i : Int) (f : Playlist → Playlist) : State :=
  if i < 0 then s else { s with playlists := s.playlists.modify f i.toNat }

/-- The call `files->emplace_back(file)` on the track collection of playlist `i`. -/
def emplaceFile (s : State) (i : Int) (file : SoundFile) : State :=
  modifyPlaylist s i (fun p => { p with musicFiles := p.musicFiles ++ [file] })

/-- The element a `SoundFile*` addresses, when the slot is inside the vector. -/
def deref (s : State) (ptr : SoundFilePtr) : Option SoundFile :=
  (playlistAt s ptr.playlist).musicFiles.get? ptr.index

/-- Equality of track records.
Modelled from the spec: `operator==` of `SoundFile` is declared in a header
that is not part of the sources; the spec states that equality and lookup of
track records are by path only. -/
def SoundFile.eq (a b : SoundFile) : Bool := a.path == b.path

/-- Membership test of the track collection.
Modelled from the spec: `Playlist::containsFile` is defined outside
`lyssa.cpp`; the spec describes it as the test whether a path is already
present among the tracks of the playlist. -/
def containsFile (s : State) (path : String) (playlistIndex : Int) : Bool :=
  (playlistAt s playlistIndex).musicFiles.any (fun f => f.path == path)

/-! ## Sorting -/

/-- Source function `compareSoundFilesByName` (lines 3283-3287). -/
def compareSoundFilesByName (a b : SoundFile) : Bool :=
  let filenameA := removeFileExtensionW (filename a.path)
  let filenameB := removeFileExtensionW (filename b.path)
  stringLt filenameA filenameB

/-- Source function `compareTextureDataByName` (lines 3288-3290). -/
def compareTextureDataByName (a b : TextureData) : Bool :=
  stringLt (removeFileExtension (filename a.path)) (removeFileExtension (filename b.path))

/-- Library function `std::sort(first, last, comp)`.  The standard fixes the
result up to the order of equivalent elements; the model is insertion sort,
which is what libstdc++ runs on ranges of fewer than 16 elements. -/
def stdSort {α : Type} (comp : α → α → Bool) (l : List α) : List α :=
  List.insertionSort (fun a b => comp b a = false) l

/-! ## The playback backend -/

/-- Backend call `init(path, callback)`. -/
def SoundHandler.init (env : Env) (_h : SoundHandler) (path : String) : SoundHandler :=
  { isInit := true, isPlaying := false, file := path,
    lengthInSeconds := env.lengthInSeconds path, positionInSeconds := 0 }

/-- Backend call `play()`. -/
def SoundHandler.play (h : SoundHandler) : SoundHandler := { h with isPlaying := true }

/-- Backend call `stop()`. -/
def SoundHandler.stop (h : SoundHandler) : SoundHandler := { h with isPlaying := false }

/-- Backend call `uninit()`. -/
def SoundHandler.uninit (h : SoundHandler) : SoundHandler := { h with isInit := false }

/-- Backend call `setPositionInSeconds(x)`. -/
def SoundHandler.setPositionInSeconds (h : SoundHandler) (x : Nat) : SoundHandler :=
  { h with positionInSeconds := x }

/-! ## Extraction tasks -/

/-- Source function `loadPlaylistFileAsync` (lines 3024-3045); `files` is the
playlist whose `musicFiles` vector the task was handed.  The whole body runs
under `state.mutex`. -/
def loadPlaylistFileAsync (env : Env) (s : State) (files : Int) (path : String) : State :=
  let file : SoundFile :=
    if env.fileExists path then
      { path := path, thumbnail := {}, duration := env.getSoundDuration path,
        artist := env.getSoundArtist path, title := env.getSoundTitle path,
        releaseYear := env.getSoundReleaseYear path }
    else
      { path := "File cannot be loaded", thumbnail := {}, duration := 0 }
  let s1 := emplaceFile s files file
  if env.fileExists path then
    { s1 with playlistFileThumbnailData :=
        s1.playlistFileThumbnailData ++ [env.getSoundThubmnailData path] }
  else
    { s1 with playlistFileThumbnailData := s1.playlistFileThumbnailData ++ [({} : TextureData)] }

/-- Source function `addFileToPlaylistAsync` (lines 3047-3080). -/
def addFileToPlaylistAsync (env : Env) (s : State) (files : Int) (path : String)
    (playlistIndex : Int) : State :=
  if !env.metadataIsOpen (playlistAt s playlistIndex).path then s
  else if !env.fileGood path then s
  else
    let s0 := modifyPlaylist s playlistIndex
      (fun p => { p with metadata := p.metadata ++ ("\"" ++ path ++ "\" ") })
    let file : SoundFile :=
      if env.fileExists path then
        { path := path, thumbnail := {}, duration := env.getSoundDuration path,
          artist := env.getSoundArtist path, title := env.getSoundTitle path,
          releaseYear := env.getSoundReleaseYear path }
      else
        { path := "File cannot be loaded", thumbnail := {}, duration := 0 }
    let s1 := emplaceFile s0 files file
    if env.fileExists path then
      { s1 with playlistFileThumbnailData :=
          s1.playlistFileThumbnailData ++ [env.getSoundThubmnailData path] }
    else
      { s1 with playlistFileThumbnailData := s1.playlistFileThumbnailData ++ [({} : TextureData)] }

/-- The function a task handle was started with, applied to its arguments. -/
def runTask (env : Env) (s : State) (fut : Future) : State :=
  match fut.addTo with
  | none => loadPlaylistFileAsync env s fut.files fut.path
  | some playlistIndex => addFileToPlaylistAsync env s fut.files fut.path playlistIndex

/-- Task `k` of `state.playlistFileFutures` runs to completion (one atomic
step, the task holds the mutex throughout).  A task runs once. -/
def completeTask (env : Env) (s : State) (k : Nat) : State :=
  match s.playlistFileFutures.get? k with
  | none => s
  | some fut =>
    if fut.finished then s
    else
      let s1 := runTask env s fut
      { s1 with playlistFileFutures := s1.playlistFileFutures.set k { fut with finished := true } }

/-- The loop `for (auto &future : state.playlistFileFutures) future.get();`
(lines 3309-3311): every task that has not run yet runs before the loop ends. -/
def joinFutures (env : Env) (s : State) : State :=
  (List.range s.playlistFileFutures.length).foldl (completeTask env) s

/-! ## Playback -/

/-- Source function `playlistPlayFileWithIndex` (lines 3110-3139).  Reading
`playlist.musicFiles[i]` outside the vector is undefined behaviour in the
source; the model reads a value-initialised track there. -/
def playlistPlayFileWithIndex (env : Env) (s : State) (i : Nat) (playlistIndex : Int) : State :=
  if !s.playlistFileFutures.isEmpty then s
  else
    let s := modifyPlaylist s playlistIndex
      (fun p => { p with playingFile := (i : Int), selectedFile := (i : Int) })
    let s := { s with soundHandler :=
      if s.soundHandler.isPlaying then s.soundHandler.stop else s.soundHandler }
    let s := { s with soundHandler :=
      if s.soundHandler.isInit then s.soundHandler.uninit else s.soundHandler }
    let s := { s with soundHandler :=
      (s.soundHandler.init env ((playlistAt s playlistIndex).musicFiles.getD i {}).path).play }
    let s := { s with currentSoundPos := 0 }
    let s := { s with trackProgressSliderMax := s.soundHandler.lengthInSeconds }
    let s := { s with alreadyPlayedTracks :=
      if s.playingPlaylist != playlistIndex then [] else s.alreadyPlayedTracks }
    let s := { s with playingPlaylist := playlistIndex }
    let s := { s with alreadyPlayedTracks :=
      if !s.alreadyPlayedTracks.contains i then s.alreadyPlayedTracks ++ [i]
      else s.alreadyPlayedTracks }
    { s with alreadyPlayedTracks :=
      if s.alreadyPlayedTracks.length ≥ (playlistAt s s.currentPlaylist).musicFiles.length
      then [] else s.alreadyPlayedTracks }

/-- Source function `terminateAudio` (lines 3222-3230). -/
def terminateAudio (env : Env) (s : State) : State :=
  if !s.soundHandler.isInit || !env.ASYNC_PLAYLIST_LOADING then s
  else
    let s := { s with soundHandler := s.soundHandler.stop }
    let s := { s with soundHandler := s.soundHandler.uninit }
    let s := { s with previousSoundFile := s.currentSoundFile }
    let s := { s with previousSoundPos := s.currentSoundPos }
    let s := { s with currentSoundFile := none }
    modifyPlaylist s s.currentPlaylist (fun p => { p with playingFile := -1 })

/-! ## The per-frame handler -/

/-- First loop of `handleAsyncPlaylistLoading` (lines 3293-3297) on the track
collection: the first `n` tracks get `loaded = true`. -/
def markLoadedFiles : Nat → List SoundFile → List SoundFile
  | 0, fs => fs
  | _ + 1, [] => []
  | n + 1, f :: fs => { f with loaded := true } :: markLoadedFiles n fs

/-- First loop of `handleAsyncPlaylistLoading` (lines 3293-3297). -/
def markLoaded (s : State) : State :=
  modifyPlaylist s s.currentPlaylist
    (fun p => { p with musicFiles := markLoadedFiles s.playlistFileThumbnailData.length p.musicFiles })

/-- The texture created from one thumbnail buffer (lines 3302-3306): the id
comes from `lf_create_texture_from_image_data`, width and height are copied. -/
def realize (env : Env) (data : TextureData) : LfTexture :=
  { id := env.createTexture data, width := data.width, height := data.height }

/-- Texture creation loop (lines 3300-3307) on the track collection: track
`i` gets the texture created from thumbnail buffer `i`. -/
def realizeThumbnails (env : Env) : List TextureData → List SoundFile → List SoundFile
  | [], fs => fs
  | _ :: _, [] => []
  | data :: ds, f :: fs => { f with thumbnail := realize env data } :: realizeThumbnails env ds fs

/-- Lines 3317-3327 of `handleAsyncPlaylistLoading`: the previously playing
track is looked up by the path read through `state.previousSoundFile` and
resumed at the captured position.  Reading through a pointer whose slot lies
outside the vector is undefined behaviour; the model does nothing there. -/
def restorePreviousSound (env : Env) (s : State) : State :=
  match s.previousSoundFile with
  | none => s
  | some ptr =>
    match deref s ptr with
    | none => s
    | some previous =>
      let playingPlaylist := playlistAt s s.playingPlaylist
      let it := playingPlaylist.musicFiles.findIdx
        (fun f => SoundFile.eq f { path := previous.path })
      if it < playingPlaylist.musicFiles.length then
        let index := it
        let s := playlistPlayFileWithIndex env s index s.playingPlaylist
        let s := { s with currentSoundFile := s.previousSoundFile }
        let s := { s with currentSoundPos := s.previousSoundPos }
        { s with soundHandler := s.soundHandler.setPositionInSeconds s.currentSoundPos }
      else s

/-- Body of the completion branch of `handleAsyncPlaylistLoading` (lines
3299-3328): create the textures, join the tasks, clear the handle set, sort
both collections and restore the previously playing track. -/
def finalizeBatch (env : Env) (s : State) : State :=
  let s := modifyPlaylist s s.currentPlaylist
    (fun p => { p with musicFiles := realizeThumbnails env s.playlistFileThumbnailData p.musicFiles })
  if s.currentPlaylist != -1 then
    let s := joinFutures env s
    let s := { s with playlistFileFutures := [] }
    let s := modifyPlaylist s s.currentPlaylist
      (fun p => { p with musicFiles := stdSort compareSoundFilesByName p.musicFiles })
    let sortedData := stdSort compareTextureDataByName s.playlistFileThumbnailData
    let s := { s with playlistFileThumbnailData := sortedData }
    restorePreviousSound env s
  else s

/-- Condition of line 3298: the track count equals the number of pending
paths and task handles are outstanding. -/
def batchComplete (s : State) : Bool :=
  s.loadedPlaylistFilepaths.length == (playlistAt s s.currentPlaylist).musicFiles.length
    && !s.playlistFileFutures.isEmpty

/-- Source function `handleAsyncPlaylistLoading` (lines 3292-3330). -/
def handleAsyncPlaylistLoading (env : Env) (s : State) : State :=
  let s := markLoaded s
  if batchComplete s then finalizeBatch env s else s

/-! ## Starting a load -/

/-- The track the synchronous branch of `loadPlaylistAsync` builds for one
path (lines 3343-3361). -/
def inlineSoundFile (env : Env) (path : String) : SoundFile :=
  if env.fileExists path then
    let metadata := env.getSoundMetadataNoThumbnail path
    { path := path, artist := metadata.artist, title := metadata.title,
      releaseYear := metadata.releaseYear, duration := metadata.duration,
      thumbnail := env.getSoundThubmnail path }
  else
    { path := "File cannot be loaded", duration := 0, thumbnail := {} }

/-- One iteration of the loop of `loadPlaylistAsync` (lines 3338-3365);
`playlist` is the playlist the function was called with. -/
def loadPlaylistAsyncIter (env : Env) (playlist : Int) (s : State) (path : String) : State :=
  if !containsFile s path s.currentPlaylist then
    if env.ASYNC_PLAYLIST_LOADING then
      { s with playlistFileFutures :=
          s.playlistFileFutures ++ [{ files := s.currentPlaylist, path := path }] }
    else
      emplaceFile s playlist (inlineSoundFile env path)
  else s

/-- Source function `loadPlaylistAsync` (lines 3332-3369); the argument is
the index of the playlist passed by reference (every caller passes
`state.playlists[state.currentPlaylist]`). -/
def loadPlaylistAsync (env : Env) (s : State) (playlist : Int) : State :=
  let s := modifyPlaylist s playlist (fun p => { p with musicFiles := [] })
  let s := { s with playlistFileThumbnailData := [] }
  let s := s.loadedPlaylistFilepaths.foldl (loadPlaylistAsyncIter env playlist) s
  if !env.ASYNC_PLAYLIST_LOADING then
    modifyPlaylist s playlist
      (fun p => { p with musicFiles := stdSort compareSoundFilesByName p.musicFiles })
  else s

/-- Lines 1369-1381 of `renderOnPlaylist` (the download has finished):
`metadataPaths` is what `PlaylistMetadata::getFilepaths` returns for the
download directory and `entries` lists the regular, valid `.mp3` files of
that directory; one `addFileToPlaylistAsync` task is started per entry that
is not yet among the tracks. -/
def dispatchDownloaded (s : State) (metadataPaths entries : List String) : State :=
  let s := { s with loadedPlaylistFilepaths := metadataPaths }
  entries.foldl (fun s entry =>
    if !containsFile s entry s.currentPlaylist then
      let s := { s with loadedPlaylistFilepaths := s.loadedPlaylistFilepaths ++ [entry] }
      { s with playlistFileFutures := s.playlistFileFutures ++
          [{ files := s.currentPlaylist, path := entry, addTo := some s.currentPlaylist }] }
    else s) s

/-- Lines 1348-1355 of `renderOnPlaylist`: the first frame of a running
download empties the track collection, the pending paths and the thumbnail
buffers.  The call `Playlist::save` of line 1352 writes the playlist to disk
and is outside the model. -/
def clearForDownload (s : State) : State :=
  let s := modifyPlaylist s s.currentPlaylist (fun p => { p with musicFiles := [] })
  let s := { s with loadedPlaylistFilepaths := [] }
  { s with playlistFileThumbnailData := [] }

/-! ## Interleavings -/

/-- A step of the running program while a batch is loading: task `k`
completes, or the main loop runs a frame. -/
inductive Event where
  | taskDone (k : Nat)
  | frame
deriving DecidableEq

/-- Effect of one event. -/
def step (env : Env) (s : State) : Event → State
  | Event.taskDone k => completeTask env s k
  | Event.frame => handleAsyncPlaylistLoading env s

/-- Effect of a sequence of events. -/
def run (env : Env) (s : State) (events : List Event) : State :=
  events.foldl (step env) s

/-! ## Vocabulary of the specification -/

/-- The key both comparison functions sort by: the file name of a path
without its extension. -/
def nameKey (path : String) : String := removeFileExtensionW (filename path)

/-- The track record a `loadPlaylistFileAsync` task appends for `path`. -/
def loadedTrack (env : Env) (path : String) : SoundFile :=
  if env.fileExists path then
    { path := path, thumbnail := {}, duration := env.getSoundDuration path,
      artist := env.getSoundArtist path, title := env.getSoundTitle path,
      releaseYear := env.getSoundReleaseYear path }
  else
    { path := "File cannot be loaded", thumbnail := {}, duration := 0 }

/-- The thumbnail buffer a `loadPlaylistFileAsync` task appends for `path`. -/
def loadedThumbnailData (env : Env) (path : String) : TextureData :=
  if env.fileExists path then env.getSoundThubmnailData path else {}

/-- The track of `path` once its batch is finalized: marked loaded, with the
texture created from the buffer of the same task. -/
def finalTrack (env : Env) (path : String) : SoundFile :=
  { loadedTrack env path with
    thumbnail := realize env (loadedThumbnailData env path), loaded := true }

/-- The track collection of playlist `i`. -/
def musicFilesOf (s : State) (i : Int) : List SoundFile := (playlistAt s i).musicFiles

/-- A track record with its `loaded` flag cleared. -/
def unloaded (file : SoundFile) : SoundFile := { file with loaded := false }

/-- A task handle with its completion flag cleared. -/
def Future.started (fut : Future) : Future := { fut with finished := false }

/-- The paths of the tasks that have run. -/
def finishedPaths (futures : List Future) : List String :=
  (futures.filter (fun fut => fut.finished)).map (fun fut => fut.path)

/-- A collection is in non-descending order of the file-name key. -/
def SortedByName (files : List SoundFile) : Prop :=
  List.Pairwise (fun a b => stringLt (nameKey b.path) (nameKey a.path) = false) files

/-- A batch in flight: the handles are the tasks started for `paths` on
playlist `cur`, and the two collections hold, in the same order, the results
of the tasks that have run. -/
def Loading (env : Env) (cur : Nat) (paths : List String) (s : State) : Prop :=
  s.currentPlaylist = (cur : Int) ∧ cur < s.playlists.length ∧
  s.loadedPlaylistFilepaths = paths ∧
  s.playlistFileFutures.map Future.started =
    paths.map (fun p => ({ files := (cur : Int), path := p } : Future)) ∧
  ∃ ps : List String, ps.Perm (finishedPaths s.playlistFileFutures) ∧
    (musicFilesOf s cur).map unloaded = ps.map (loadedTrack env) ∧
    s.playlistFileThumbnailData = ps.map (loadedThumbnailData env)

/-- A finalized batch: no handles, the tracks are the final tracks of
`paths` in sorted order, the buffers are those of `paths`. -/
def Finalized (env : Env) (cur : Nat) (paths : List String) (s : State) : Prop :=
  s.currentPlaylist = (cur : Int) ∧ cur < s.playlists.length ∧
  s.loadedPlaylistFilepaths = paths ∧
  s.playlistFileFutures = [] ∧
  (musicFilesOf s cur).Perm (paths.map (finalTrack env)) ∧
  SortedByName (musicFilesOf s cur) ∧
  s.playlistFileThumbnailData.Perm (paths.map (loadedThumbnailData env))


/-! ## Skipping -/

/-- The redraw loop of `skipSoundUp` (lines 3151-3154): indices are drawn
until one is not in the already-played set.  `draws` is the sequence of
values `random.randInt()` returns; `none` means that every supplied draw was
in the set, so the loop is still running when the sequence ends. -/
def shuffleDraw (alreadyPlayedTracks : List Nat) : List Nat → Option Nat
  | [] => none
  | d :: draws =>
    if alreadyPlayedTracks.contains d then shuffleDraw alreadyPlayedTracks draws else some d

/-- The assignments `playlist.playingFile = playingFile` and
`state.currentSoundFile = &playlist.musicFiles[playlist.playingFile]` of the
skip functions (lines 3146-3157 and 3174-3178).  Reading `musicFiles` at a
negative index is undefined behaviour; the model addresses slot 0 there. -/
def setPlayingFile (s : State) (playlistIndex : Int) (playingFile : Int) : State :=
  let s := modifyPlaylist s playlistIndex (fun p => { p with playingFile := playingFile })
  let currentSoundFile : SoundFilePtr :=
    { playlist := playlistIndex, index := playingFile.toNat }
  { s with currentSoundFile := some currentSoundFile }

/-- Source function `skipSoundUp` (lines 3141-3168).  `draws` are the values
of `RandomEngine::randInt` (declared outside `lyssa.cpp`, constructed for the
range from 0 to the last index); the result is `none` when the redraw loop
has not ended within `draws`.  The playing index is `-1` or a position, so
the comparison of line 3145 between a signed and an unsigned value does not
wrap.  The thumbnail of the track tab and the scroll position (lines
3158-3163 and 3166-3167) belong to the rendering state and are not part of
`State`. -/
def skipSoundUp (env : Env) (s : State) (playlistInedx : Int) (draws : List Nat) :
    Option State :=
  let playlist := playlistAt s playlistInedx
  let selected : Option Int :=
    if !s.shuffle then
      if playlist.playingFile + 1 < (playlist.musicFiles.length : Int)
        then some (playlist.playingFile + 1)
        else some 0
    else
      Option.map Int.ofNat (shuffleDraw s.alreadyPlayedTracks draws)
  match selected with
  | none => none
  | some playingFile =>
    let s := setPlayingFile s playlistInedx playingFile
    some (playlistPlayFileWithIndex env s playingFile.toNat playlistInedx)

/-- Source function `skipSoundDown` (lines 3170-3188); the rendering state
is left out as in `skipSoundUp`. -/
def skipSoundDown (env : Env) (s : State) (playlistIndex : Int) : State :=
  let playlist := playlistAt s playlistIndex
  let playingFile : Int :=
    if playlist.playingFile - 1 ≥ 0 then playlist.playingFile - 1
    else (playlist.musicFiles.length : Int) - 1
  let s := setPlayingFile s playlistIndex playingFile
  playlistPlayFileWithIndex env s playingFile.toNat playlistIndex

/-- The already-played set with index `i` recorded for playlist
`playlistIndex`, before the lap check (lines 3128-3135): emptied first when
the active playlist changes, then `i` is added unless present. -/
def recordPlayed (s : State) (i : Nat) (playlistIndex : Int) : List Nat :=
  let cleared := if s.playingPlaylist != playlistIndex then [] else s.alreadyPlayedTracks
  if !cleared.contains i then cleared ++ [i] else cleared


/-! ## The position clock -/

/-- First block of `updateSoundProgress` (lines 3194-3200): while the
position can still advance and the session plays, the frame time is added to
the accumulator, and an accumulator that has reached the update interval is
reset and moves the position counter by one. -/
def advanceSoundPos (s : State) : State :=
  if decide (s.currentSoundPos + 1 ≤ s.soundHandler.lengthInSeconds)
      && s.soundHandler.isPlaying then
    let s := { s with soundPosUpdateTime := s.soundPosUpdateTime + s.deltaTime }
    { s with
      currentSoundPos :=
        if s.soundPosUpdateTime ≥ s.soundPosUpdateTimer then s.currentSoundPos + 1
        else s.currentSoundPos
      soundPosUpdateTime :=
        if s.soundPosUpdateTime ≥ s.soundPosUpdateTimer then 0 else s.soundPosUpdateTime }
  else s

/-- Second block of `updateSoundProgress` (lines 3202-3209): the end of the
track.  `draws` is handed to `skipSoundUp`. -/
def endOfTrack (env : Env) (s : State) (draws : List Nat) : Option State :=
  if decide (s.currentSoundPos ≥ s.soundHandler.lengthInSeconds)
      && !s.trackProgressSliderHeld then
    if !s.replayTrack then skipSoundUp env s s.currentPlaylist draws
    else
      let s := { s with currentSoundPos := 0 }
      some { s with soundHandler := s.soundHandler.setPositionInSeconds s.currentSoundPos }
  else some s

/-- Source function `updateSoundProgress` (lines 3189-3210), called once per
frame of the main loop (line 3512). -/
def updateSoundProgress (env : Env) (s : State) (draws : List Nat) : Option State :=
  if !s.soundHandler.isInit then some s
  else endOfTrack env (advanceSoundPos s) draws

/-- Outcome of `moveFileInPlaylistIdx`: whether `LOG_ERROR` was called, and
the state the call returns with.  `result` is `none` when the call accesses
the vector outside its bounds, which is undefined behaviour. -/
structure MoveOutcome where
  errorLogged : Bool
  result : Option State
deriving DecidableEq

/-- Lines 3100-3107 of `moveFileInPlaylistIdx` on the vector: the element is
read with `files[fromIndex]` and moved with `insert` and `erase`.  The read
needs `fromIndex` to be a position of the vector and `insert` needs a
position not behind its end; otherwise the behaviour is undefined (`none`).
In the second branch `toIndex` is not above `fromIndex`, so both positions
are valid once the read is. -/
def moveFile (files : List SoundFile) (fromIndex toIndex : Nat) : Option (List SoundFile) :=
  match files.get? fromIndex with
  | none => none
  | some element =>
    if fromIndex < toIndex then
      if toIndex + 1 ≤ files.length then
        some ((files.insertIdx (toIndex + 1) element).eraseIdx fromIndex)
      else none
    else
      some ((files.eraseIdx fromIndex).insertIdx toIndex element)

/-- Source function `moveFileInPlaylistIdx` (lines 3094-3108).  The indices
are unsigned, so the two comparisons with 0 of line 3096 are false.  There is
no `return` after `LOG_ERROR`. -/
def moveFileInPlaylistIdx (s : State) (playlistIndex : Int) (fromIndex toIndex : Nat) :
    MoveOutcome :=
  let files := (playlistAt s playlistIndex).musicFiles
  { errorLogged := decide (fromIndex ≥ files.length) || decide (toIndex ≥ files.length)
    result :=
      (moveFile files fromIndex toIndex).map (fun moved =>
        modifyPlaylist s playlistIndex (fun p => { p with musicFiles := moved })) }

/-! ## Writing the membership file -/

/-- An `std::ofstream` opened on a `.metadata` file with `std::ios::app`:
whether opening succeeded, and the contents of the file.  In append mode
every output goes to the end of the file, whatever `seekp` was called
before. -/
structure AppendStream where
  isOpen : Bool := true
  contents : String := ""
deriving DecidableEq

/-- The output `metadata << text`; output to a stream that is not open is
discarded. -/
def AppendStream.write (metadata : AppendStream) (text : String) : AppendStream :=
  { metadata with contents := if metadata.isOpen then metadata.contents ++ text
                               else metadata.contents }

/-- A `std::filesystem::directory_entry`. -/
structure DirectoryEntry where
  path : String
  isDirectory : Bool := false
  isRegularFile : Bool := true
deriving DecidableEq

/-- Library function `std::filesystem::path::extension()`: the part of the
file name from its last dot on; empty when there is no dot, when the only
dot is the first character, and for the names `.` and `..`. -/
def extension (path : String) : String :=
  let name := filename path
  match rfind name '.' with
  | none => ""
  | some lastDotIndex =>
    if lastDotIndex = 0 || name = ".." then ""
    else String.mk (name.data.drop lastDotIndex)

/-- Key G of `handleTabKeyStrokes` with the favourites playlist not loaded
(lines 257-261): the path of the playing track is written to the
`.metadata` file of the favourites. -/
def appendFavourite (metadata : AppendStream) (selectedPath : String) : AppendStream :=
  ((metadata.write "\"").write selectedPath).write "\" "

/-- Creation of a playlist from a folder in `renderCreatePlaylistFromFolder`
(lines 1040-1047): the loop over the entries of the folder. -/
def writeFolderEntries (env : Env) (metadata : AppendStream) (entries : List DirectoryEntry) :
    AppendStream :=
  entries.foldl (fun metadata entry =>
    if !entry.isDirectory && env.isValidSoundFile entry.path then
      ((metadata.write "\"").write entry.path).write "\" "
    else metadata) metadata

/-- End of a download in `renderDownloadPlaylist` (lines 1234-1243): the loop
over the entries of the download directory. -/
def writeDownloadedEntries (metadata : AppendStream) (entries : List DirectoryEntry) :
    AppendStream :=
  entries.foldl (fun metadata entry =>
    if entry.isRegularFile && extension entry.path == ".mp3" then
      ((metadata.write "\"").write entry.path).write "\" "
    else metadata) metadata

/-- Button `Add All` of `renderTopBarAddFromFolder` (lines 2316-2326): the
loop over the folder contents, which also records the written paths as
pending.  `onDisk` is the contents of the `.metadata` file that
`Playlist::metadataContainsFile` reads; the stream is flushed when it is
closed after the loop. -/
def addAllFromFolder (env : Env) (onDisk : String) (metadata : AppendStream)
    (loadedPlaylistFilepaths : List String) (folderContents : List DirectoryEntry) :
    AppendStream × List String :=
  folderContents.foldl (fun acc entry =>
    if !entry.isDirectory && !env.metadataContainsFile onDisk entry.path
        && env.isValidSoundFile entry.path then
      (((acc.1.write "\"").write entry.path).write "\" ", acc.2 ++ [entry.path])
    else acc) (metadata, loadedPlaylistFilepaths)

/-- Click on a file in `renderPlaylistAddFromFolder` (lines 2379-2386); the
condition of the `if` without the click itself. -/
def addFileFromFolder (env : Env) (onDisk : String) (metadata : AppendStream)
    (loadedPlaylistFilepaths : List String) (entry : DirectoryEntry) :
    AppendStream × List String :=
  if !entry.isDirectory && !env.metadataContainsFile onDisk entry.path
      && env.isValidSoundFile entry.path then
    (((metadata.write "\"").write entry.path).write "\" ", loadedPlaylistFilepaths ++ [entry.path])
  else (metadata, loadedPlaylistFilepaths)

/-! ## Vocabulary of the specification: the membership file -/

/-- The token of a path in a `.metadata` file: a double quote (code point
34), the path, a double quote and one space (code point 32). -/
def quotedToken (path : String) : String :=
  String.mk ([Char.ofNat 34] ++ path.data ++ [Char.ofNat 34, Char.ofNat 32])

/-- The tokens of a sequence of paths, one after the other. -/
def quotedTokens : List String → String
  | [] => ""
  | path :: paths => quotedToken path ++ quotedTokens paths
/-! ## Sample inputs -/

/-- A sample environment: every file exists except `/music/gone.mp3`, only
`/music/a.mp3` has a tag title, and a thumbnail buffer records the path it
was decoded from. -/
def sampleEnv : Env :=
  { ASYNC_PLAYLIST_LOADING := true
    fileExists := fun p => p != "/music/gone.mp3"
    fileGood := fun p => p != "/music/gone.mp3"
    metadataIsOpen := fun _ => true
    getSoundDuration := fun _ => 180
    getSoundArtist := fun _ => ""
    getSoundTitle := fun p => if p == "/music/a.mp3" then "zebra" else ""
    getSoundReleaseYear := fun _ => 0
    getSoundThubmnailData := fun p =>
      { path := p, width := 1, height := 1, channels := 4, data := [p.length] }
    getSoundThubmnail := fun p => { id := p.length + 1, width := 1, height := 1 }
    getSoundMetadataNoThumbnail := fun p =>
      { title := if p == "/music/a.mp3" then "zebra" else "", duration := 180 }
    createTexture := fun d => d.data.sum + 1
    lengthInSeconds := fun _ => 180 }

/-- The sample environment with `ASYNC_PLAYLIST_LOADING` switched off. -/
def sampleSyncEnv : Env := { sampleEnv with ASYNC_PLAYLIST_LOADING := false }

/-- A state with one playlist, nothing loaded, and the given pending paths. -/
def sampleState (paths : List String) : State :=
  { playlists := [{ path := "/playlists/mix" }], loadedPlaylistFilepaths := paths }

/-- A batch of three paths, one of them missing, run to its finalization. -/
def sampleBatch : State :=
  run sampleEnv
    (loadPlaylistAsync sampleEnv
      (sampleState ["/music/b.mp3", "/music/gone.mp3", "/music/a.mp3"]) 0)
    [Event.taskDone 2, Event.frame, Event.taskDone 0, Event.taskDone 1, Event.frame]

/-- The sample batch with all three tasks run and no frame since. -/
def sampleLoaded : State :=
  run sampleEnv
    (loadPlaylistAsync sampleEnv
      (sampleState ["/music/b.mp3", "/music/gone.mp3", "/music/a.mp3"]) 0)
    [Event.taskDone 2, Event.taskDone 0, Event.taskDone 1]

/-- A download sync that found `/music/gone.mp3`, a file that can no longer
be opened when its task runs: the state after the dispatch of line 1377, the
completion of the task and a frame. -/
def sampleStalled : State :=
  run sampleEnv (dispatchDownloaded (sampleState []) [] ["/music/gone.mp3"])
    [Event.taskDone 0, Event.frame]

/-- A playlist whose two tracks were put in the order `b`, `a` by a drag
reorder; track `b` (slot 0) is playing at second 42. -/
def samplePlaying : State :=
  { playlists := [{ path := "/playlists/mix",
                    musicFiles := [finalTrack sampleEnv "/music/b.mp3",
                                   finalTrack sampleEnv "/music/a.mp3"],
                    playingFile := 0, selectedFile := 0, loaded := true }]
    currentSoundFile := some { playlist := 0, index := 0 }
    currentSoundPos := 42
    soundHandler := { isInit := true, isPlaying := true, file := "/music/b.mp3",
                      lengthInSeconds := 180, positionInSeconds := 42 }
    alreadyPlayedTracks := [0]
    trackProgressSliderMax := 180 }

/-- The download sync started while `samplePlaying` plays: `terminateAudio`
(line 1461), the first frame of the download (lines 1348-1355), the dispatch
once the download has finished (lines 1369-1381), both tasks, one frame. -/
def sampleResumed : State :=
  run sampleEnv
    (dispatchDownloaded (clearForDownload (terminateAudio sampleEnv samplePlaying)) []
      ["/music/a.mp3", "/music/b.mp3"])
    [Event.taskDone 0, Event.taskDone 1, Event.frame]


/-- The track records of loaded, finalized tracks for the given paths. -/
def sampleTracks (paths : List String) : List SoundFile := paths.map (finalTrack sampleEnv)

/-- Three loaded playlists, with three tracks (index 0), one track (index 1)
and two tracks (index 2); nothing is loading and nothing plays.  The viewed
playlist, the active playlist, the already-played set and the shuffle flag
are the arguments. -/
def sampleLibrary (currentPlaylist playingPlaylist : Int) (alreadyPlayedTracks : List Nat)
    (shuffle : Bool) : State :=
  { playlists :=
      [{ path := "/playlists/three", loaded := true,
         musicFiles := sampleTracks ["/music/a.mp3", "/music/b.mp3", "/music/c.mp3"] },
       { path := "/playlists/one", loaded := true,
         musicFiles := sampleTracks ["/music/d.mp3"] },
       { path := "/playlists/two", loaded := true,
         musicFiles := sampleTracks ["/music/e.mp3", "/music/f.mp3"] }]
    currentPlaylist := currentPlaylist
    playingPlaylist := playingPlaylist
    alreadyPlayedTracks := alreadyPlayedTracks
    shuffle := shuffle }

/-- The sample batch with two of its three tasks run: two tracks are in the
collection, one task handle is outstanding, nothing plays. -/
def sampleHalfLoaded : State :=
  run sampleEnv
    (loadPlaylistAsync sampleEnv
      (sampleState ["/music/a.mp3", "/music/b.mp3", "/music/c.mp3"]) 0)
    [Event.taskDone 0, Event.taskDone 1]

/-- One loaded playlist without tracks, which is the viewed one. -/
def sampleEmpty : State :=
  { playlists := [{ path := "/playlists/empty", loaded := true }], currentPlaylist := 0 }

/-- Playlist 0 (three tracks) is viewed, shuffle is on, nothing was played;
track 0 is started by a click (line 1847). -/
def sampleFirstPlay : State :=
  playlistPlayFileWithIndex sampleEnv (sampleLibrary 0 0 [] true) 0 0

/-- After `sampleFirstPlay` the user opens playlist 1 (one track, already
loaded): line 666 sets `state.currentPlaylist`, playback goes on. -/
def sampleBrowsing : State := { sampleFirstPlay with currentPlaylist := 1 }


/-- Playlist 0 (three tracks) and playlist 1, which is not loaded yet; track 0
of playlist 0, 180 seconds long, was started 179 seconds ago, and a frame
lasts one second. -/
def sampleListening : State :=
  { playlistPlayFileWithIndex sampleEnv
      { playlists :=
          [{ path := "/playlists/three", loaded := true,
             musicFiles := sampleTracks ["/music/a.mp3", "/music/b.mp3", "/music/c.mp3"] },
           { path := "/playlists/new" }] } 0 0 with
    currentSoundPos := 179
    deltaTime := 1 }

/-- The state `sampleListening` with replay switched on. -/
def sampleReplaying : State := { sampleListening with replayTrack := true }

/-- A reload while the playlist is loading: of the two pending paths the task
of the first has run when the user, back from the add-from-folder tab with
one file added (lines 2398-2411), makes `loadPlaylistAsync` run again with
three pending paths. -/
def sampleReloaded : State :=
  loadPlaylistAsync sampleEnv
    { run sampleEnv
        (loadPlaylistAsync sampleEnv (sampleState ["/music/a.mp3", "/music/b.mp3"]) 0)
        [Event.taskDone 0, Event.frame] with
      loadedPlaylistFilepaths := ["/music/a.mp3", "/music/b.mp3", "/music/c.mp3"] } 0

/-- The state `sampleBrowsing` when the playing track has reached its end. -/
def sampleBrowsingEnd : State := { sampleBrowsing with currentSoundPos := 180 }


/-! ## The order on sort keys -/

theorem ltChars_iff_lex (a b : List Char) :
    ltChars a b = true ↔ List.Lex (fun x y : Char => x < y) a b := by
  induction a generalizing b with
  | nil =>
    cases b with
    | nil => simp [ltChars]
    | cons y ys => simp [ltChars, List.Lex.nil]
  | cons x xs ih =>
    cases b with
    | nil => simp [ltChars]
    | cons y ys =>
      unfold ltChars
      by_cases hxy : x < y
      · simp [hxy, List.Lex.rel hxy]
      · by_cases hyx : y < x
        · simp only [hxy, hyx, if_false, if_true]
          constructor
          · intro h; cases h
          · intro h
            cases h with
            | cons h1 => exact absurd hyx (lt_irrefl _)
            | rel h1 => exact absurd h1 hxy
        · have hEq : x = y := le_antisymm (not_lt.mp hyx) (not_lt.mp hxy)
          subst hEq
          simp only [hxy, if_false]
          rw [ih ys, List.Lex.cons_iff]

theorem stringLt_asymm (a b : String) (h : stringLt a b = true) : stringLt b a = false := by
  unfold stringLt at *
  rw [ltChars_iff_lex] at h
  cases hba : ltChars b.data a.data with
  | false => rfl
  | true =>
    rw [ltChars_iff_lex] at hba
    exact absurd hba (asymm h)

theorem stringLt_connected (a b c : String) (h : stringLt a c = true) :
    stringLt a b = true ∨ stringLt b c = true := by
  unfold stringLt at *
  rw [ltChars_iff_lex] at h
  rw [ltChars_iff_lex, ltChars_iff_lex]
  exact IsOrderConnected.conn _ _ _ h

theorem stringLt_trichotomy (a b : String) (h1 : stringLt a b = false)
    (h2 : stringLt b a = false) : a = b := by
  unfold stringLt at *
  have n1 : ¬ List.Lex (fun x y : Char => x < y) a.data b.data := by
    rw [← ltChars_iff_lex]; simp [h1]
  have n2 : ¬ List.Lex (fun x y : Char => x < y) b.data a.data := by
    rw [← ltChars_iff_lex]; simp [h2]
  have h := trichotomous_of (List.Lex (fun x y : Char => x < y)) a.data b.data
  rcases h with h | h | h
  · exact absurd h n1
  · cases a; cases b; simp_all
  · exact absurd h n2


/-! ## Sorting -/

theorem stdSort_perm {α : Type} (comp : α → α → Bool) (l : List α) :
    (stdSort comp l).Perm l :=
  List.perm_insertionSort _ l

theorem stdSort_length {α : Type} (comp : α → α → Bool) (l : List α) :
    (stdSort comp l).length = l.length :=
  (stdSort_perm comp l).length_eq

theorem mem_stdSort {α : Type} (comp : α → α → Bool) (l : List α) (a : α) :
    a ∈ stdSort comp l ↔ a ∈ l :=
  (stdSort_perm comp l).mem_iff

/-- The result of `stdSort` is in non-descending order when the comparison
is `stringLt` on a key. -/
theorem stdSort_sorted {α : Type} (key : α → String) (l : List α) :
    List.Pairwise (fun a b => stringLt (key b) (key a) = false)
      (stdSort (fun a b => stringLt (key a) (key b)) l) := by
  have tot : IsTotal α (fun a b => stringLt (key b) (key a) = false) :=
    ⟨fun a b => by
      cases h : stringLt (key b) (key a) with
      | false => exact Or.inl rfl
      | true => exact Or.inr (stringLt_asymm _ _ h)⟩
  have tr : IsTrans α (fun a b => stringLt (key b) (key a) = false) :=
    ⟨fun a b c hab hbc => by
      cases h : stringLt (key c) (key a) with
      | false => rfl
      | true =>
        rcases stringLt_connected _ (key b) _ h with h1 | h1
        · rw [hbc] at h1; cases h1
        · rw [hab] at h1; cases h1⟩
  exact @List.sorted_insertionSort α (fun a b => stringLt (key b) (key a) = false) _ tot tr l

/-- Two sorted arrangements of the same elements coincide when elements with
equal keys are equal. -/
theorem sorted_perm_unique {α : Type} (key : α → String) :
    ∀ (l1 l2 : List α), l1.Perm l2 →
      List.Pairwise (fun a b => stringLt (key b) (key a) = false) l1 →
      List.Pairwise (fun a b => stringLt (key b) (key a) = false) l2 →
      (∀ a ∈ l1, ∀ b ∈ l1, key a = key b → a = b) → l1 = l2
  | [], l2, hp, _, _, _ => hp.nil_eq
  | a :: t1, [], hp, _, _, _ => absurd hp.symm.nil_eq (by simp)
  | a :: t1, b :: t2, hp, h1, h2, hk => by
    have hab : a = b := by
      by_cases hEq : a = b
      · exact hEq
      · have ha2 : a ∈ b :: t2 := hp.subset (List.mem_cons_self _ _)
        have hb1 : b ∈ a :: t1 := hp.symm.subset (List.mem_cons_self _ _)
        have ha2t : a ∈ t2 := by
          rcases List.mem_cons.mp ha2 with h | h
          · exact absurd h hEq
          · exact h
        have hb1t : b ∈ t1 := by
          rcases List.mem_cons.mp hb1 with h | h
          · exact absurd h.symm hEq
          · exact h
        have r1 := List.rel_of_pairwise_cons h1 hb1t
        have r2 := List.rel_of_pairwise_cons h2 ha2t
        exact hk a (List.mem_cons_self _ _) b hb1 (stringLt_trichotomy _ _ r2 r1)
    subst hab
    have hp2 : t1.Perm t2 := hp.cons_inv
    have ih := sorted_perm_unique key t1 t2 hp2 h1.of_cons h2.of_cons
      (fun x hx y hy => hk x (List.mem_cons_of_mem _ hx) y (List.mem_cons_of_mem _ hy))
    rw [ih]

/-! ## Access to the playlists -/

theorem playlistAt_modifyPlaylist (s : State) (i j : Int) (f : Playlist → Playlist) :
    playlistAt (modifyPlaylist s i f) j =
      if i = j ∧ 0 ≤ j ∧ j.toNat < s.playlists.length then f (playlistAt s j)
      else playlistAt s j := by
  unfold modifyPlaylist playlistAt
  by_cases hi : i < 0
  · have hne : ¬ (i = j ∧ 0 ≤ j ∧ j.toNat < s.playlists.length) := by
      rintro ⟨h1, h2, _⟩; omega
    simp [hi, hne]
  · by_cases hj : j < 0
    · have hne : ¬ (i = j ∧ 0 ≤ j ∧ j.toNat < s.playlists.length) := by
        rintro ⟨h1, h2, _⟩; omega
      simp [hi, hj, hne]
    · simp only [hi, hj, if_false, List.getD_eq_getElem?_getD, List.getElem?_modify]
      by_cases hij : i = j
      · subst hij
        by_cases hlen : i.toNat < s.playlists.length
        · have h0 : 0 ≤ i := by omega
          simp [hlen, h0, List.getElem?_eq_getElem]
        · have hnone : s.playlists[i.toNat]? = none := List.getElem?_eq_none (by omega)
          simp [hlen, hnone]
      · have hne : i.toNat ≠ j.toNat := by omega
        simp [hij, hne]


@[simp] theorem modifyPlaylist_currentPlaylist (s : State) (i : Int) (f : Playlist → Playlist) :
    (modifyPlaylist s i f).currentPlaylist = s.currentPlaylist := by
  unfold modifyPlaylist; split <;> rfl

@[simp] theorem modifyPlaylist_playingPlaylist (s : State) (i : Int) (f : Playlist → Playlist) :
    (modifyPlaylist s i f).playingPlaylist = s.playingPlaylist := by
  unfold modifyPlaylist; split <;> rfl

@[simp] theorem modifyPlaylist_loadedPlaylistFilepaths (s : State) (i : Int)
    (f : Playlist → Playlist) :
    (modifyPlaylist s i f).loadedPlaylistFilepaths = s.loadedPlaylistFilepaths := by
  unfold modifyPlaylist; split <;> rfl

@[simp] theorem modifyPlaylist_playlistFileThumbnailData (s : State) (i : Int)
    (f : Playlist → Playlist) :
    (modifyPlaylist s i f).playlistFileThumbnailData = s.playlistFileThumbnailData := by
  unfold modifyPlaylist; split <;> rfl

@[simp] theorem modifyPlaylist_playlistFileFutures (s : State) (i : Int)
    (f : Playlist → Playlist) :
    (modifyPlaylist s i f).playlistFileFutures = s.playlistFileFutures := by
  unfold modifyPlaylist; split <;> rfl

@[simp] theorem modifyPlaylist_previousSoundFile (s : State) (i : Int)
    (f : Playlist → Playlist) :
    (modifyPlaylist s i f).previousSoundFile = s.previousSoundFile := by
  unfold modifyPlaylist; split <;> rfl

@[simp] theorem modifyPlaylist_previousSoundPos (s : State) (i : Int)
    (f : Playlist → Playlist) :
    (modifyPlaylist s i f).previousSoundPos = s.previousSoundPos := by
  unfold modifyPlaylist; split <;> rfl

@[simp] theorem modifyPlaylist_currentSoundPos (s : State) (i : Int)
    (f : Playlist → Playlist) :
    (modifyPlaylist s i f).currentSoundPos = s.currentSoundPos := by
  unfold modifyPlaylist; split <;> rfl

@[simp] theorem modifyPlaylist_soundHandler (s : State) (i : Int)
    (f : Playlist → Playlist) :
    (modifyPlaylist s i f).soundHandler = s.soundHandler := by
  unfold modifyPlaylist; split <;> rfl

@[simp] theorem modifyPlaylist_alreadyPlayedTracks (s : State) (i : Int)
    (f : Playlist → Playlist) :
    (modifyPlaylist s i f).alreadyPlayedTracks = s.alreadyPlayedTracks := by
  unfold modifyPlaylist; split <;> rfl

@[simp] theorem modifyPlaylist_length (s : State) (i : Int) (f : Playlist → Playlist) :
    (modifyPlaylist s i f).playlists.length = s.playlists.length := by
  unfold modifyPlaylist; split <;> simp

/-- An update that keeps the track collection of a playlist keeps every
track collection of the state. -/
theorem musicFilesOf_modifyPlaylist_keep (s : State) (i j : Int) (f : Playlist → Playlist)
    (hf : ∀ p, (f p).musicFiles = p.musicFiles) :
    musicFilesOf (modifyPlaylist s i f) j = musicFilesOf s j := by
  unfold musicFilesOf
  rw [playlistAt_modifyPlaylist]
  split
  · exact hf _
  · rfl

/-- The track collection of the updated playlist, for an index inside the vector. -/
theorem musicFilesOf_modifyPlaylist_self (s : State) (cur : Nat) (f : Playlist → Playlist)
    (h : cur < s.playlists.length) :
    musicFilesOf (modifyPlaylist s (cur : Int) f) (cur : Int)
      = (f (playlistAt s (cur : Int))).musicFiles := by
  unfold musicFilesOf
  rw [playlistAt_modifyPlaylist]
  have hc : ((cur : Int) = (cur : Int) ∧ (0 : Int) ≤ (cur : Int)
      ∧ ((cur : Int)).toNat < s.playlists.length) := ⟨rfl, by omega, by simpa using h⟩
  rw [if_pos hc]

theorem loadPlaylistFileAsync_eq (env : Env) (s : State) (files : Int) (path : String) :
    loadPlaylistFileAsync env s files path =
      { emplaceFile s files (loadedTrack env path) with
        playlistFileThumbnailData :=
          s.playlistFileThumbnailData ++ [loadedThumbnailData env path] } := by
  unfold loadPlaylistFileAsync loadedTrack loadedThumbnailData emplaceFile
  by_cases h : env.fileExists path <;> simp [h]

theorem musicFilesOf_congr (s t : State) (j : Int) (h : s.playlists = t.playlists) :
    musicFilesOf s j = musicFilesOf t j := by
  unfold musicFilesOf playlistAt
  rw [h]

theorem playlistPlayFileWithIndex_playlists (env : Env) (s : State) (i : Nat)
    (playlistIndex : Int) :
    (playlistPlayFileWithIndex env s i playlistIndex).playlists =
      if (!s.playlistFileFutures.isEmpty) = true then s.playlists
      else (modifyPlaylist s playlistIndex
        (fun p => { p with playingFile := (i : Int), selectedFile := (i : Int) })).playlists := by
  unfold playlistPlayFileWithIndex
  split <;> rfl

theorem playlistPlayFileWithIndex_musicFilesOf (env : Env) (s : State) (i : Nat)
    (playlistIndex j : Int) :
    musicFilesOf (playlistPlayFileWithIndex env s i playlistIndex) j = musicFilesOf s j := by
  have key : musicFilesOf (modifyPlaylist s playlistIndex
      (fun p => { p with playingFile := (i : Int), selectedFile := (i : Int) })) j
      = musicFilesOf s j :=
    musicFilesOf_modifyPlaylist_keep s playlistIndex j _ (fun _ => rfl)
  by_cases h : (!s.playlistFileFutures.isEmpty) = true
  · exact musicFilesOf_congr _ _ _ (by rw [playlistPlayFileWithIndex_playlists, if_pos h])
  · rw [← key]
    exact musicFilesOf_congr _ _ _ (by rw [playlistPlayFileWithIndex_playlists, if_neg h])

theorem playlistPlayFileWithIndex_frame (env : Env) (s : State) (i : Nat) (playlistIndex : Int) :
    (playlistPlayFileWithIndex env s i playlistIndex).currentPlaylist = s.currentPlaylist ∧
    (playlistPlayFileWithIndex env s i playlistIndex).loadedPlaylistFilepaths
      = s.loadedPlaylistFilepaths ∧
    (playlistPlayFileWithIndex env s i playlistIndex).playlistFileThumbnailData
      = s.playlistFileThumbnailData ∧
    (playlistPlayFileWithIndex env s i playlistIndex).playlistFileFutures
      = s.playlistFileFutures ∧
    (playlistPlayFileWithIndex env s i playlistIndex).previousSoundFile = s.previousSoundFile ∧
    (playlistPlayFileWithIndex env s i playlistIndex).previousSoundPos = s.previousSoundPos ∧
    (playlistPlayFileWithIndex env s i playlistIndex).playlists.length = s.playlists.length := by
  unfold playlistPlayFileWithIndex
  split
  · exact ⟨rfl, rfl, rfl, rfl, rfl, rfl, rfl⟩
  · exact ⟨modifyPlaylist_currentPlaylist _ _ _, modifyPlaylist_loadedPlaylistFilepaths _ _ _,
      modifyPlaylist_playlistFileThumbnailData _ _ _, modifyPlaylist_playlistFileFutures _ _ _,
      modifyPlaylist_previousSoundFile _ _ _, modifyPlaylist_previousSoundPos _ _ _,
      modifyPlaylist_length _ _ _⟩

theorem restorePreviousSound_musicFilesOf (env : Env) (s : State) (j : Int) :
    musicFilesOf (restorePreviousSound env s) j = musicFilesOf s j := by
  unfold restorePreviousSound
  split
  · rfl
  · split
    · rfl
    · dsimp only
      split
      · exact (musicFilesOf_congr _ _ _ rfl).trans
          (playlistPlayFileWithIndex_musicFilesOf env s _ _ j)
      · rfl

theorem restorePreviousSound_frame (env : Env) (s : State) :
    (restorePreviousSound env s).currentPlaylist = s.currentPlaylist ∧
    (restorePreviousSound env s).loadedPlaylistFilepaths = s.loadedPlaylistFilepaths ∧
    (restorePreviousSound env s).playlistFileThumbnailData = s.playlistFileThumbnailData ∧
    (restorePreviousSound env s).playlistFileFutures = s.playlistFileFutures ∧
    (restorePreviousSound env s).playlists.length = s.playlists.length := by
  unfold restorePreviousSound
  split
  · exact ⟨rfl, rfl, rfl, rfl, rfl⟩
  · split
    · exact ⟨rfl, rfl, rfl, rfl, rfl⟩
    · dsimp only
      split
      · have h := fun i => playlistPlayFileWithIndex_frame env s i s.playingPlaylist
        exact ⟨(h _).1, (h _).2.1, (h _).2.2.1, (h _).2.2.2.1, (h _).2.2.2.2.2.2⟩
      · exact ⟨rfl, rfl, rfl, rfl, rfl⟩


/-! ## Task completion -/

theorem unloaded_loadedTrack (env : Env) (path : String) :
    unloaded (loadedTrack env path) = loadedTrack env path := by
  unfold unloaded loadedTrack
  split <;> rfl

theorem started_set_finished (futures : List Future) (k : Nat) (fut : Future)
    (h : futures.get? k = some fut) :
    (futures.set k { fut with finished := true }).map Future.started
      = futures.map Future.started := by
  induction futures generalizing k with
  | nil => simp
  | cons x xs ih =>
    cases k with
    | zero =>
      simp only [List.get?_cons_zero, Option.some.injEq] at h
      subst h
      simp [Future.started]
    | succ n =>
      simp only [List.get?_cons_succ] at h
      simp only [List.set_cons_succ, List.map_cons, ih n h]

theorem finishedPaths_set_finished (futures : List Future) (k : Nat) (fut : Future)
    (h : futures.get? k = some fut) (hfin : fut.finished = false) :
    (finishedPaths (futures.set k { fut with finished := true })).Perm
      (fut.path :: finishedPaths futures) := by
  induction futures generalizing k with
  | nil => simp at h
  | cons x xs ih =>
    cases k with
    | zero =>
      simp only [List.get?_cons_zero, Option.some.injEq] at h
      subst h
      simp [finishedPaths, hfin]
    | succ n =>
      simp only [List.get?_cons_succ] at h
      have ih2 := ih n h
      simp only [List.set_cons_succ]
      unfold finishedPaths at *
      by_cases hx : x.finished = true
      · simp only [List.filter_cons, hx, if_true, List.map_cons]
        exact (List.Perm.cons _ ih2).trans (List.Perm.swap _ _ _)
      · simp only [List.filter_cons, hx, if_false]
        exact ih2

theorem completeTask_of_all_finished (env : Env) (s : State) (k : Nat)
    (h : ∀ fut ∈ s.playlistFileFutures, fut.finished = true) :
    completeTask env s k = s := by
  unfold completeTask
  cases hk : s.playlistFileFutures.get? k with
  | none => rfl
  | some fut =>
    have hmem : fut ∈ s.playlistFileFutures := List.getElem?_mem (by simpa using hk)
    simp [h fut hmem]

theorem joinFutures_of_all_finished (env : Env) (s : State)
    (h : ∀ fut ∈ s.playlistFileFutures, fut.finished = true) :
    joinFutures env s = s := by
  unfold joinFutures
  generalize List.range s.playlistFileFutures.length = ks
  induction ks with
  | nil => rfl
  | cons k ks ih => rw [List.foldl_cons, completeTask_of_all_finished env s k h, ih]

theorem completeTask_loading (env : Env) (cur : Nat) (paths : List String) (s : State)
    (k : Nat) (h : Loading env cur paths s) : Loading env cur paths (completeTask env s k) := by
  obtain ⟨hcur, hlen, hpaths, hfut, ps, hperm, hfiles, hthumbs⟩ := h
  unfold completeTask
  cases hk : s.playlistFileFutures.get? k with
  | none => exact ⟨hcur, hlen, hpaths, hfut, ps, hperm, hfiles, hthumbs⟩
  | some fut =>
    by_cases hfin : fut.finished = true
    · simp only [hfin, if_true]
      exact ⟨hcur, hlen, hpaths, hfut, ps, hperm, hfiles, hthumbs⟩
    · have hfin2 : fut.finished = false := by simpa using hfin
      simp only [hfin2, Bool.false_eq_true, if_false]
      -- the task is a load task on the current playlist
      have hst : fut.started ∈ s.playlistFileFutures.map Future.started :=
        List.mem_map_of_mem _ (List.getElem?_mem (by simpa using hk))
      rw [hfut] at hst
      obtain ⟨p, _, hp⟩ := List.mem_map.mp hst
      have hfiles2 : fut.files = (cur : Int) := by
        have := congrArg Future.files hp; simpa [Future.started] using this.symm
      have haddTo : fut.addTo = none := by
        have := congrArg Future.addTo hp; simpa [Future.started] using this.symm
      have hrun : runTask env s fut = loadPlaylistFileAsync env s (cur : Int) fut.path := by
        unfold runTask; rw [haddTo, hfiles2]
      rw [hrun, loadPlaylistFileAsync_eq]
      refine ⟨?_, ?_, ?_, ?_, ps ++ [fut.path], ?_, ?_, ?_⟩
      · show (emplaceFile s (cur : Int) (loadedTrack env fut.path)).currentPlaylist = _
        exact (modifyPlaylist_currentPlaylist _ _ _).trans hcur
      · show cur < (emplaceFile s (cur : Int) (loadedTrack env fut.path)).playlists.length
        unfold emplaceFile
        rw [modifyPlaylist_length]
        exact hlen
      · show (emplaceFile s (cur : Int) (loadedTrack env fut.path)).loadedPlaylistFilepaths = _
        exact (modifyPlaylist_loadedPlaylistFilepaths _ _ _).trans hpaths
      · show (List.set _ k _).map Future.started = _
        have e : (emplaceFile s (cur : Int) (loadedTrack env fut.path)).playlistFileFutures
            = s.playlistFileFutures := modifyPlaylist_playlistFileFutures _ _ _
        rw [e, started_set_finished _ _ _ hk, hfut]
      · show (ps ++ [fut.path]).Perm (finishedPaths (List.set _ k _))
        have e : (emplaceFile s (cur : Int) (loadedTrack env fut.path)).playlistFileFutures
            = s.playlistFileFutures := modifyPlaylist_playlistFileFutures _ _ _
        rw [e]
        refine List.Perm.trans ?_ (finishedPaths_set_finished _ _ _ hk hfin2).symm
        exact (List.perm_append_comm).trans (List.Perm.cons _ hperm)
      · have e : musicFilesOf (emplaceFile s (cur : Int) (loadedTrack env fut.path)) (cur : Int)
            = musicFilesOf s (cur : Int) ++ [loadedTrack env fut.path] :=
          musicFilesOf_modifyPlaylist_self s cur _ hlen
        have e2 : musicFilesOf
            { emplaceFile s (cur : Int) (loadedTrack env fut.path) with
              playlistFileThumbnailData :=
                s.playlistFileThumbnailData ++ [loadedThumbnailData env fut.path],
              playlistFileFutures := List.set
                (emplaceFile s (cur : Int) (loadedTrack env fut.path)).playlistFileFutures k
                { fut with finished := true } } (cur : Int)
            = musicFilesOf (emplaceFile s (cur : Int) (loadedTrack env fut.path)) (cur : Int) :=
          musicFilesOf_congr _ _ _ rfl
        rw [e2, e, List.map_append, hfiles, List.map_append]
        simp [unloaded_loadedTrack]
      · show s.playlistFileThumbnailData ++ [loadedThumbnailData env fut.path] = _
        rw [hthumbs, List.map_append]
        rfl

theorem completeTask_finalized (env : Env) (cur : Nat) (paths : List String) (s : State)
    (k : Nat) (h : Finalized env cur paths s) :
    Finalized env cur paths (completeTask env s k) := by
  have hf : s.playlistFileFutures = [] := h.2.2.2.1
  have e : completeTask env s k = s :=
    completeTask_of_all_finished env s k (by rw [hf]; simp)
  rw [e]; exact h


/-! ## The frame handler -/

theorem markLoadedFiles_unloaded (n : Nat) (fs : List SoundFile) :
    (markLoadedFiles n fs).map unloaded = fs.map unloaded := by
  induction fs generalizing n with
  | nil => cases n <;> rfl
  | cons f fs ih =>
    cases n with
    | zero => rfl
    | succ n => simp only [markLoadedFiles, List.map_cons, ih n]; rfl

theorem markLoadedFiles_length (n : Nat) (fs : List SoundFile) :
    (markLoadedFiles n fs).length = fs.length := by
  have h := congrArg List.length (markLoadedFiles_unloaded n fs)
  simpa using h

theorem markLoadedFiles_all (n : Nat) (fs : List SoundFile) (h : fs.length ≤ n) :
    markLoadedFiles n fs = fs.map (fun f => { f with loaded := true }) := by
  induction fs generalizing n with
  | nil => cases n <;> rfl
  | cons f fs ih =>
    cases n with
    | zero => simp at h
    | succ n =>
      simp only [markLoadedFiles, List.map_cons]
      rw [ih n (by simpa using h)]

theorem markLoadedFiles_of_loaded (n : Nat) (fs : List SoundFile)
    (h : ∀ f ∈ fs, f.loaded = true) : markLoadedFiles n fs = fs := by
  induction fs generalizing n with
  | nil => cases n <;> rfl
  | cons f fs ih =>
    cases n with
    | zero => rfl
    | succ n =>
      simp only [markLoadedFiles]
      rw [ih n (fun g hg => h g (List.mem_cons_of_mem _ hg))]
      have hf := h f (List.mem_cons_self _ _)
      cases f
      simp_all

theorem realizeThumbnails_map (env : Env) (ps : List String) :
    realizeThumbnails env (ps.map (loadedThumbnailData env))
        (ps.map (fun p => { loadedTrack env p with loaded := true }))
      = ps.map (finalTrack env) := by
  induction ps with
  | nil => rfl
  | cons p ps ih =>
    simp only [List.map_cons, realizeThumbnails, ih]
    rfl

theorem compareSoundFilesByName_eq :
    compareSoundFilesByName = fun a b => stringLt (nameKey a.path) (nameKey b.path) := rfl

theorem sortedByName_stdSort (l : List SoundFile) :
    SortedByName (stdSort compareSoundFilesByName l) := by
  rw [compareSoundFilesByName_eq]
  exact stdSort_sorted (fun f : SoundFile => nameKey f.path) l

theorem markLoaded_musicFilesOf (s : State) (cur : Nat) (hcur : s.currentPlaylist = (cur : Int))
    (hlen : cur < s.playlists.length) :
    musicFilesOf (markLoaded s) (cur : Int)
      = markLoadedFiles s.playlistFileThumbnailData.length (musicFilesOf s (cur : Int)) := by
  unfold markLoaded
  rw [hcur, musicFilesOf_modifyPlaylist_self s cur _ hlen]
  rfl

theorem markLoaded_loading (env : Env) (cur : Nat) (paths : List String) (s : State)
    (h : Loading env cur paths s) : Loading env cur paths (markLoaded s) := by
  obtain ⟨hcur, hlen, hpaths, hfut, ps, hperm, hfiles, hthumbs⟩ := h
  refine ⟨?_, ?_, ?_, ?_, ps, ?_, ?_, ?_⟩
  · exact (modifyPlaylist_currentPlaylist _ _ _).trans hcur
  · unfold markLoaded; rw [modifyPlaylist_length]; exact hlen
  · exact (modifyPlaylist_loadedPlaylistFilepaths _ _ _).trans hpaths
  · unfold markLoaded; rw [modifyPlaylist_playlistFileFutures]; exact hfut
  · unfold markLoaded; rw [modifyPlaylist_playlistFileFutures]; exact hperm
  · rw [markLoaded_musicFilesOf s cur hcur hlen, markLoadedFiles_unloaded, hfiles]
  · unfold markLoaded; rw [modifyPlaylist_playlistFileThumbnailData]; exact hthumbs

theorem markLoaded_finalized (env : Env) (cur : Nat) (paths : List String) (s : State)
    (h : Finalized env cur paths s) : Finalized env cur paths (markLoaded s) := by
  obtain ⟨hcur, hlen, hpaths, hfut, hperm, hsorted, hthumbs⟩ := h
  have hloaded : ∀ f ∈ musicFilesOf s (cur : Int), f.loaded = true := by
    intro f hf
    obtain ⟨p, _, hp⟩ := List.mem_map.mp (hperm.subset hf)
    rw [← hp]; rfl
  have hfiles : musicFilesOf (markLoaded s) (cur : Int) = musicFilesOf s (cur : Int) := by
    rw [markLoaded_musicFilesOf s cur hcur hlen, markLoadedFiles_of_loaded _ _ hloaded]
  refine ⟨?_, ?_, ?_, ?_, ?_, ?_, ?_⟩
  · exact (modifyPlaylist_currentPlaylist _ _ _).trans hcur
  · unfold markLoaded; rw [modifyPlaylist_length]; exact hlen
  · exact (modifyPlaylist_loadedPlaylistFilepaths _ _ _).trans hpaths
  · unfold markLoaded; rw [modifyPlaylist_playlistFileFutures]; exact hfut
  · rw [hfiles]; exact hperm
  · rw [hfiles]; exact hsorted
  · unfold markLoaded; rw [modifyPlaylist_playlistFileThumbnailData]; exact hthumbs

/-- With an empty handle set the frame handler only runs its first loop. -/
theorem handleAsyncPlaylistLoading_of_no_futures (env : Env) (s : State)
    (h : s.playlistFileFutures = []) : handleAsyncPlaylistLoading env s = markLoaded s := by
  unfold handleAsyncPlaylistLoading
  have hb : batchComplete (markLoaded s) = false := by
    unfold batchComplete
    have : (markLoaded s).playlistFileFutures = [] := by
      unfold markLoaded; rw [modifyPlaylist_playlistFileFutures]; exact h
    rw [this]; simp
  simp only [hb, Bool.false_eq_true, if_false]

theorem handleAsyncPlaylistLoading_finalized (env : Env) (cur : Nat) (paths : List String)
    (s : State) (h : Finalized env cur paths s) :
    Finalized env cur paths (handleAsyncPlaylistLoading env s) := by
  rw [handleAsyncPlaylistLoading_of_no_futures env s h.2.2.2.1]
  exact markLoaded_finalized env cur paths s h


/-- The completion branch when no playlist index is `-1` and every task has
run: textures, sort of both collections, restore. -/
theorem finalizeBatch_eq (env : Env) (s : State) (h1 : s.currentPlaylist ≠ -1)
    (h2 : ∀ fut ∈ s.playlistFileFutures, fut.finished = true) :
    finalizeBatch env s = restorePreviousSound env
      { modifyPlaylist
          { modifyPlaylist s s.currentPlaylist
              (fun p => { p with musicFiles :=
                realizeThumbnails env s.playlistFileThumbnailData p.musicFiles }) with
            playlistFileFutures := [] }
          s.currentPlaylist
          (fun p => { p with musicFiles := stdSort compareSoundFilesByName p.musicFiles }) with
        playlistFileThumbnailData :=
          stdSort compareTextureDataByName s.playlistFileThumbnailData } := by
  unfold finalizeBatch
  dsimp only
  have hc : ((modifyPlaylist s s.currentPlaylist
      (fun p => { p with musicFiles :=
        realizeThumbnails env s.playlistFileThumbnailData p.musicFiles })).currentPlaylist != -1)
      = true := by
    rw [modifyPlaylist_currentPlaylist]; simpa using h1
  rw [if_pos hc]
  rw [joinFutures_of_all_finished env _ (by rw [modifyPlaylist_playlistFileFutures]; exact h2)]
  simp only [modifyPlaylist_currentPlaylist, modifyPlaylist_playlistFileThumbnailData]


theorem futures_paths_of_started (cur : Nat) (paths : List String) (futures : List Future)
    (h : futures.map Future.started
      = paths.map (fun p => ({ files := (cur : Int), path := p } : Future))) :
    futures.map (fun fut => fut.path) = paths := by
  have h2 := congrArg (List.map (fun fut : Future => fut.path)) h
  simpa [Future.started, Function.comp_def] using h2

/-- A frame on a batch in flight: the batch stays in flight or is finalized. -/
theorem handleAsyncPlaylistLoading_loading (env : Env) (cur : Nat) (paths : List String)
    (s : State) (h : Loading env cur paths s) :
    Loading env cur paths (handleAsyncPlaylistLoading env s)
      ∨ Finalized env cur paths (handleAsyncPlaylistLoading env s) := by
  have h1 := markLoaded_loading env cur paths s h
  unfold handleAsyncPlaylistLoading
  dsimp only
  by_cases hb : batchComplete (markLoaded s) = true
  swap
  · left; rw [if_neg hb]; exact h1
  right
  rw [if_pos hb]
  obtain ⟨hcur, hlen, hpaths, hfut, ps, hperm, hfiles, hthumbs⟩ := h
  obtain ⟨hcur1, hlen1, hpaths1, hfut1, _⟩ := h1
  have hfut0 : (markLoaded s).playlistFileFutures = s.playlistFileFutures := by
    unfold markLoaded; rw [modifyPlaylist_playlistFileFutures]
  have hthumbs0 : (markLoaded s).playlistFileThumbnailData = s.playlistFileThumbnailData := by
    unfold markLoaded; rw [modifyPlaylist_playlistFileThumbnailData]
  -- lengths
  have hl1 : (musicFilesOf s (cur : Int)).length = ps.length := by
    have := congrArg List.length hfiles; simpa using this
  have hl2 : s.playlistFileThumbnailData.length = ps.length := by
    rw [hthumbs]; simp
  have hl3 : s.playlistFileFutures.length = paths.length := by
    have := congrArg List.length hfut; simpa using this
  have hl4 : ps.length = (s.playlistFileFutures.filter (fun fut => fut.finished)).length := by
    have := hperm.length_eq; simpa [finishedPaths] using this
  -- the track collection after the first loop
  have hfiles1 : musicFilesOf (markLoaded s) (cur : Int)
      = ps.map (fun p => { loadedTrack env p with loaded := true }) := by
    rw [markLoaded_musicFilesOf s cur hcur hlen, markLoadedFiles_all _ _ (by omega)]
    have e : (musicFilesOf s (cur : Int)).map (fun f => { f with loaded := true })
        = ((musicFilesOf s (cur : Int)).map unloaded).map (fun f => { f with loaded := true }) := by
      rw [List.map_map]; rfl
    rw [e, hfiles, List.map_map]; rfl
  -- the completion test
  have hcount : paths.length = ps.length := by
    unfold batchComplete at hb
    simp only [Bool.and_eq_true, beq_iff_eq] at hb
    have := hb.1
    rw [hpaths1, hcur1] at this
    have e2 : (playlistAt (markLoaded s) (cur : Int)).musicFiles
        = musicFilesOf (markLoaded s) (cur : Int) := rfl
    rw [e2, hfiles1] at this
    simpa using this
  have hall : ∀ fut ∈ s.playlistFileFutures, fut.finished = true := by
    have hlen5 : (s.playlistFileFutures.filter (fun fut => fut.finished)).length
        = s.playlistFileFutures.length := by omega
    exact List.filter_length_eq_length.mp hlen5
  have hfin : finishedPaths s.playlistFileFutures = paths := by
    unfold finishedPaths
    rw [List.filter_eq_self.mpr hall]
    exact futures_paths_of_started cur paths _ hfut
  have hperm2 : ps.Perm paths := hfin ▸ hperm
  have hne : (markLoaded s).currentPlaylist ≠ -1 := by rw [hcur1]; omega
  rw [finalizeBatch_eq env _ hne (by rw [hfut0]; exact hall)]
  obtain ⟨r1, r2, r3, r4, r5⟩ := restorePreviousSound_frame env
    { modifyPlaylist
        { modifyPlaylist (markLoaded s) (markLoaded s).currentPlaylist
            (fun p => { p with musicFiles :=
              realizeThumbnails env (markLoaded s).playlistFileThumbnailData p.musicFiles }) with
          playlistFileFutures := [] }
        (markLoaded s).currentPlaylist
        (fun p => { p with musicFiles := stdSort compareSoundFilesByName p.musicFiles }) with
      playlistFileThumbnailData :=
        stdSort compareTextureDataByName (markLoaded s).playlistFileThumbnailData }
  have hfinal : musicFilesOf (restorePreviousSound env
      { modifyPlaylist
        { modifyPlaylist (markLoaded s) (markLoaded s).currentPlaylist
            (fun p => { p with musicFiles :=
              realizeThumbnails env (markLoaded s).playlistFileThumbnailData p.musicFiles }) with
          playlistFileFutures := [] }
        (markLoaded s).currentPlaylist
        (fun p => { p with musicFiles := stdSort compareSoundFilesByName p.musicFiles }) with
      playlistFileThumbnailData :=
        stdSort compareTextureDataByName (markLoaded s).playlistFileThumbnailData }) (cur : Int)
      = stdSort compareSoundFilesByName (ps.map (finalTrack env)) := by
    rw [restorePreviousSound_musicFilesOf, hcur1]
    have e1 : ∀ (t : State) (d : List TextureData),
        musicFilesOf { t with playlistFileThumbnailData := d } (cur : Int)
          = musicFilesOf t (cur : Int) := fun t d => musicFilesOf_congr _ _ _ rfl
    have e2 : ∀ (t : State),
        musicFilesOf { t with playlistFileFutures := [] } (cur : Int)
          = musicFilesOf t (cur : Int) := fun t => musicFilesOf_congr _ _ _ rfl
    rw [e1, musicFilesOf_modifyPlaylist_self _ cur _ (by
      show cur < (modifyPlaylist (markLoaded s) _ _).playlists.length
      rw [modifyPlaylist_length]; exact hlen1)]
    show stdSort compareSoundFilesByName (musicFilesOf { modifyPlaylist (markLoaded s) (cur : Int)
            (fun p => { p with musicFiles :=
              realizeThumbnails env (markLoaded s).playlistFileThumbnailData p.musicFiles }) with
          playlistFileFutures := [] } (cur : Int)) = _
    rw [e2, musicFilesOf_modifyPlaylist_self _ cur _ hlen1]
    show stdSort compareSoundFilesByName (realizeThumbnails env
      (markLoaded s).playlistFileThumbnailData (musicFilesOf (markLoaded s) (cur : Int))) = _
    rw [hthumbs0, hthumbs, hfiles1, realizeThumbnails_map]
  refine ⟨?_, ?_, ?_, ?_, ?_, ?_, ?_⟩
  · rw [r1]
    show (modifyPlaylist _ _ _).currentPlaylist = _
    rw [modifyPlaylist_currentPlaylist]
    show (modifyPlaylist _ _ _).currentPlaylist = _
    rw [modifyPlaylist_currentPlaylist]
    exact hcur1
  · rw [r5]
    show cur < (modifyPlaylist _ _ _).playlists.length
    rw [modifyPlaylist_length]
    show cur < (modifyPlaylist _ _ _).playlists.length
    rw [modifyPlaylist_length]
    exact hlen1
  · rw [r2]
    show (modifyPlaylist _ _ _).loadedPlaylistFilepaths = _
    rw [modifyPlaylist_loadedPlaylistFilepaths]
    show (modifyPlaylist _ _ _).loadedPlaylistFilepaths = _
    rw [modifyPlaylist_loadedPlaylistFilepaths]
    exact hpaths1
  · rw [r4]
    show (modifyPlaylist _ _ _).playlistFileFutures = _
    rw [modifyPlaylist_playlistFileFutures]
  · rw [hfinal]
    exact (stdSort_perm _ _).trans (hperm2.map _)
  · rw [hfinal]
    exact sortedByName_stdSort _
  · rw [r3]
    show (stdSort compareTextureDataByName (markLoaded s).playlistFileThumbnailData).Perm _
    rw [hthumbs0, hthumbs]
    exact (stdSort_perm _ _).trans (hperm2.map _)


/-! ## Starting a batch and running it -/

theorem loadPlaylistAsync_fold_async (env : Env) (playlist : Int)
    (hA : env.ASYNC_PLAYLIST_LOADING = true) :
    ∀ (l : List String) (s : State), musicFilesOf s s.currentPlaylist = [] →
      l.foldl (loadPlaylistAsyncIter env playlist) s =
        { s with playlistFileFutures := s.playlistFileFutures ++
            l.map (fun p => ({ files := s.currentPlaylist, path := p } : Future)) }
  | [], s, _ => by simp
  | p :: l, s, h => by
    have hc : containsFile s p s.currentPlaylist = false := by
      unfold containsFile
      have : (playlistAt s s.currentPlaylist).musicFiles = [] := h
      rw [this]; rfl
    have hstep : loadPlaylistAsyncIter env playlist s p =
        { s with playlistFileFutures :=
            s.playlistFileFutures ++ [{ files := s.currentPlaylist, path := p }] } := by
      unfold loadPlaylistAsyncIter
      simp [hc, hA]
    have ih := loadPlaylistAsync_fold_async env playlist hA l
      { s with playlistFileFutures :=
          s.playlistFileFutures ++ [{ files := s.currentPlaylist, path := p }] }
      ((musicFilesOf_congr _ _ _ rfl).trans h)
    rw [List.foldl_cons, hstep]
    exact ih.trans (by simp)

theorem loadPlaylistAsync_loading (env : Env) (s0 : State) (cur : Nat)
    (hA : env.ASYNC_PLAYLIST_LOADING = true) (hcur : s0.currentPlaylist = (cur : Int))
    (hlen : cur < s0.playlists.length) (hfut : s0.playlistFileFutures = []) :
    Loading env cur s0.loadedPlaylistFilepaths (loadPlaylistAsync env s0 (cur : Int)) := by
  have hclear : musicFilesOf (modifyPlaylist s0 (cur : Int)
      (fun p => { p with musicFiles := [] })) (cur : Int) = [] :=
    musicFilesOf_modifyPlaylist_self s0 cur _ hlen
  have hfold := loadPlaylistAsync_fold_async env (cur : Int) hA s0.loadedPlaylistFilepaths
    { modifyPlaylist s0 (cur : Int) (fun p => { p with musicFiles := [] }) with
      playlistFileThumbnailData := [] }
    (by
      show musicFilesOf _ (modifyPlaylist s0 _ _).currentPlaylist = []
      rw [modifyPlaylist_currentPlaylist, hcur]
      exact (musicFilesOf_congr _ _ _ rfl).trans hclear)
  have hdef : loadPlaylistAsync env s0 (cur : Int) =
      s0.loadedPlaylistFilepaths.foldl (loadPlaylistAsyncIter env (cur : Int))
        { modifyPlaylist s0 (cur : Int) (fun p => { p with musicFiles := [] }) with
          playlistFileThumbnailData := [] } := by
    unfold loadPlaylistAsync
    dsimp only
    rw [modifyPlaylist_loadedPlaylistFilepaths]
    simp [hA]
  rw [hdef, hfold]
  refine ⟨?_, ?_, ?_, ?_, [], ?_, ?_, ?_⟩
  · show (modifyPlaylist _ _ _).currentPlaylist = _
    rw [modifyPlaylist_currentPlaylist]; exact hcur
  · show cur < (modifyPlaylist _ _ _).playlists.length
    rw [modifyPlaylist_length]; exact hlen
  · show (modifyPlaylist _ _ _).loadedPlaylistFilepaths = _
    rw [modifyPlaylist_loadedPlaylistFilepaths]
  · show ((modifyPlaylist s0 _ _).playlistFileFutures ++
      s0.loadedPlaylistFilepaths.map
        (fun p => ({ files := (modifyPlaylist s0 _ _).currentPlaylist, path := p } : Future))).map
        Future.started = _
    rw [modifyPlaylist_playlistFileFutures, modifyPlaylist_currentPlaylist, hfut, hcur]
    simp [Future.started]
  · show ([] : List String).Perm (finishedPaths ((modifyPlaylist s0 _ _).playlistFileFutures ++
      s0.loadedPlaylistFilepaths.map
        (fun p => ({ files := (modifyPlaylist s0 _ _).currentPlaylist, path := p } : Future))))
    rw [modifyPlaylist_playlistFileFutures, hfut]
    have : finishedPaths ([] ++ s0.loadedPlaylistFilepaths.map
        (fun p => ({ files := (modifyPlaylist s0 (cur : Int)
          (fun p => { p with musicFiles := [] })).currentPlaylist, path := p } : Future))) = [] := by
      unfold finishedPaths
      simp [List.filter_map, Function.comp_def]
    rw [this]
  · have e : ∀ t : State,
        t.playlists = (modifyPlaylist s0 (cur : Int)
          (fun p => { p with musicFiles := [] })).playlists →
        (musicFilesOf t (cur : Int)).map unloaded = ([] : List String).map (loadedTrack env) := by
      intro t ht
      rw [musicFilesOf_congr t _ _ ht, hclear]; rfl
    exact e _ rfl
  · rfl

theorem step_invariant (env : Env) (cur : Nat) (paths : List String) (s : State) (e : Event)
    (h : Loading env cur paths s ∨ Finalized env cur paths s) :
    Loading env cur paths (step env s e) ∨ Finalized env cur paths (step env s e) := by
  cases e with
  | taskDone k =>
    rcases h with h | h
    · exact Or.inl (completeTask_loading env cur paths s k h)
    · exact Or.inr (completeTask_finalized env cur paths s k h)
  | frame =>
    rcases h with h | h
    · exact handleAsyncPlaylistLoading_loading env cur paths s h
    · exact Or.inr (handleAsyncPlaylistLoading_finalized env cur paths s h)

theorem run_invariant (env : Env) (cur : Nat) (paths : List String) (events : List Event) :
    ∀ (s : State), (Loading env cur paths s ∨ Finalized env cur paths s) →
      (Loading env cur paths (run env s events) ∨ Finalized env cur paths (run env s events)) := by
  induction events with
  | nil => intro s h; exact h
  | cons e es ih =>
    intro s h
    exact ih (step env s e) (step_invariant env cur paths s e h)

/-- A batch in flight whose handle set is empty has no paths and no tracks. -/
theorem finalized_of_loading_no_futures (env : Env) (cur : Nat) (paths : List String)
    (s : State) (h : Loading env cur paths s) (hf : s.playlistFileFutures = []) :
    Finalized env cur paths s := by
  obtain ⟨hcur, hlen, hpaths, hfut, ps, hperm, hfiles, hthumbs⟩ := h
  rw [hf] at hfut hperm
  have hp : paths = [] := by
    have := congrArg List.length hfut; simpa using this.symm
  have hps : ps = [] := by simpa [finishedPaths] using hperm
  subst hps
  have hfiles2 : musicFilesOf s (cur : Int) = [] := by simpa using hfiles
  refine ⟨hcur, hlen, hpaths, hf, ?_, ?_, ?_⟩
  · rw [hfiles2, hp]; exact List.Perm.refl _
  · rw [hfiles2]; exact List.Pairwise.nil
  · rw [hthumbs, hp]

/-- Every interleaving of task completions and frames after
`loadPlaylistAsync` keeps the batch in flight or finalized; with an empty
handle set it is finalized. -/
theorem run_finalized (env : Env) (s0 : State) (cur : Nat) (events : List Event)
    (hA : env.ASYNC_PLAYLIST_LOADING = true) (hcur : s0.currentPlaylist = (cur : Int))
    (hlen : cur < s0.playlists.length) (hfut : s0.playlistFileFutures = [])
    (hdone : (run env (loadPlaylistAsync env s0 (cur : Int)) events).playlistFileFutures = []) :
    Finalized env cur s0.loadedPlaylistFilepaths
      (run env (loadPlaylistAsync env s0 (cur : Int)) events) := by
  rcases run_invariant env cur _ events _
    (Or.inl (loadPlaylistAsync_loading env s0 cur hA hcur hlen hfut)) with h | h
  · exact finalized_of_loading_no_futures env cur _ _ h hdone
  · exact h


/-! ## The synchronous load -/

theorem musicFilesOf_emplaceFile (s : State) (cur : Nat) (file : SoundFile)
    (hlen : cur < s.playlists.length) :
    musicFilesOf (emplaceFile s (cur : Int) file) (cur : Int)
      = musicFilesOf s (cur : Int) ++ [file] :=
  musicFilesOf_modifyPlaylist_self s cur _ hlen

theorem loadPlaylistAsyncIter_frame (env : Env) (playlist : Int) (s : State) (path : String) :
    (loadPlaylistAsyncIter env playlist s path).currentPlaylist = s.currentPlaylist ∧
    (loadPlaylistAsyncIter env playlist s path).playlists.length = s.playlists.length ∧
    (loadPlaylistAsyncIter env playlist s path).loadedPlaylistFilepaths
      = s.loadedPlaylistFilepaths ∧
    (loadPlaylistAsyncIter env playlist s path).playlistFileThumbnailData
      = s.playlistFileThumbnailData := by
  unfold loadPlaylistAsyncIter
  split
  · split
    · exact ⟨rfl, rfl, rfl, rfl⟩
    · exact ⟨modifyPlaylist_currentPlaylist _ _ _, modifyPlaylist_length _ _ _,
        modifyPlaylist_loadedPlaylistFilepaths _ _ _,
        modifyPlaylist_playlistFileThumbnailData _ _ _⟩
  · exact ⟨rfl, rfl, rfl, rfl⟩

theorem loadPlaylistAsync_fold_frame (env : Env) (playlist : Int) :
    ∀ (l : List String) (s : State),
      (l.foldl (loadPlaylistAsyncIter env playlist) s).currentPlaylist = s.currentPlaylist ∧
      (l.foldl (loadPlaylistAsyncIter env playlist) s).playlists.length = s.playlists.length ∧
      (l.foldl (loadPlaylistAsyncIter env playlist) s).loadedPlaylistFilepaths
        = s.loadedPlaylistFilepaths ∧
      (l.foldl (loadPlaylistAsyncIter env playlist) s).playlistFileThumbnailData
        = s.playlistFileThumbnailData
  | [], _ => ⟨rfl, rfl, rfl, rfl⟩
  | p :: l, s => by
    obtain ⟨a1, a2, a3, a4⟩ := loadPlaylistAsyncIter_frame env playlist s p
    obtain ⟨b1, b2, b3, b4⟩ :=
      loadPlaylistAsync_fold_frame env playlist l (loadPlaylistAsyncIter env playlist s p)
    rw [List.foldl_cons]
    exact ⟨b1.trans a1, b2.trans a2, b3.trans a3, b4.trans a4⟩

/-- The synchronous branch of `loadPlaylistAsync` ends with the sort. -/
theorem loadPlaylistAsync_sync_eq (env : Env) (s0 : State) (playlist : Int)
    (hA : env.ASYNC_PLAYLIST_LOADING = false) :
    loadPlaylistAsync env s0 playlist =
      modifyPlaylist
        (s0.loadedPlaylistFilepaths.foldl (loadPlaylistAsyncIter env playlist)
          { modifyPlaylist s0 playlist (fun p => { p with musicFiles := [] }) with
            playlistFileThumbnailData := [] })
        playlist
        (fun p => { p with musicFiles := stdSort compareSoundFilesByName p.musicFiles }) := by
  unfold loadPlaylistAsync
  dsimp only
  rw [modifyPlaylist_loadedPlaylistFilepaths]
  simp [hA]

theorem loadPlaylistAsync_sync_musicFilesOf (env : Env) (s0 : State) (cur : Nat)
    (hA : env.ASYNC_PLAYLIST_LOADING = false) (hlen : cur < s0.playlists.length) :
    musicFilesOf (loadPlaylistAsync env s0 (cur : Int)) (cur : Int) =
      stdSort compareSoundFilesByName
        (musicFilesOf (s0.loadedPlaylistFilepaths.foldl (loadPlaylistAsyncIter env (cur : Int))
          { modifyPlaylist s0 (cur : Int) (fun p => { p with musicFiles := [] }) with
            playlistFileThumbnailData := [] }) (cur : Int)) := by
  rw [loadPlaylistAsync_sync_eq env s0 _ hA]
  rw [musicFilesOf_modifyPlaylist_self _ cur _ (by
    rw [(loadPlaylistAsync_fold_frame env _ _ _).2.1]
    show cur < (modifyPlaylist s0 _ _).playlists.length
    rw [modifyPlaylist_length]; exact hlen)]
  rfl

/-- The inline loop appends the track of every path, in path order, when the
paths are pairwise different, differ from the tracks already present and
from the sentinel text. -/
theorem loadPlaylistAsync_fold_sync (env : Env) (cur : Nat)
    (hA : env.ASYNC_PLAYLIST_LOADING = false) :
    ∀ (l : List String) (s : State), s.currentPlaylist = (cur : Int) →
      cur < s.playlists.length →
      (∀ q ∈ l, ∀ f ∈ musicFilesOf s (cur : Int), f.path ≠ q) →
      l.Nodup → "File cannot be loaded" ∉ l →
      musicFilesOf (l.foldl (loadPlaylistAsyncIter env (cur : Int)) s) (cur : Int)
        = musicFilesOf s (cur : Int) ++ l.map (inlineSoundFile env)
  | [], s, _, _, _, _, _ => by simp
  | p :: l, s, hcur, hlen, hfresh, hnodup, hsent => by
    have hc : containsFile s p s.currentPlaylist = false := by
      unfold containsFile
      rw [hcur]
      apply Bool.eq_false_iff.mpr
      intro hany
      obtain ⟨f, hf, hfp⟩ := List.any_eq_true.mp hany
      exact hfresh p (List.mem_cons_self _ _) f hf (by simpa using hfp)
    have hstep : loadPlaylistAsyncIter env (cur : Int) s p
        = emplaceFile s (cur : Int) (inlineSoundFile env p) := by
      unfold loadPlaylistAsyncIter
      simp [hc, hA]
    have hfiles := musicFilesOf_emplaceFile s cur (inlineSoundFile env p) hlen
    rw [List.foldl_cons, hstep]
    rw [loadPlaylistAsync_fold_sync env cur hA l (emplaceFile s (cur : Int) (inlineSoundFile env p))
      ((modifyPlaylist_currentPlaylist _ _ _).trans hcur)
      (by unfold emplaceFile; rw [modifyPlaylist_length]; exact hlen)
      (by
        intro q hq f hf
        rw [hfiles] at hf
        rcases List.mem_append.mp hf with hf | hf
        · exact hfresh q (List.mem_cons_of_mem _ hq) f hf
        · have hfe : f = inlineSoundFile env p := by simpa using hf
          subst hfe
          have hpq : p ≠ q := fun e => (List.nodup_cons.mp hnodup).1 (e ▸ hq)
          have hsq : "File cannot be loaded" ≠ q :=
            fun e => hsent (e ▸ List.mem_cons_of_mem _ hq)
          unfold inlineSoundFile
          split
          · exact hpq
          · exact hsq)
      (List.nodup_cons.mp hnodup).2
      (fun h => hsent (List.mem_cons_of_mem _ h))]
    rw [hfiles]
    simp


/-! ## The finalizing frame in general -/

theorem runTask_currentPlaylist (env : Env) (s : State) (fut : Future) :
    (runTask env s fut).currentPlaylist = s.currentPlaylist := by
  unfold runTask
  split
  · rw [loadPlaylistFileAsync_eq]
    exact modifyPlaylist_currentPlaylist _ _ _
  · unfold addFileToPlaylistAsync
    split
    · rfl
    · split
      · rfl
      · dsimp only
        split
        · exact (modifyPlaylist_currentPlaylist _ _ _).trans (modifyPlaylist_currentPlaylist _ _ _)
        · exact (modifyPlaylist_currentPlaylist _ _ _).trans (modifyPlaylist_currentPlaylist _ _ _)

theorem completeTask_currentPlaylist (env : Env) (s : State) (k : Nat) :
    (completeTask env s k).currentPlaylist = s.currentPlaylist := by
  unfold completeTask
  split
  · rfl
  · split
    · rfl
    · exact runTask_currentPlaylist env s _

theorem joinFutures_currentPlaylist (env : Env) (s : State) :
    (joinFutures env s).currentPlaylist = s.currentPlaylist := by
  unfold joinFutures
  generalize List.range s.playlistFileFutures.length = ks
  induction ks generalizing s with
  | nil => rfl
  | cons k ks ih =>
    rw [List.foldl_cons, ih, completeTask_currentPlaylist]

/-- The completion branch for a playlist index other than `-1`. -/
theorem finalizeBatch_of_ne (env : Env) (s : State) (h1 : s.currentPlaylist ≠ -1) :
    finalizeBatch env s = restorePreviousSound env
      { modifyPlaylist
          { joinFutures env (modifyPlaylist s s.currentPlaylist
              (fun p => { p with musicFiles :=
                realizeThumbnails env s.playlistFileThumbnailData p.musicFiles })) with
            playlistFileFutures := [] }
          s.currentPlaylist
          (fun p => { p with musicFiles := stdSort compareSoundFilesByName p.musicFiles }) with
        playlistFileThumbnailData :=
          stdSort compareTextureDataByName
            (joinFutures env (modifyPlaylist s s.currentPlaylist
              (fun p => { p with musicFiles :=
                realizeThumbnails env s.playlistFileThumbnailData p.musicFiles
                  }))).playlistFileThumbnailData } := by
  unfold finalizeBatch
  dsimp only
  have hc : ((modifyPlaylist s s.currentPlaylist
      (fun p => { p with musicFiles :=
        realizeThumbnails env s.playlistFileThumbnailData p.musicFiles })).currentPlaylist != -1)
      = true := by
    rw [modifyPlaylist_currentPlaylist]; simpa using h1
  rw [if_pos hc]
  simp only [modifyPlaylist_currentPlaylist, modifyPlaylist_playlistFileThumbnailData,
    joinFutures_currentPlaylist]

/-- After sorting the track collection of a playlist, that collection is in
file-name order (an index outside the vector reads as an empty collection). -/
theorem sortedByName_modifyPlaylist_sort (s : State) (i : Int) :
    SortedByName (musicFilesOf (modifyPlaylist s i
      (fun p => { p with musicFiles := stdSort compareSoundFilesByName p.musicFiles })) i) := by
  unfold musicFilesOf
  rw [playlistAt_modifyPlaylist]
  split
  · exact sortedByName_stdSort _
  · rename_i hne
    have hempty : playlistAt s i = {} := by
      unfold playlistAt
      by_cases hi : i < 0
      · simp [hi]
      · have hlen : s.playlists.length ≤ i.toNat := by
          by_contra hcon
          exact hne ⟨rfl, by omega, by omega⟩
        simp [hi, List.getD_eq_getElem?_getD, List.getElem?_eq_none hlen]
    rw [hempty]
    exact List.Pairwise.nil

theorem markLoadedFiles_idem (n : Nat) (fs : List SoundFile) :
    markLoadedFiles n (markLoadedFiles n fs) = markLoadedFiles n fs := by
  induction fs generalizing n with
  | nil => cases n <;> rfl
  | cons f fs ih =>
    cases n with
    | zero => rfl
    | succ n => simp only [markLoadedFiles, ih n]

theorem modifyPlaylist_modifyPlaylist (s : State) (i : Int) (f g : Playlist → Playlist) :
    modifyPlaylist (modifyPlaylist s i f) i g = modifyPlaylist s i (g ∘ f) := by
  unfold modifyPlaylist
  by_cases hi : i < 0
  · simp [hi]
  · simp [hi, List.modify_modify_eq]

theorem markLoaded_idem (s : State) : markLoaded (markLoaded s) = markLoaded s := by
  unfold markLoaded
  rw [modifyPlaylist_currentPlaylist, modifyPlaylist_playlistFileThumbnailData,
    modifyPlaylist_modifyPlaylist]
  congr 1
  funext p
  simp [Function.comp_def, markLoadedFiles_idem]

/-- The first loop of the handler changes `loaded` flags only: the tracks of
every playlist keep their order and their other fields, and the playing
index, the position counter and the handle set are as before. -/
theorem markLoaded_effect (s : State) (j : Int) :
    (musicFilesOf (markLoaded s) j).map unloaded = (musicFilesOf s j).map unloaded ∧
    (playlistAt (markLoaded s) j).playingFile = (playlistAt s j).playingFile ∧
    (markLoaded s).currentSoundPos = s.currentSoundPos ∧
    (markLoaded s).soundHandler = s.soundHandler ∧
    (markLoaded s).playlistFileThumbnailData = s.playlistFileThumbnailData ∧
    (markLoaded s).playlistFileFutures = s.playlistFileFutures := by
  refine ⟨?_, ?_, modifyPlaylist_currentSoundPos _ _ _, modifyPlaylist_soundHandler _ _ _,
    modifyPlaylist_playlistFileThumbnailData _ _ _, modifyPlaylist_playlistFileFutures _ _ _⟩
  · unfold markLoaded musicFilesOf
    rw [playlistAt_modifyPlaylist]
    split
    · exact markLoadedFiles_unloaded _ _
    · rfl
  · unfold markLoaded
    rw [playlistAt_modifyPlaylist]
    split <;> rfl

/-- With an empty handle set, any number of further frames leaves the state
the first loop of the handler produces. -/
theorem iterate_frames_of_no_futures (env : Env) (n : Nat) (s : State)
    (h : s.playlistFileFutures = []) :
    (handleAsyncPlaylistLoading env)^[n + 1] s = markLoaded s := by
  induction n generalizing s with
  | zero => exact handleAsyncPlaylistLoading_of_no_futures env s h
  | succ n ih =>
    rw [Function.iterate_succ, Function.comp_apply,
      handleAsyncPlaylistLoading_of_no_futures env s h]
    have h2 : (markLoaded s).playlistFileFutures = [] := by
      unfold markLoaded; rw [modifyPlaylist_playlistFileFutures]; exact h
    rw [ih (markLoaded s) h2, markLoaded_idem]


/-! ## Playback: starting a track -/

theorem playlistAt_congr (s t : State) (j : Int) (h : s.playlists = t.playlists) :
    playlistAt s j = playlistAt t j := by
  unfold playlistAt
  rw [h]

/-- A playlist with a track is a playlist of the state. -/
theorem inRange_of_track (s : State) (p : Int) (i : Nat) (h : i < (musicFilesOf s p).length) :
    0 ≤ p ∧ p.toNat < s.playlists.length := by
  unfold musicFilesOf playlistAt at h
  by_cases hp : p < 0
  · simp [hp] at h
  · refine ⟨by omega, ?_⟩
    by_contra hlen
    have hnone : s.playlists[p.toNat]? = none := List.getElem?_eq_none (by omega)
    simp [hp, List.getD_eq_getElem?_getD, hnone] at h

theorem playlistAt_modifyPlaylist_self (s : State) (p : Int) (f : Playlist → Playlist)
    (h0 : 0 ≤ p) (h1 : p.toNat < s.playlists.length) :
    playlistAt (modifyPlaylist s p f) p = f (playlistAt s p) := by
  rw [playlistAt_modifyPlaylist, if_pos ⟨rfl, h0, h1⟩]

/-- With a task handle outstanding `playlistPlayFileWithIndex` returns at
line 3111. -/
theorem playlistPlayFileWithIndex_of_futures (env : Env) (s : State) (i : Nat)
    (playlistIndex : Int) (h : s.playlistFileFutures ≠ []) :
    playlistPlayFileWithIndex env s i playlistIndex = s := by
  unfold playlistPlayFileWithIndex
  have hne : (!s.playlistFileFutures.isEmpty) = true := by
    cases hf : s.playlistFileFutures with
    | nil => exact absurd hf h
    | cons x xs => rfl
  rw [if_pos hne]

/-- The already-played set `playlistPlayFileWithIndex` leaves when no task
handle is outstanding (lines 3128-3138). -/
theorem playlistPlayFileWithIndex_alreadyPlayedTracks (env : Env) (s : State) (i : Nat)
    (playlistIndex : Int) (h : s.playlistFileFutures = []) :
    (playlistPlayFileWithIndex env s i playlistIndex).alreadyPlayedTracks
      = (if (recordPlayed s i playlistIndex).length
            ≥ (musicFilesOf s s.currentPlaylist).length
          then [] else recordPlayed s i playlistIndex) := by
  have hne : ¬ ((!s.playlistFileFutures.isEmpty) = true) := by rw [h]; simp
  have raw : (playlistPlayFileWithIndex env s i playlistIndex).alreadyPlayedTracks
      = (if (recordPlayed (modifyPlaylist s playlistIndex
              (fun p => { p with playingFile := (i : Int), selectedFile := (i : Int) }))
              i playlistIndex).length
            ≥ (musicFilesOf (modifyPlaylist s playlistIndex
              (fun p => { p with playingFile := (i : Int), selectedFile := (i : Int) }))
              (modifyPlaylist s playlistIndex
              (fun p => { p with playingFile := (i : Int), selectedFile := (i : Int) })).currentPlaylist).length
          then [] else recordPlayed (modifyPlaylist s playlistIndex
              (fun p => { p with playingFile := (i : Int), selectedFile := (i : Int) }))
              i playlistIndex) := by
    unfold playlistPlayFileWithIndex
    rw [if_neg hne]
    rfl
  have hfiles : ∀ j, musicFilesOf (modifyPlaylist s playlistIndex
      (fun p => { p with playingFile := (i : Int), selectedFile := (i : Int) })) j
      = musicFilesOf s j :=
    fun j => musicFilesOf_modifyPlaylist_keep s playlistIndex j _ (fun _ => rfl)
  rw [raw, modifyPlaylist_currentPlaylist, hfiles]
  unfold recordPlayed
  rw [modifyPlaylist_playingPlaylist, modifyPlaylist_alreadyPlayedTracks]

/-- The other fields `playlistPlayFileWithIndex` writes or keeps when no task
handle is outstanding. -/
theorem playlistPlayFileWithIndex_effect (env : Env) (s : State) (i : Nat)
    (playlistIndex : Int) (h : s.playlistFileFutures = []) :
    (playlistPlayFileWithIndex env s i playlistIndex).playlists
      = (modifyPlaylist s playlistIndex
          (fun p => { p with playingFile := (i : Int), selectedFile := (i : Int) })).playlists ∧
    (playlistPlayFileWithIndex env s i playlistIndex).currentSoundPos = 0 ∧
    (playlistPlayFileWithIndex env s i playlistIndex).playingPlaylist = playlistIndex ∧
    (playlistPlayFileWithIndex env s i playlistIndex).shuffle = s.shuffle ∧
    (playlistPlayFileWithIndex env s i playlistIndex).currentPlaylist = s.currentPlaylist ∧
    (playlistPlayFileWithIndex env s i playlistIndex).currentSoundFile = s.currentSoundFile ∧
    (playlistPlayFileWithIndex env s i playlistIndex).playlistFileFutures = [] := by
  have hne : ¬ ((!s.playlistFileFutures.isEmpty) = true) := by rw [h]; simp
  have e1 : (modifyPlaylist s playlistIndex
      (fun p => { p with playingFile := (i : Int), selectedFile := (i : Int) })).shuffle
      = s.shuffle := by
    unfold modifyPlaylist; split <;> rfl
  have e2 : (modifyPlaylist s playlistIndex
      (fun p => { p with playingFile := (i : Int), selectedFile := (i : Int) })).currentSoundFile
      = s.currentSoundFile := by
    unfold modifyPlaylist; split <;> rfl
  unfold playlistPlayFileWithIndex
  rw [if_neg hne]
  exact ⟨rfl, rfl, rfl, e1, modifyPlaylist_currentPlaylist _ _ _, e2,
    (modifyPlaylist_playlistFileFutures _ _ _).trans h⟩


/-! ## Playback: skipping -/

theorem setPlayingFile_frame (s : State) (playlistIndex : Int) (playingFile : Int) :
    (setPlayingFile s playlistIndex playingFile).playlists
      = (modifyPlaylist s playlistIndex
          (fun p => { p with playingFile := playingFile })).playlists ∧
    (setPlayingFile s playlistIndex playingFile).playlistFileFutures = s.playlistFileFutures ∧
    (setPlayingFile s playlistIndex playingFile).alreadyPlayedTracks = s.alreadyPlayedTracks ∧
    (setPlayingFile s playlistIndex playingFile).currentSoundFile
      = some { playlist := playlistIndex, index := playingFile.toNat } ∧
    (setPlayingFile s playlistIndex playingFile).soundHandler = s.soundHandler ∧
    (setPlayingFile s playlistIndex playingFile).currentSoundPos = s.currentSoundPos :=
  ⟨rfl, modifyPlaylist_playlistFileFutures _ _ _, modifyPlaylist_alreadyPlayedTracks _ _ _, rfl,
    modifyPlaylist_soundHandler _ _ _, modifyPlaylist_currentSoundPos _ _ _⟩

theorem setPlayingFile_shuffle (s : State) (playlistIndex : Int) (playingFile : Int) :
    (setPlayingFile s playlistIndex playingFile).shuffle = s.shuffle := by
  show (modifyPlaylist s playlistIndex _).shuffle = s.shuffle
  unfold modifyPlaylist; split <;> rfl

theorem setPlayingFile_musicFilesOf (s : State) (playlistIndex j : Int) (playingFile : Int) :
    musicFilesOf (setPlayingFile s playlistIndex playingFile) j = musicFilesOf s j :=
  (musicFilesOf_congr _ _ j (setPlayingFile_frame s playlistIndex playingFile).1).trans
    (musicFilesOf_modifyPlaylist_keep s playlistIndex j _ (fun _ => rfl))

/-- The playing index of a playlist after the skip functions have selected
`k` and called `playlistPlayFileWithIndex`, with or without a batch in
flight. -/
theorem playingFile_after_select (env : Env) (s : State) (playlistIndex : Int) (k : Nat)
    (h0 : 0 ≤ playlistIndex) (h1 : playlistIndex.toNat < s.playlists.length) :
    (playlistAt (playlistPlayFileWithIndex env (setPlayingFile s playlistIndex (k : Int))
      ((k : Int)).toNat playlistIndex) playlistIndex).playingFile = (k : Int) := by
  have hsel : (playlistAt (setPlayingFile s playlistIndex (k : Int)) playlistIndex).playingFile
      = (k : Int) := by
    rw [playlistAt_congr _ _ _ (setPlayingFile_frame s playlistIndex (k : Int)).1,
      playlistAt_modifyPlaylist_self s playlistIndex _ h0 h1]
  have hlen : playlistIndex.toNat < (setPlayingFile s playlistIndex (k : Int)).playlists.length := by
    rw [(setPlayingFile_frame s playlistIndex (k : Int)).1, modifyPlaylist_length]
    exact h1
  by_cases hf : (setPlayingFile s playlistIndex (k : Int)).playlistFileFutures = []
  · rw [playlistAt_congr _ _ _ (playlistPlayFileWithIndex_effect env _ _ _ hf).1,
      playlistAt_modifyPlaylist_self _ playlistIndex _ h0 hlen]
    simp
  · rw [playlistPlayFileWithIndex_of_futures env _ _ _ hf]
    exact hsel

theorem shuffleDraw_some (alreadyPlayedTracks draws : List Nat) (d : Nat)
    (h : shuffleDraw alreadyPlayedTracks draws = some d) :
    d ∈ draws ∧ d ∉ alreadyPlayedTracks := by
  induction draws with
  | nil => simp [shuffleDraw] at h
  | cons x xs ih =>
    unfold shuffleDraw at h
    by_cases hx : alreadyPlayedTracks.contains x = true
    · rw [if_pos hx] at h
      exact ⟨List.mem_cons_of_mem _ (ih h).1, (ih h).2⟩
    · rw [if_neg hx] at h
      have hd : x = d := by simpa using h
      subst hd
      exact ⟨List.mem_cons_self _ _, by simpa using hx⟩

theorem shuffleDraw_isSome (alreadyPlayedTracks draws : List Nat)
    (h : ∃ d ∈ draws, d ∉ alreadyPlayedTracks) :
    ∃ d, shuffleDraw alreadyPlayedTracks draws = some d := by
  induction draws with
  | nil => obtain ⟨d, hd, _⟩ := h; cases hd
  | cons x xs ih =>
    unfold shuffleDraw
    by_cases hx : alreadyPlayedTracks.contains x = true
    · rw [if_pos hx]
      obtain ⟨d, hd, hnot⟩ := h
      rcases List.mem_cons.mp hd with hdx | hdxs
      · subst hdx
        exact absurd (by simpa using hx) hnot
      · exact ih ⟨d, hdxs, hnot⟩
    · rw [if_neg hx]
      exact ⟨x, rfl⟩

/-- The result of `skipSoundUp` with shuffle off. -/
theorem skipSoundUp_sequential (env : Env) (s : State) (playlistIndex : Int)
    (draws : List Nat) (h : s.shuffle = false) :
    skipSoundUp env s playlistIndex draws =
      some (playlistPlayFileWithIndex env
        (setPlayingFile s playlistIndex
          (if (playlistAt s playlistIndex).playingFile + 1
              < ((playlistAt s playlistIndex).musicFiles.length : Int)
            then (playlistAt s playlistIndex).playingFile + 1 else 0))
        (if (playlistAt s playlistIndex).playingFile + 1
              < ((playlistAt s playlistIndex).musicFiles.length : Int)
            then (playlistAt s playlistIndex).playingFile + 1 else 0).toNat playlistIndex) := by
  unfold skipSoundUp
  simp only [h, Bool.not_false, if_true]
  split_ifs <;> rfl

/-- The result of `skipSoundUp` with shuffle on. -/
theorem skipSoundUp_shuffle (env : Env) (s : State) (playlistIndex : Int)
    (draws : List Nat) (h : s.shuffle = true) :
    skipSoundUp env s playlistIndex draws =
      (shuffleDraw s.alreadyPlayedTracks draws).map (fun d =>
        playlistPlayFileWithIndex env (setPlayingFile s playlistIndex (d : Int))
          ((d : Int)).toNat playlistIndex) := by
  unfold skipSoundUp
  simp only [h, Bool.not_true, Bool.false_eq_true, if_false]
  cases shuffleDraw s.alreadyPlayedTracks draws <;> rfl

theorem playlistPlayFileWithIndex_shuffle (env : Env) (s : State) (i : Nat)
    (playlistIndex : Int) :
    (playlistPlayFileWithIndex env s i playlistIndex).shuffle = s.shuffle := by
  by_cases hf : s.playlistFileFutures = []
  · exact (playlistPlayFileWithIndex_effect env s i playlistIndex hf).2.2.2.1
  · rw [playlistPlayFileWithIndex_of_futures env s i playlistIndex hf]

/-- The result of `skipSoundDown`. -/
theorem skipSoundDown_eq (env : Env) (s : State) (playlistIndex : Int) :
    skipSoundDown env s playlistIndex =
      playlistPlayFileWithIndex env
        (setPlayingFile s playlistIndex
          (if (playlistAt s playlistIndex).playingFile - 1 ≥ 0
            then (playlistAt s playlistIndex).playingFile - 1
            else ((playlistAt s playlistIndex).musicFiles.length : Int) - 1))
        (if (playlistAt s playlistIndex).playingFile - 1 ≥ 0
            then (playlistAt s playlistIndex).playingFile - 1
            else ((playlistAt s playlistIndex).musicFiles.length : Int) - 1).toNat
        playlistIndex := rfl


/-! ## The position clock -/

theorem advanceSoundPos_of_stalled (s : State)
    (h : ¬ (s.currentSoundPos + 1 ≤ s.soundHandler.lengthInSeconds
      ∧ s.soundHandler.isPlaying = true)) :
    advanceSoundPos s = s := by
  unfold advanceSoundPos
  rw [if_neg]
  simpa using h

theorem advanceSoundPos_elapsed (s : State)
    (hpos : s.currentSoundPos + 1 ≤ s.soundHandler.lengthInSeconds)
    (hplay : s.soundHandler.isPlaying = true)
    (hfull : s.soundPosUpdateTimer ≤ s.soundPosUpdateTime + s.deltaTime) :
    advanceSoundPos s
      = { s with currentSoundPos := s.currentSoundPos + 1, soundPosUpdateTime := 0 } := by
  unfold advanceSoundPos
  rw [if_pos (by simp [hpos, hplay])]
  simp only [ge_iff_le, if_pos hfull]

theorem updateSoundProgress_of_init (env : Env) (s : State) (draws : List Nat)
    (h : s.soundHandler.isInit = true) :
    updateSoundProgress env s draws = endOfTrack env (advanceSoundPos s) draws := by
  unfold updateSoundProgress
  rw [if_neg (by simp [h])]

theorem endOfTrack_replay (env : Env) (s : State) (draws : List Nat)
    (hend : s.soundHandler.lengthInSeconds ≤ s.currentSoundPos)
    (hheld : s.trackProgressSliderHeld = false) (hreplay : s.replayTrack = true) :
    endOfTrack env s draws
      = some { s with currentSoundPos := 0,
                      soundHandler := s.soundHandler.setPositionInSeconds 0 } := by
  unfold endOfTrack
  rw [if_pos (by simp [hend, hheld]), if_neg (by simp [hreplay])]

theorem endOfTrack_skip (env : Env) (s : State) (draws : List Nat)
    (hend : s.soundHandler.lengthInSeconds ≤ s.currentSoundPos)
    (hheld : s.trackProgressSliderHeld = false) (hreplay : s.replayTrack = false) :
    endOfTrack env s draws = skipSoundUp env s s.currentPlaylist draws := by
  unfold endOfTrack
  rw [if_pos (by simp [hend, hheld]), if_pos (by simp [hreplay])]

theorem shuffleDraw_none (alreadyPlayedTracks draws : List Nat)
    (h : ∀ d ∈ draws, d ∈ alreadyPlayedTracks) :
    shuffleDraw alreadyPlayedTracks draws = none := by
  induction draws with
  | nil => rfl
  | cons d draws ih =>
    unfold shuffleDraw
    rw [if_pos (by simpa using h d (List.mem_cons_self _ _))]
    exact ih (fun e he => h e (List.mem_cons_of_mem _ he))

theorem getElem?_insertIdx_pos {α : Type} (l : List α) (x : α) (k j : Nat)
    (h : k ≤ l.length) :
    (l.insertIdx k x)[j]? = if j < k then l[j]? else if j = k then some x else l[j - 1]? := by
  induction l generalizing k j with
  | nil =>
    have hk : k = 0 := by simpa using h
    subst hk
    cases j <;> simp
  | cons a l ih =>
    cases k with
    | zero =>
      cases j with
      | zero => simp
      | succ j => simp
    | succ k =>
      have hk : k ≤ l.length := by simpa using h
      cases j with
      | zero => simp
      | succ j =>
        simp only [List.insertIdx_succ_cons, List.getElem?_cons_succ, ih k j hk,
          Nat.add_lt_add_iff_right, Nat.add_right_cancel_iff, Nat.add_sub_cancel]
        split_ifs with h1 h2
        · rfl
        · rfl
        · obtain ⟨i, rfl⟩ : ∃ i, j = i + 1 := ⟨j - 1, by omega⟩
          simp

theorem length_insertIdx_pos {α : Type} (l : List α) (x : α) (k : Nat) (h : k ≤ l.length) :
    (l.insertIdx k x).length = l.length + 1 :=
  List.length_insertIdx k l h

/-- The vector after an in-range move, position by position. -/
theorem moveFile_spec (files : List SoundFile) (a b : Nat)
    (ha : a < files.length) (hb : b < files.length) :
    ∃ moved, moveFile files a b = some moved ∧ moved.length = files.length ∧
      ∀ j, moved[j]? =
        if j = b then files[a]?
        else if a ≤ j ∧ j < b then files[j + 1]?
        else if b < j ∧ j ≤ a then files[j - 1]?
        else files[j]? := by
  have hget : files.get? a = some (files[a]) := by
    simp [List.get?_eq_getElem?, List.getElem?_eq_getElem ha]
  unfold moveFile
  rw [hget]
  by_cases hab : a < b
  · simp only [if_pos hab]
    rw [if_pos (by omega)]
    refine ⟨_, rfl, ?_, ?_⟩
    · rw [List.length_eraseIdx, length_insertIdx_pos _ _ _ (by omega)]
      rw [if_pos (by omega)]
      omega
    · intro j
      rw [List.getElem?_eraseIdx]
      by_cases hj : j < a
      · rw [if_pos hj, getElem?_insertIdx_pos _ _ _ _ (by omega), if_pos (by omega),
          if_neg (by omega), if_neg (by omega), if_neg (by omega)]
      · rw [if_neg hj, getElem?_insertIdx_pos _ _ _ _ (by omega)]
        by_cases hjb : j < b
        · rw [if_pos (by omega), if_neg (by omega), if_pos ⟨by omega, hjb⟩]
        · by_cases hjb' : j = b
          · subst hjb'
            rw [if_neg (by omega), if_pos rfl, if_pos rfl, List.getElem?_eq_getElem ha]
          · rw [if_neg (by omega), if_neg (by omega), if_neg hjb', if_neg (by omega),
              if_neg (by omega)]
            rfl
  · simp only [if_neg hab]
    have hlen : (files.eraseIdx a).length = files.length - 1 := by
      rw [List.length_eraseIdx, if_pos ha]
    refine ⟨_, rfl, ?_, ?_⟩
    · rw [length_insertIdx_pos _ _ _ (by omega), hlen]
      omega
    · intro j
      rw [getElem?_insertIdx_pos _ _ _ _ (by omega)]
      by_cases hj : j < b
      · rw [if_pos hj, List.getElem?_eraseIdx, if_pos (by omega), if_neg (by omega),
          if_neg (by omega), if_neg (by omega)]
      · by_cases hjb : j = b
        · subst hjb
          rw [if_neg hj, if_pos rfl, if_pos rfl, List.getElem?_eq_getElem ha]
        · rw [if_neg hj, if_neg hjb, if_neg hjb, if_neg (by omega), List.getElem?_eraseIdx]
          by_cases hja : j ≤ a
          · rw [if_pos (by omega), if_pos ⟨by omega, hja⟩]
          · rw [if_neg (by omega), if_neg (by omega)]
            congr 1
            omega

/-- An out-of-range index makes `moveFile` access the vector outside its
bounds. -/
theorem moveFile_out_of_range (files : List SoundFile) (a b : Nat)
    (h : files.length ≤ a ∨ files.length ≤ b) : moveFile files a b = none := by
  unfold moveFile
  by_cases ha : a < files.length
  · have hb : files.length ≤ b := by omega
    have hget : files.get? a = some (files[a]) := by
      simp [List.get?_eq_getElem?, List.getElem?_eq_getElem ha]
    rw [hget]
    simp only [if_pos (show a < b by omega)]
    rw [if_neg (by omega)]
  · have hget : files.get? a = none := by
      simp [List.get?_eq_getElem?, List.getElem?_eq_none (show files.length ≤ a by omega)]
    rw [hget]

/-- The outcome of an in-range call of `moveFileInPlaylistIdx`. -/
theorem moveFileInPlaylistIdx_spec (s : State) (p : Int) (a b : Nat)
    (ha : a < (musicFilesOf s p).length) (hb : b < (musicFilesOf s p).length) :
    ∃ moved, moveFile (musicFilesOf s p) a b = some moved ∧
      moveFileInPlaylistIdx s p a b
        = { errorLogged := false,
            result := some (modifyPlaylist s p (fun q => { q with musicFiles := moved })) } ∧
      musicFilesOf (modifyPlaylist s p (fun q => { q with musicFiles := moved })) p = moved := by
  obtain ⟨moved, hm, _, _⟩ := moveFile_spec (musicFilesOf s p) a b ha hb
  obtain ⟨h0, h1⟩ := inRange_of_track s p a ha
  refine ⟨moved, hm, ?_, ?_⟩
  · unfold moveFileInPlaylistIdx
    unfold musicFilesOf at hm ha hb
    simp only [hm, Option.map_some']
    congr 1
    simp
    omega
  · unfold musicFilesOf
    rw [playlistAt_modifyPlaylist_self s p _ h0 h1]

theorem modifyPlaylist_eq_self (s : State) (p : Int) (f : Playlist → Playlist)
    (h : f (playlistAt s p) = playlistAt s p) : modifyPlaylist s p f = s := by
  unfold modifyPlaylist
  split
  · rfl
  · rename_i hp
    have hl : s.playlists.modify f p.toNat = s.playlists := by
      apply List.ext_getElem?
      intro m
      rw [List.getElem?_modify]
      by_cases hm : p.toNat = m
      · subst hm
        cases hx : s.playlists[p.toNat]? with
        | none => rfl
        | some x =>
          have hat : playlistAt s p = x := by
            unfold playlistAt
            rw [if_neg hp, List.getD_eq_getElem?_getD, hx]
            rfl
          rw [hat] at h
          simp [h]
      · cases hx : s.playlists[m]? with
        | none => rfl
        | some x => simp [hm]
    rw [hl]


/-! ## Writing the membership file -/

theorem quote_append (contents path : String) :
    contents ++ "\"" ++ path ++ "\" " = contents ++ quotedToken path := by
  apply String.ext
  simp [quotedToken, String.data_append]

/-- The three outputs `metadata << "\"" << path << "\" "`. -/
theorem write_quoted (metadata : AppendStream) (path : String) :
    ((metadata.write "\"").write path).write "\" "
      = { metadata with contents := if metadata.isOpen then metadata.contents ++ quotedToken path
                                     else metadata.contents } := by
  unfold AppendStream.write
  cases h : metadata.isOpen
  · simp [h]
  · simp only [h, if_true]
    rw [quote_append]

/-- A loop that writes the token of every entry satisfying `cond`. -/
theorem write_loop (cond : DirectoryEntry → Bool) (entries : List DirectoryEntry)
    (metadata : AppendStream) :
    entries.foldl (fun metadata entry =>
        if cond entry then ((metadata.write "\"").write entry.path).write "\" "
        else metadata) metadata
      = { metadata with contents :=
            if metadata.isOpen then
              metadata.contents
                ++ quotedTokens ((entries.filter cond).map (fun entry => entry.path))
            else metadata.contents } := by
  induction entries generalizing metadata with
  | nil =>
    cases metadata with
    | mk isOpen contents => cases isOpen <;> simp [quotedTokens]
  | cons entry entries ih =>
    rw [List.foldl_cons]
    cases hc : cond entry
    · simp only [hc, Bool.false_eq_true, if_false, List.filter_cons_of_neg, not_false_eq_true]
      exact ih metadata
    · simp only [hc, if_true, List.filter_cons_of_pos, List.map_cons]
      rw [ih, write_quoted]
      cases metadata with
      | mk isOpen contents =>
        cases isOpen
        · simp
        · simp [quotedTokens, String.append_assoc]

/-- A loop that writes the token of every entry satisfying `cond` and
records its path as pending. -/
theorem write_and_record_loop (cond : DirectoryEntry → Bool) (entries : List DirectoryEntry)
    (metadata : AppendStream) (pending : List String) :
    entries.foldl (fun acc entry =>
        if cond entry then
          (((acc.1.write "\"").write entry.path).write "\" ", acc.2 ++ [entry.path])
        else acc) (metadata, pending)
      = ({ metadata with contents :=
            if metadata.isOpen then
              metadata.contents
                ++ quotedTokens ((entries.filter cond).map (fun entry => entry.path))
            else metadata.contents },
         pending ++ (entries.filter cond).map (fun entry => entry.path)) := by
  induction entries generalizing metadata pending with
  | nil =>
    cases metadata with
    | mk isOpen contents => cases isOpen <;> simp [quotedTokens]
  | cons entry entries ih =>
    rw [List.foldl_cons]
    cases hc : cond entry
    · simp only [hc, Bool.false_eq_true, if_false, List.filter_cons_of_neg, not_false_eq_true]
      exact ih metadata pending
    · simp only [hc, if_true, List.filter_cons_of_pos, List.map_cons]
      rw [ih, write_quoted]
      cases metadata with
      | mk isOpen contents =>
        cases isOpen
        · simp
        · simp [quotedTokens, String.append_assoc]

/-- The `.metadata` contents of playlist `playlistIndex` after
`addFileToPlaylistAsync`. -/
theorem addFileToPlaylistAsync_metadata (env : Env) (s : State) (files : Int) (path : String)
    (playlistIndex : Int) :
    (playlistAt (addFileToPlaylistAsync env s files path playlistIndex) playlistIndex).metadata
      = if env.metadataIsOpen (playlistAt s playlistIndex).path = true
            ∧ env.fileGood path = true
            ∧ 0 ≤ playlistIndex ∧ playlistIndex.toNat < s.playlists.length
        then (playlistAt s playlistIndex).metadata ++ quotedToken path
        else (playlistAt s playlistIndex).metadata := by
  unfold addFileToPlaylistAsync
  by_cases hopen : env.metadataIsOpen (playlistAt s playlistIndex).path = true
  · by_cases hgood : env.fileGood path = true
    · simp only [hopen, hgood, Bool.not_true, Bool.false_eq_true, if_false, true_and]
      have key : ∀ (t : State) (data : List TextureData),
          playlistAt { t with playlistFileThumbnailData := data } playlistIndex
            = playlistAt t playlistIndex := fun _ _ => rfl
      have hresult : ∀ (file : SoundFile) (c : Prop) [Decidable c] (d1 d2 : List TextureData),
          (playlistAt
            (if c then
              { emplaceFile (modifyPlaylist s playlistIndex
                  (fun p => { p with metadata := p.metadata ++ ("\"" ++ path ++ "\" ") }))
                  files file with playlistFileThumbnailData := d1 }
            else
              { emplaceFile (modifyPlaylist s playlistIndex
                  (fun p => { p with metadata := p.metadata ++ ("\"" ++ path ++ "\" ") }))
                  files file with playlistFileThumbnailData := d2 }) playlistIndex).metadata
          = (playlistAt (modifyPlaylist s playlistIndex
              (fun p => { p with metadata := p.metadata ++ ("\"" ++ path ++ "\" ") }))
              playlistIndex).metadata := by
        intro file c _ d1 d2
        have hemplace : (playlistAt (emplaceFile (modifyPlaylist s playlistIndex
            (fun p => { p with metadata := p.metadata ++ ("\"" ++ path ++ "\" ") }))
            files file) playlistIndex).metadata
            = (playlistAt (modifyPlaylist s playlistIndex
              (fun p => { p with metadata := p.metadata ++ ("\"" ++ path ++ "\" ") }))
              playlistIndex).metadata := by
          unfold emplaceFile
          rw [playlistAt_modifyPlaylist]
          split <;> rfl
        split
        · rw [key]; exact hemplace
        · rw [key]; exact hemplace
      rw [hresult, playlistAt_modifyPlaylist]
      by_cases hr : 0 ≤ playlistIndex ∧ playlistIndex.toNat < s.playlists.length
      · rw [if_pos ⟨rfl, hr⟩, if_pos hr]
        show (playlistAt s playlistIndex).metadata ++ ("\"" ++ path ++ "\" ") = _
        rw [← quote_append, String.append_assoc, String.append_assoc, String.append_assoc]
      · rw [if_neg (fun h => hr h.2), if_neg hr]
    · simp [hopen, hgood]
  · simp [hopen]


/-! ## Claims on the loading pipeline -/

/-- C2 (as stated, refuted). Two tracks with the same file name in different
directories: the two completion orders of the same two tasks are both
finalized, with different track sequences. -/
theorem final_order_depends_on_completion_order :
    (run sampleEnv (loadPlaylistAsync sampleEnv (sampleState ["/a/x.mp3", "/b/x.mp3"]) 0)
        [Event.taskDone 0, Event.taskDone 1, Event.frame]).playlistFileFutures = [] ∧
    (run sampleEnv (loadPlaylistAsync sampleEnv (sampleState ["/a/x.mp3", "/b/x.mp3"]) 0)
        [Event.taskDone 1, Event.taskDone 0, Event.frame]).playlistFileFutures = [] ∧
    (musicFilesOf
      (run sampleEnv (loadPlaylistAsync sampleEnv (sampleState ["/a/x.mp3", "/b/x.mp3"]) 0)
        [Event.taskDone 0, Event.taskDone 1, Event.frame]) 0).map (fun f => f.path)
      = ["/a/x.mp3", "/b/x.mp3"] ∧
    (musicFilesOf
      (run sampleEnv (loadPlaylistAsync sampleEnv (sampleState ["/a/x.mp3", "/b/x.mp3"]) 0)
        [Event.taskDone 1, Event.taskDone 0, Event.frame]) 0).map (fun f => f.path)
      = ["/b/x.mp3", "/a/x.mp3"] := by
  decide

/-- C2 (amended). For a fixed pending path list in which two paths whose
tracks have the same sort key (file name without extension) give the same
track, any two interleavings of task completions and frames that finalize
the batch end with the identical track sequence. -/
theorem final_order_independent_of_completion_order (env : Env) (s0 : State) (cur : Nat)
    (events1 events2 : List Event)
    (hA : env.ASYNC_PLAYLIST_LOADING = true) (hcur : s0.currentPlaylist = (cur : Int))
    (hlen : cur < s0.playlists.length) (hfut : s0.playlistFileFutures = [])
    (hkey : ∀ p ∈ s0.loadedPlaylistFilepaths, ∀ q ∈ s0.loadedPlaylistFilepaths,
      nameKey (loadedTrack env p).path = nameKey (loadedTrack env q).path →
        finalTrack env p = finalTrack env q)
    (hdone1 : (run env (loadPlaylistAsync env s0 (cur : Int)) events1).playlistFileFutures = [])
    (hdone2 : (run env (loadPlaylistAsync env s0 (cur : Int)) events2).playlistFileFutures = []) :
    musicFilesOf (run env (loadPlaylistAsync env s0 (cur : Int)) events1) (cur : Int)
      = musicFilesOf (run env (loadPlaylistAsync env s0 (cur : Int)) events2) (cur : Int) := by
  obtain ⟨_, _, _, _, hperm1, hsorted1, _⟩ :=
    run_finalized env s0 cur events1 hA hcur hlen hfut hdone1
  obtain ⟨_, _, _, _, hperm2, hsorted2, _⟩ :=
    run_finalized env s0 cur events2 hA hcur hlen hfut hdone2
  refine sorted_perm_unique (fun f : SoundFile => nameKey f.path) _ _
    (hperm1.trans hperm2.symm) hsorted1 hsorted2 ?_
  intro a ha b hb hab
  obtain ⟨p, hp, rfl⟩ := List.mem_map.mp (hperm1.subset ha)
  obtain ⟨q, hq, rfl⟩ := List.mem_map.mp (hperm1.subset hb)
  exact hkey p hp q hq hab

/-- Witness of C2 (amended): two completion orders of the sample batch, in
which the two tracks with the key `a` and `b` and the sentinel have distinct
keys. -/
theorem final_order_independent_of_completion_order_witness :
    (run sampleEnv (loadPlaylistAsync sampleEnv
        (sampleState ["/music/b.mp3", "/music/gone.mp3", "/music/a.mp3"]) 0)
        [Event.taskDone 0, Event.taskDone 1, Event.taskDone 2, Event.frame]).playlistFileFutures
      = [] ∧
    sampleBatch.playlistFileFutures = [] ∧
    musicFilesOf sampleBatch 0
      = musicFilesOf (run sampleEnv (loadPlaylistAsync sampleEnv
        (sampleState ["/music/b.mp3", "/music/gone.mp3", "/music/a.mp3"]) 0)
        [Event.taskDone 0, Event.taskDone 1, Event.taskDone 2, Event.frame]) 0 :=
  ⟨by decide, by decide,
   final_order_independent_of_completion_order sampleEnv
    (sampleState ["/music/b.mp3", "/music/gone.mp3", "/music/a.mp3"]) 0
    [Event.taskDone 2, Event.frame, Event.taskDone 0, Event.taskDone 1, Event.frame]
    [Event.taskDone 0, Event.taskDone 1, Event.taskDone 2, Event.frame]
    rfl rfl (by decide) rfl (by decide) (by decide) (by decide)⟩

/-- C4. On the frame at which the track count equals the pending path count
while task handles are outstanding, `handleAsyncPlaylistLoading` takes the
completion branch: it leaves the handle set empty and the track collection
sorted by file name.  Every later frame without a new dispatch runs only the
first loop of the handler (the `loaded` flags): no texture creation, no sort
and no restore happen again, so the tracks of every playlist keep their
order and textures, and the playing index, the position counter, the backend
session, the buffers and the empty handle set stay as the finalizing frame
left them. -/
theorem finalize_exactly_once (env : Env) (s : State) (cur : Nat)
    (hcur : s.currentPlaylist = (cur : Int)) (hlen : cur < s.playlists.length)
    (hcount : s.loadedPlaylistFilepaths.length = (musicFilesOf s (cur : Int)).length)
    (hout : s.playlistFileFutures ≠ []) :
    handleAsyncPlaylistLoading env s = finalizeBatch env (markLoaded s) ∧
    (handleAsyncPlaylistLoading env s).playlistFileFutures = [] ∧
    SortedByName (musicFilesOf (handleAsyncPlaylistLoading env s) (cur : Int)) ∧
    ∀ n : Nat,
      (handleAsyncPlaylistLoading env)^[n + 1] (handleAsyncPlaylistLoading env s)
        = markLoaded (handleAsyncPlaylistLoading env s) ∧
      ∀ j : Int,
        (musicFilesOf ((handleAsyncPlaylistLoading env)^[n + 1]
            (handleAsyncPlaylistLoading env s)) j).map unloaded
          = (musicFilesOf (handleAsyncPlaylistLoading env s) j).map unloaded ∧
        (playlistAt ((handleAsyncPlaylistLoading env)^[n + 1]
            (handleAsyncPlaylistLoading env s)) j).playingFile
          = (playlistAt (handleAsyncPlaylistLoading env s) j).playingFile ∧
        ((handleAsyncPlaylistLoading env)^[n + 1]
            (handleAsyncPlaylistLoading env s)).currentSoundPos
          = (handleAsyncPlaylistLoading env s).currentSoundPos ∧
        ((handleAsyncPlaylistLoading env)^[n + 1]
            (handleAsyncPlaylistLoading env s)).soundHandler
          = (handleAsyncPlaylistLoading env s).soundHandler ∧
        ((handleAsyncPlaylistLoading env)^[n + 1]
            (handleAsyncPlaylistLoading env s)).playlistFileThumbnailData
          = (handleAsyncPlaylistLoading env s).playlistFileThumbnailData ∧
        ((handleAsyncPlaylistLoading env)^[n + 1]
            (handleAsyncPlaylistLoading env s)).playlistFileFutures = [] := by
  have hcur1 : (markLoaded s).currentPlaylist = (cur : Int) :=
    (modifyPlaylist_currentPlaylist _ _ _).trans hcur
  have hb : batchComplete (markLoaded s) = true := by
    unfold batchComplete
    have e1 : (markLoaded s).loadedPlaylistFilepaths = s.loadedPlaylistFilepaths :=
      modifyPlaylist_loadedPlaylistFilepaths _ _ _
    have e2 : (markLoaded s).playlistFileFutures = s.playlistFileFutures :=
      modifyPlaylist_playlistFileFutures _ _ _
    have e3 : (playlistAt (markLoaded s) (cur : Int)).musicFiles
        = markLoadedFiles s.playlistFileThumbnailData.length (musicFilesOf s (cur : Int)) :=
      markLoaded_musicFilesOf s cur hcur hlen
    rw [e1, e2, hcur1, e3, markLoadedFiles_length, hcount]
    cases hf : s.playlistFileFutures with
    | nil => exact absurd hf hout
    | cons x xs => simp
  have hstep : handleAsyncPlaylistLoading env s = finalizeBatch env (markLoaded s) := by
    unfold handleAsyncPlaylistLoading
    dsimp only
    rw [if_pos hb]
  have hne : (markLoaded s).currentPlaylist ≠ -1 := by rw [hcur1]; omega
  have hfinal := finalizeBatch_of_ne env (markLoaded s) hne
  have hfut : (handleAsyncPlaylistLoading env s).playlistFileFutures = [] := by
    rw [hstep, hfinal, (restorePreviousSound_frame env _).2.2.2.1]
    exact modifyPlaylist_playlistFileFutures _ _ _
  have hlater : ∀ n : Nat,
      (handleAsyncPlaylistLoading env)^[n + 1] (handleAsyncPlaylistLoading env s)
        = markLoaded (handleAsyncPlaylistLoading env s) :=
    fun n => iterate_frames_of_no_futures env n _ hfut
  refine ⟨hstep, hfut, ?_, fun n => ⟨hlater n, fun j => ?_⟩⟩
  swap
  · rw [hlater n]
    obtain ⟨m1, m2, m3, m4, m5, m6⟩ := markLoaded_effect (handleAsyncPlaylistLoading env s) j
    exact ⟨m1, m2, m3, m4, m5, m6.trans hfut⟩
  rw [hstep, hfinal, restorePreviousSound_musicFilesOf, hcur1]
  have key : ∀ (x t : State),
      t.playlists = (modifyPlaylist x (cur : Int)
        (fun p => { p with musicFiles := stdSort compareSoundFilesByName p.musicFiles })).playlists →
      SortedByName (musicFilesOf t (cur : Int)) := by
    intro x t ht
    rw [musicFilesOf_congr t _ _ ht]
    exact sortedByName_modifyPlaylist_sort _ _
  exact key _ _ rfl

/-- Witness of C4: the sample batch at the frame after its third task. -/
theorem finalize_exactly_once_witness :
    (sampleLoaded.loadedPlaylistFilepaths.length = (musicFilesOf sampleLoaded 0).length ∧
      sampleLoaded.playlistFileFutures ≠ []) ∧
    (handleAsyncPlaylistLoading sampleEnv sampleLoaded
        = finalizeBatch sampleEnv (markLoaded sampleLoaded) ∧
      (handleAsyncPlaylistLoading sampleEnv sampleLoaded).playlistFileFutures = [] ∧
      SortedByName (musicFilesOf (handleAsyncPlaylistLoading sampleEnv sampleLoaded) 0) ∧
      ∀ n : Nat, ((handleAsyncPlaylistLoading sampleEnv)^[n + 1]
          (handleAsyncPlaylistLoading sampleEnv sampleLoaded)).playlistFileFutures = []) :=
  have h := finalize_exactly_once sampleEnv sampleLoaded 0 (by decide) (by decide) (by decide)
    (by decide)
  ⟨⟨by decide, by decide⟩, h.1, h.2.1, h.2.2.1, fun n => ((h.2.2.2 n).2 0).2.2.2.2.2⟩

/-- C5 (code evaluated at the failing input). A download sync dispatched one
`addFileToPlaylistAsync` task for `/music/gone.mp3` and counted the path as
pending; the file cannot be opened when the task runs, the task returns at
line 3056 and appends neither a track nor a thumbnail buffer.  The track
count stays below the pending count, the handle set stays non-empty, and a
frame changes nothing: the batch does not complete. -/
theorem add_task_for_unreadable_file_appends_nothing :
    sampleEnv.fileGood "/music/gone.mp3" = false ∧
    (dispatchDownloaded (sampleState []) [] ["/music/gone.mp3"]).playlistFileFutures
      = [{ files := 0, path := "/music/gone.mp3", addTo := some 0 }] ∧
    sampleStalled.playlistFileFutures
      = [{ files := 0, path := "/music/gone.mp3", addTo := some 0, finished := true }] ∧
    sampleStalled.loadedPlaylistFilepaths = ["/music/gone.mp3"] ∧
    musicFilesOf sampleStalled 0 = [] ∧
    sampleStalled.playlistFileThumbnailData = [] ∧
    handleAsyncPlaylistLoading sampleEnv sampleStalled = sampleStalled := by
  decide

/-- C6 (as stated, refuted). The synchronous load of a missing path appends
the sentinel track and no thumbnail buffer: the buffer collection is empty
afterwards. -/
theorem sync_load_appends_no_thumbnail_buffer :
    musicFilesOf (loadPlaylistAsync sampleSyncEnv (sampleState ["/music/gone.mp3"]) 0) 0
      = [{ path := "File cannot be loaded", duration := 0, thumbnail := {} }] ∧
    (loadPlaylistAsync sampleSyncEnv (sampleState ["/music/gone.mp3"]) 0).playlistFileThumbnailData
      = [] := by
  decide

/-- C6 (amended). For a path that does not exist on disk, the asynchronous
task appends the sentinel track (path `File cannot be loaded`, duration 0,
zero thumbnail) together with a zero thumbnail buffer; the iteration of the
synchronous inline load appends the same sentinel track and leaves the
buffer collection as it is. -/
theorem missing_file_appends_sentinel (env : Env) (s : State) (cur : Nat) (path : String)
    (hmiss : env.fileExists path = false) (hlen : cur < s.playlists.length) :
    (musicFilesOf (loadPlaylistFileAsync env s (cur : Int) path) (cur : Int)
        = musicFilesOf s (cur : Int) ++
          [{ path := "File cannot be loaded", duration := 0, thumbnail := {} }]
      ∧ (loadPlaylistFileAsync env s (cur : Int) path).playlistFileThumbnailData
        = s.playlistFileThumbnailData ++ [({} : TextureData)])
    ∧ (env.ASYNC_PLAYLIST_LOADING = false → containsFile s path s.currentPlaylist = false →
      musicFilesOf (loadPlaylistAsyncIter env (cur : Int) s path) (cur : Int)
        = musicFilesOf s (cur : Int) ++
          [{ path := "File cannot be loaded", duration := 0, thumbnail := {} }]
      ∧ (loadPlaylistAsyncIter env (cur : Int) s path).playlistFileThumbnailData
        = s.playlistFileThumbnailData) := by
  have htrack : loadedTrack env path
      = { path := "File cannot be loaded", duration := 0, thumbnail := {} } := by
    simp [loadedTrack, hmiss]
  have hdata : loadedThumbnailData env path = {} := by
    simp [loadedThumbnailData, hmiss]
  have hinline : inlineSoundFile env path
      = { path := "File cannot be loaded", duration := 0, thumbnail := {} } := by
    simp [inlineSoundFile, hmiss]
  refine ⟨⟨?_, ?_⟩, ?_⟩
  · rw [loadPlaylistFileAsync_eq, htrack]
    exact (musicFilesOf_congr _ _ _ rfl).trans (musicFilesOf_emplaceFile s cur _ hlen)
  · rw [loadPlaylistFileAsync_eq, hdata]
  · intro hA hc
    have hstep : loadPlaylistAsyncIter env (cur : Int) s path
        = emplaceFile s (cur : Int) (inlineSoundFile env path) := by
      unfold loadPlaylistAsyncIter
      simp [hc, hA]
    rw [hstep, hinline]
    exact ⟨musicFilesOf_emplaceFile s cur _ hlen, modifyPlaylist_playlistFileThumbnailData _ _ _⟩

/-- Witness of C6 (amended): the missing file of the sample environment. -/
theorem missing_file_appends_sentinel_witness :
    (musicFilesOf (loadPlaylistFileAsync sampleSyncEnv (sampleState []) 0 "/music/gone.mp3") 0
        = musicFilesOf (sampleState []) 0 ++
          [{ path := "File cannot be loaded", duration := 0, thumbnail := {} }]
      ∧ (loadPlaylistFileAsync sampleSyncEnv (sampleState []) 0
          "/music/gone.mp3").playlistFileThumbnailData
        = (sampleState []).playlistFileThumbnailData ++ [({} : TextureData)])
    ∧ (musicFilesOf (loadPlaylistAsyncIter sampleSyncEnv 0 (sampleState []) "/music/gone.mp3") 0
        = musicFilesOf (sampleState []) 0 ++
          [{ path := "File cannot be loaded", duration := 0, thumbnail := {} }]
      ∧ (loadPlaylistAsyncIter sampleSyncEnv 0 (sampleState [])
          "/music/gone.mp3").playlistFileThumbnailData
        = (sampleState []).playlistFileThumbnailData) :=
  ⟨(missing_file_appends_sentinel sampleSyncEnv (sampleState []) 0 "/music/gone.mp3"
      (by decide) (by decide)).1,
   (missing_file_appends_sentinel sampleSyncEnv (sampleState []) 0 "/music/gone.mp3"
      (by decide) (by decide)).2 rfl (by decide)⟩

/-- The count invariant for a batch that is started with no task handle
outstanding: from the call of `loadPlaylistAsync` on, after any sequence of
task completions and frames, the track collection holds at most as many
tracks as there are pending paths. -/
theorem collection_size_le_pending_count (env : Env) (s0 : State) (cur : Nat)
    (events : List Event)
    (hA : env.ASYNC_PLAYLIST_LOADING = true) (hcur : s0.currentPlaylist = (cur : Int))
    (hlen : cur < s0.playlists.length) (hfut : s0.playlistFileFutures = []) :
    (musicFilesOf (run env (loadPlaylistAsync env s0 (cur : Int)) events) (cur : Int)).length
      ≤ (run env (loadPlaylistAsync env s0 (cur : Int)) events).loadedPlaylistFilepaths.length := by
  rcases run_invariant env cur _ events _
    (Or.inl (loadPlaylistAsync_loading env s0 cur hA hcur hlen hfut)) with h | h
  · obtain ⟨_, _, hpaths, hfutures, ps, hperm, hfiles, _⟩ := h
    have h1 : (musicFilesOf (run env (loadPlaylistAsync env s0 (cur : Int)) events)
        (cur : Int)).length = ps.length := by
      have := congrArg List.length hfiles; simpa using this
    have h2 : ps.length = ((run env (loadPlaylistAsync env s0 (cur : Int))
        events).playlistFileFutures.filter (fun fut => fut.finished)).length := by
      have := hperm.length_eq; simpa [finishedPaths] using this
    have h3 := List.length_filter_le (fun fut : Future => fut.finished)
      (run env (loadPlaylistAsync env s0 (cur : Int)) events).playlistFileFutures
    have h4 : (run env (loadPlaylistAsync env s0 (cur : Int)) events).playlistFileFutures.length
        = s0.loadedPlaylistFilepaths.length := by
      have := congrArg List.length hfutures; simpa using this
    rw [hpaths]
    omega
  · obtain ⟨_, _, hpaths, _, hperm, _, _⟩ := h
    rw [hpaths, hperm.length_eq]
    simp

/-- The count invariant on the sample batch after two of its three tasks. -/
theorem collection_size_le_pending_count_witness :
    (musicFilesOf (run sampleEnv (loadPlaylistAsync sampleEnv
        (sampleState ["/music/b.mp3", "/music/gone.mp3", "/music/a.mp3"]) 0)
        [Event.taskDone 2, Event.frame, Event.taskDone 0]) 0).length
      ≤ (run sampleEnv (loadPlaylistAsync sampleEnv
        (sampleState ["/music/b.mp3", "/music/gone.mp3", "/music/a.mp3"]) 0)
        [Event.taskDone 2, Event.frame, Event.taskDone 0]).loadedPlaylistFilepaths.length :=
  collection_size_le_pending_count sampleEnv
    (sampleState ["/music/b.mp3", "/music/gone.mp3", "/music/a.mp3"]) 0
    [Event.taskDone 2, Event.frame, Event.taskDone 0] rfl rfl (by decide) rfl

/-- C7 (code evaluated at the failing input). `loadPlaylistAsync` is called
again on a playlist that is still loading: one task of the first call has
run, the other is outstanding, and the second call has three pending paths.
It clears the collection and starts three more tasks. Once the four
outstanding tasks have appended their results, the last two between two
frames, the track collection holds 4 tracks against 3 pending paths; the
handles stay outstanding in the frames that follow, so the batch is not
finalized. -/
theorem collection_size_exceeds_pending_count_after_reload :
    sampleReloaded.loadedPlaylistFilepaths.length = 3 ∧
    (musicFilesOf sampleReloaded 0).length = 0 ∧
    sampleReloaded.playlistFileFutures.map (fun fut => fut.finished)
      = [true, false, false, false, false] ∧
    (musicFilesOf (run sampleEnv sampleReloaded
      [Event.frame, Event.taskDone 1, Event.frame, Event.taskDone 2, Event.frame,
        Event.taskDone 3, Event.taskDone 4]) 0).length = 4 ∧
    (run sampleEnv sampleReloaded
      [Event.frame, Event.taskDone 1, Event.frame, Event.taskDone 2, Event.frame,
        Event.taskDone 3, Event.taskDone 4]).loadedPlaylistFilepaths.length = 3 ∧
    (run sampleEnv sampleReloaded
      [Event.frame, Event.taskDone 1, Event.frame, Event.taskDone 2, Event.frame,
        Event.taskDone 3, Event.taskDone 4]).playlistFileFutures ≠ [] ∧
    (run sampleEnv sampleReloaded
      [Event.frame, Event.taskDone 1, Event.frame, Event.taskDone 2, Event.frame,
        Event.taskDone 3, Event.taskDone 4, Event.frame, Event.frame]).playlistFileFutures
      ≠ [] := by
  decide

/-- C8 (code evaluated at the failing input). `loadPlaylistAsync` is called
twice on the same playlist with the pending path `/music/a.mp3` before the
task of the first call has run; once both dispatched tasks have appended
their results the track collection holds two entries with that path. -/
theorem second_load_before_completion_duplicates_track :
    (run sampleEnv
      (loadPlaylistAsync sampleEnv
        (loadPlaylistAsync sampleEnv (sampleState ["/music/a.mp3"]) 0) 0)
      [Event.taskDone 0, Event.taskDone 1]).playlistFileFutures.map (fun fut => fut.finished)
      = [true, true] ∧
    (musicFilesOf
      (run sampleEnv
        (loadPlaylistAsync sampleEnv
          (loadPlaylistAsync sampleEnv (sampleState ["/music/a.mp3"]) 0) 0)
        [Event.taskDone 0, Event.taskDone 1]) 0).map (fun f => f.path)
      = ["/music/a.mp3", "/music/a.mp3"] := by
  decide

/-- C9 (as stated, refuted). Two paths with the same file name: when the
second task completes first, the asynchronous load ends with the tracks in
the opposite order of the synchronous load of the same path list. -/
theorem async_and_sync_order_differ :
    (run sampleEnv (loadPlaylistAsync sampleEnv (sampleState ["/a/x.mp3", "/b/x.mp3"]) 0)
        [Event.taskDone 1, Event.taskDone 0, Event.frame]).playlistFileFutures = [] ∧
    (musicFilesOf
      (run sampleEnv (loadPlaylistAsync sampleEnv (sampleState ["/a/x.mp3", "/b/x.mp3"]) 0)
        [Event.taskDone 1, Event.taskDone 0, Event.frame]) 0).map (fun f => f.path)
      ≠ (musicFilesOf (loadPlaylistAsync sampleSyncEnv
          (sampleState ["/a/x.mp3", "/b/x.mp3"]) 0) 0).map (fun f => f.path) := by
  decide

/-- C9 (amended). For every pending path list without repeated paths, not
containing the sentinel text, in which tracks with the same file name
without extension have the same path, the asynchronous load (any
interleaving of task completions and frames that finalizes the batch) and
the synchronous load end with the same sequence of track paths. -/
theorem async_and_sync_same_track_sequence (env : Env) (s0 : State) (cur : Nat)
    (events : List Event)
    (hA : env.ASYNC_PLAYLIST_LOADING = true) (hcur : s0.currentPlaylist = (cur : Int))
    (hlen : cur < s0.playlists.length) (hfut : s0.playlistFileFutures = [])
    (hnodup : s0.loadedPlaylistFilepaths.Nodup)
    (hsent : "File cannot be loaded" ∉ s0.loadedPlaylistFilepaths)
    (hkey : ∀ p ∈ s0.loadedPlaylistFilepaths, ∀ q ∈ s0.loadedPlaylistFilepaths,
      nameKey (loadedTrack env p).path = nameKey (loadedTrack env q).path →
        (loadedTrack env p).path = (loadedTrack env q).path)
    (hdone : (run env (loadPlaylistAsync env s0 (cur : Int)) events).playlistFileFutures = []) :
    (musicFilesOf (run env (loadPlaylistAsync env s0 (cur : Int)) events) (cur : Int)).map
        (fun f => f.path)
      = (musicFilesOf (loadPlaylistAsync { env with ASYNC_PLAYLIST_LOADING := false } s0
          (cur : Int)) (cur : Int)).map (fun f => f.path) := by
  obtain ⟨_, _, _, _, hperm, hsorted, _⟩ :=
    run_finalized env s0 cur events hA hcur hlen hfut hdone
  -- the synchronous result
  have hclear : musicFilesOf (modifyPlaylist s0 (cur : Int)
      (fun p => { p with musicFiles := [] })) (cur : Int) = [] :=
    musicFilesOf_modifyPlaylist_self s0 cur _ hlen
  have hclear2 : musicFilesOf
      { modifyPlaylist s0 (cur : Int) (fun p => { p with musicFiles := [] }) with
        playlistFileThumbnailData := [] } (cur : Int) = [] :=
    (musicFilesOf_congr _ _ _ rfl).trans hclear
  have hsync := loadPlaylistAsync_fold_sync { env with ASYNC_PLAYLIST_LOADING := false } cur rfl
    s0.loadedPlaylistFilepaths
    { modifyPlaylist s0 (cur : Int) (fun p => { p with musicFiles := [] }) with
      playlistFileThumbnailData := [] }
    ((modifyPlaylist_currentPlaylist _ _ _).trans hcur)
    (by show cur < (modifyPlaylist s0 _ _).playlists.length
        rw [modifyPlaylist_length]; exact hlen)
    (by intro q _ f hf; rw [hclear2] at hf; cases hf)
    hnodup hsent
  rw [hclear2, List.nil_append] at hsync
  rw [loadPlaylistAsync_sync_musicFilesOf _ s0 cur rfl hlen, hsync]
  have hpathEq : ∀ p, (inlineSoundFile { env with ASYNC_PLAYLIST_LOADING := false } p).path
      = (finalTrack env p).path := by
    intro p
    unfold inlineSoundFile finalTrack loadedTrack
    by_cases hex : env.fileExists p = true <;> simp [hex]
  have hp2 : (List.map (fun f : SoundFile => f.path)
      (stdSort compareSoundFilesByName (List.map
        (inlineSoundFile { env with ASYNC_PLAYLIST_LOADING := false })
        s0.loadedPlaylistFilepaths))).Perm
      (List.map (fun f : SoundFile => f.path)
        (List.map (finalTrack env) s0.loadedPlaylistFilepaths)) := by
    refine ((stdSort_perm _ _).map _).trans ?_
    rw [List.map_map, List.map_map]
    have : ((fun f : SoundFile => f.path) ∘
        inlineSoundFile { env with ASYNC_PLAYLIST_LOADING := false })
        = ((fun f : SoundFile => f.path) ∘ finalTrack env) := funext hpathEq
    rw [this]
  refine sorted_perm_unique nameKey _ _ ((hperm.map _).trans hp2.symm) ?_ ?_ ?_
  · exact List.pairwise_map.mpr hsorted
  · exact List.pairwise_map.mpr (sortedByName_stdSort _)
  · intro a ha b hb hab
    obtain ⟨fa, hfa, rfl⟩ := List.mem_map.mp ha
    obtain ⟨fb, hfb, rfl⟩ := List.mem_map.mp hb
    obtain ⟨p, hp, rfl⟩ := List.mem_map.mp (hperm.subset hfa)
    obtain ⟨q, hq, rfl⟩ := List.mem_map.mp (hperm.subset hfb)
    exact hkey p hp q hq hab

/-- Witness of C9 (amended): the sample batch against the synchronous load
of the same three paths. -/
theorem async_and_sync_same_track_sequence_witness :
    sampleBatch.playlistFileFutures = [] ∧
    (musicFilesOf sampleBatch 0).map (fun f => f.path)
      = (musicFilesOf (loadPlaylistAsync sampleSyncEnv
          (sampleState ["/music/b.mp3", "/music/gone.mp3", "/music/a.mp3"]) 0) 0).map
          (fun f => f.path) :=
  ⟨by decide,
   async_and_sync_same_track_sequence sampleEnv
    (sampleState ["/music/b.mp3", "/music/gone.mp3", "/music/a.mp3"]) 0
    [Event.taskDone 2, Event.frame, Event.taskDone 0, Event.taskDone 1, Event.frame]
    rfl rfl (by decide) rfl (by decide) (by decide) (by decide) (by decide)⟩

/-- C10 (code evaluated at the failing input). Track `/music/b.mp3` plays
from slot 0 at second 42 when the download sync calls `terminateAudio`; the
batch refills and sorts the collection, so track `b` ends at index 1, while
the pointer captured by `terminateAudio` still addresses slot 0, which now
holds `/music/a.mp3`.  After the finalizing frame the playing index is 0 and
the backend plays `/music/a.mp3` from second 42. -/
theorem restore_resumes_track_of_old_slot :
    samplePlaying.currentSoundFile = some { playlist := 0, index := 0 } ∧
    (deref samplePlaying { playlist := 0, index := 0 }).map (fun f => f.path)
      = some "/music/b.mp3" ∧
    (terminateAudio sampleEnv samplePlaying).previousSoundFile
      = some { playlist := 0, index := 0 } ∧
    (terminateAudio sampleEnv samplePlaying).previousSoundPos = 42 ∧
    sampleResumed.playlistFileFutures = [] ∧
    (musicFilesOf sampleResumed 0).map (fun f => f.path) = ["/music/a.mp3", "/music/b.mp3"] ∧
    (playlistAt sampleResumed 0).playingFile = 0 ∧
    sampleResumed.soundHandler.file = "/music/a.mp3" ∧
    sampleResumed.currentSoundPos = 42 := by
  decide


/-! ## Claims on the playback sequencer -/

/-- C11. While task handles of a load batch are outstanding
`playlistPlayFileWithIndex` returns the state it was given: playing index,
selected index, position counter, already-played set, active playlist id and
backend session (and every other field) are unchanged. -/
theorem play_is_noop_while_loading (env : Env) (s : State) (i : Nat) (playlistIndex : Int)
    (h : s.playlistFileFutures ≠ []) :
    playlistPlayFileWithIndex env s i playlistIndex = s :=
  playlistPlayFileWithIndex_of_futures env s i playlistIndex h

/-- Witness of C11: the sample batch with one task outstanding. -/
theorem play_is_noop_while_loading_witness :
    sampleHalfLoaded.playlistFileFutures ≠ [] ∧
    playlistPlayFileWithIndex sampleEnv sampleHalfLoaded 1 0 = sampleHalfLoaded :=
  ⟨by decide, play_is_noop_while_loading sampleEnv sampleHalfLoaded 1 0 (by decide)⟩

/-- C12 (code evaluated at the failing input). A batch is in flight, two
tracks are loaded, nothing plays (playing index `-1`, no current track).
`skipSoundUp` sets the playing index to 0 and the current-track pointer to
slot 0, `skipSoundDown` sets them to 1 and slot 1, before the call of
`playlistPlayFileWithIndex` that is rejected; the backend session stays
closed. -/
theorem skip_moves_playing_index_while_loading :
    sampleHalfLoaded.playlistFileFutures ≠ [] ∧
    (playlistAt sampleHalfLoaded 0).playingFile = -1 ∧
    sampleHalfLoaded.currentSoundFile = none ∧
    (skipSoundUp sampleEnv sampleHalfLoaded 0 []).map
        (fun s => ((playlistAt s 0).playingFile, s.currentSoundFile, s.soundHandler.isInit))
      = some (0, some { playlist := 0, index := 0 }, false) ∧
    (playlistAt (skipSoundDown sampleEnv sampleHalfLoaded 0) 0).playingFile = 1 ∧
    (skipSoundDown sampleEnv sampleHalfLoaded 0).currentSoundFile
      = some { playlist := 0, index := 1 } ∧
    (skipSoundDown sampleEnv sampleHalfLoaded 0).soundHandler.isInit = false := by
  decide

/-- C13. With no load batch in flight and an index `i` of a track of
playlist `p`, after `playlistPlayFileWithIndex(i, p)` the playing index and
the selected index of playlist `p` are `i`, the position counter is 0 and
the active playlist is `p`. -/
theorem play_sets_index_position_and_playlist (env : Env) (s : State) (i : Nat) (p : Int)
    (hfut : s.playlistFileFutures = []) (hi : i < (musicFilesOf s p).length) :
    (playlistAt (playlistPlayFileWithIndex env s i p) p).playingFile = (i : Int) ∧
    (playlistAt (playlistPlayFileWithIndex env s i p) p).selectedFile = (i : Int) ∧
    (playlistPlayFileWithIndex env s i p).currentSoundPos = 0 ∧
    (playlistPlayFileWithIndex env s i p).playingPlaylist = p := by
  obtain ⟨h0, h1⟩ := inRange_of_track s p i hi
  obtain ⟨e1, e2, e3, _⟩ := playlistPlayFileWithIndex_effect env s i p hfut
  have hp : playlistAt (playlistPlayFileWithIndex env s i p) p
      = { playlistAt s p with playingFile := (i : Int), selectedFile := (i : Int) } := by
    rw [playlistAt_congr _ _ _ e1, playlistAt_modifyPlaylist_self s p _ h0 h1]
  rw [hp]
  exact ⟨rfl, rfl, e2, e3⟩

/-- Witness of C13: track 1 of the three-track playlist. -/
theorem play_sets_index_position_and_playlist_witness :
    (playlistAt (playlistPlayFileWithIndex sampleEnv (sampleLibrary 1 2 [0] false) 1 0)
        0).playingFile = 1 ∧
    (playlistAt (playlistPlayFileWithIndex sampleEnv (sampleLibrary 1 2 [0] false) 1 0)
        0).selectedFile = 1 ∧
    (playlistPlayFileWithIndex sampleEnv (sampleLibrary 1 2 [0] false) 1 0).currentSoundPos = 0 ∧
    (playlistPlayFileWithIndex sampleEnv (sampleLibrary 1 2 [0] false) 1 0).playingPlaylist = 0 :=
  play_sets_index_position_and_playlist sampleEnv (sampleLibrary 1 2 [0] false) 1 0
    rfl (by decide)

/-- C14 (code evaluated at the failing input). Playlist 1 has one track and
is the active playlist, playlist 0 with three tracks is the viewed one.
Starting track 0 of playlist 1 records index 0, which covers the whole of
playlist 1, but line 3136 compares the size of the set with the length of
the viewed playlist: the set is not cleared. -/
theorem played_set_compared_with_viewed_playlist :
    (sampleLibrary 0 1 [] false).playlistFileFutures = [] ∧
    (musicFilesOf (sampleLibrary 0 1 [] false) 1).length = 1 ∧
    (musicFilesOf (sampleLibrary 0 1 [] false) (sampleLibrary 0 1 [] false).currentPlaylist).length
      = 3 ∧
    recordPlayed (sampleLibrary 0 1 [] false) 0 1 = [0] ∧
    (playlistPlayFileWithIndex sampleEnv (sampleLibrary 0 1 [] false) 0 1).alreadyPlayedTracks
      = [0] := by
  decide

/-- C15 (code evaluated at the failing input). No batch is in flight. On the
viewed playlist without tracks, `playlistPlayFileWithIndex(0, 0)`, which is
what `skipSoundUp` calls there, makes 0 the playing and the selected index
and opens and starts a backend session on the path read from slot 0 of the
empty track collection. On the playlist with two tracks,
`playlistPlayFileWithIndex(2, 2)` does the same with index 2. -/
theorem play_out_of_range_sets_playing_index :
    sampleEmpty.playlistFileFutures = [] ∧
    (musicFilesOf sampleEmpty 0).length = 0 ∧
    (playlistAt (playlistPlayFileWithIndex sampleEnv sampleEmpty 0 0) 0).playingFile = 0 ∧
    (playlistAt (playlistPlayFileWithIndex sampleEnv sampleEmpty 0 0) 0).selectedFile = 0 ∧
    (playlistPlayFileWithIndex sampleEnv sampleEmpty 0 0).soundHandler.isInit = true ∧
    (playlistPlayFileWithIndex sampleEnv sampleEmpty 0 0).soundHandler.isPlaying = true ∧
    (skipSoundUp sampleEnv sampleEmpty 0 []).map
        (fun s => ((playlistAt s 0).playingFile, s.soundHandler.isPlaying)) = some (0, true) ∧
    (sampleLibrary 2 2 [] false).playlistFileFutures = [] ∧
    (musicFilesOf (sampleLibrary 2 2 [] false) 2).length = 2 ∧
    (playlistAt (playlistPlayFileWithIndex sampleEnv (sampleLibrary 2 2 [] false) 2 2)
        2).playingFile = 2 ∧
    (playlistAt (playlistPlayFileWithIndex sampleEnv (sampleLibrary 2 2 [] false) 2 2)
        2).selectedFile = 2 ∧
    (playlistPlayFileWithIndex sampleEnv (sampleLibrary 2 2 [] false) 2
        2).soundHandler.isInit = true ∧
    (playlistPlayFileWithIndex sampleEnv (sampleLibrary 2 2 [] false) 2
        2).soundHandler.isPlaying = true := by
  decide

/-- C16. With shuffle off, no load batch in flight and playing index `p`
in `[0, len)`, `skipSoundUp` returns and makes the playing index
`(p + 1) mod len`: `p + 1` when `p + 1 < len`, and 0 when `p` is the last
index; the playlist stays or becomes the active one. -/
theorem skip_up_sequential_advances_with_wraparound (env : Env) (s : State) (pl : Int)
    (draws : List Nat) (p : Nat)
    (hsh : s.shuffle = false) (hfut : s.playlistFileFutures = [])
    (hp : (playlistAt s pl).playingFile = (p : Int))
    (hlt : p < (musicFilesOf s pl).length) :
    ∃ s', skipSoundUp env s pl draws = some s' ∧
      (playlistAt s' pl).playingFile = (((p + 1) % (musicFilesOf s pl).length : Nat) : Int) ∧
      (p + 1 < (musicFilesOf s pl).length → (playlistAt s' pl).playingFile = (p : Int) + 1) ∧
      (p + 1 = (musicFilesOf s pl).length → (playlistAt s' pl).playingFile = 0) ∧
      s'.playingPlaylist = pl := by
  obtain ⟨h0, h1⟩ := inRange_of_track s pl p hlt
  have hk : (if (playlistAt s pl).playingFile + 1 < ((playlistAt s pl).musicFiles.length : Int)
      then (playlistAt s pl).playingFile + 1 else 0)
      = (((p + 1) % (musicFilesOf s pl).length : Nat) : Int) := by
    rw [hp]
    unfold musicFilesOf at hlt ⊢
    split_ifs with hc
    · have hc' : p + 1 < (playlistAt s pl).musicFiles.length := by exact_mod_cast hc
      rw [Nat.mod_eq_of_lt hc']
      push_cast
      rfl
    · have hc' : ¬ p + 1 < (playlistAt s pl).musicFiles.length := fun h => hc (by exact_mod_cast h)
      have he : p + 1 = (playlistAt s pl).musicFiles.length := by omega
      rw [he, Nat.mod_self]
      rfl
  have hsel := playingFile_after_select env s pl ((p + 1) % (musicFilesOf s pl).length) h0 h1
  have hfut' : (setPlayingFile s pl
      (((p + 1) % (musicFilesOf s pl).length : Nat) : Int)).playlistFileFutures = [] := by
    rw [(setPlayingFile_frame s pl _).2.1]
    exact hfut
  refine ⟨_, skipSoundUp_sequential env s pl draws hsh, ?_⟩
  rw [hk]
  refine ⟨hsel, ?_, ?_, (playlistPlayFileWithIndex_effect env _ _ _ hfut').2.2.1⟩
  · intro h
    rw [hsel, Nat.mod_eq_of_lt h]
    push_cast
    rfl
  · intro h
    rw [hsel, h, Nat.mod_self]
    rfl

/-- Witness of C16: the last track of the three-track playlist. -/
theorem skip_up_sequential_advances_with_wraparound_witness :
    (playlistAt (playlistPlayFileWithIndex sampleEnv (sampleLibrary 0 0 [] false) 2 0)
        0).playingFile = 2 ∧
    ∃ s', skipSoundUp sampleEnv
        (playlistPlayFileWithIndex sampleEnv (sampleLibrary 0 0 [] false) 2 0) 0 [] = some s' ∧
      (playlistAt s' 0).playingFile = 0 :=
  have h := skip_up_sequential_advances_with_wraparound sampleEnv
    (playlistPlayFileWithIndex sampleEnv (sampleLibrary 0 0 [] false) 2 0) 0 [] 2
    (by decide) (by decide) (by decide) (by decide)
  ⟨by decide, h.choose, h.choose_spec.1, h.choose_spec.2.2.2.1 (by decide)⟩

/-- C17. For a playlist of length `L > 1` and random draws from `[0, L)`,
with shuffle on: the index that `skipSoundUp` selects lies in `[0, L)` and
is not in the already-played set as it stood before the call; and a
selection is made as soon as one of the draws is outside that set. -/
theorem shuffle_skip_selects_fresh_index (env : Env) (s : State) (pl : Int)
    (draws : List Nat)
    (hsh : s.shuffle = true) (hL : 1 < (musicFilesOf s pl).length)
    (hdraws : ∀ d ∈ draws, d < (musicFilesOf s pl).length) :
    (∀ s', skipSoundUp env s pl draws = some s' →
      ∃ k : Nat, (playlistAt s' pl).playingFile = (k : Int) ∧
        k < (musicFilesOf s pl).length ∧ k ∉ s.alreadyPlayedTracks) ∧
    ((∃ d ∈ draws, d ∉ s.alreadyPlayedTracks) →
      ∃ s', skipSoundUp env s pl draws = some s') := by
  obtain ⟨h0, h1⟩ := inRange_of_track s pl 1 hL
  rw [skipSoundUp_shuffle env s pl draws hsh]
  constructor
  · intro s' hs'
    cases hd : shuffleDraw s.alreadyPlayedTracks draws with
    | none => rw [hd] at hs'; cases hs'
    | some d =>
      rw [hd] at hs'
      obtain ⟨hmem, hfresh⟩ := shuffleDraw_some _ _ _ hd
      refine ⟨d, ?_, hdraws d hmem, hfresh⟩
      cases hs'
      exact playingFile_after_select env s pl d h0 h1
  · intro h
    obtain ⟨d, hd⟩ := shuffleDraw_isSome _ _ h
    rw [hd]
    exact ⟨_, rfl⟩

/-- Witness of C17: track 0 of three was played; the draws are 0, 2, 1. -/
theorem shuffle_skip_selects_fresh_index_witness :
    (∀ s', skipSoundUp sampleEnv (sampleLibrary 0 0 [0] true) 0 [0, 2, 1] = some s' →
      ∃ k : Nat, (playlistAt s' 0).playingFile = (k : Int) ∧
        k < (musicFilesOf (sampleLibrary 0 0 [0] true) 0).length ∧
        k ∉ (sampleLibrary 0 0 [0] true).alreadyPlayedTracks) ∧
    ((∃ d ∈ [0, 2, 1], d ∉ (sampleLibrary 0 0 [0] true).alreadyPlayedTracks) →
      ∃ s', skipSoundUp sampleEnv (sampleLibrary 0 0 [0] true) 0 [0, 2, 1] = some s') :=
  shuffle_skip_selects_fresh_index sampleEnv (sampleLibrary 0 0 [0] true) 0 [0, 2, 1]
    rfl (by decide) (by decide)

/-- C19 (code evaluated at the failing input). Shuffle is on, playlist 0 has
three tracks and its track 0 was started with an empty already-played set;
the user then views playlist 1, which has one track. The next `skipSoundUp`
on playlist 0 selects track 1 and the already-played set is cleared, because
its size 2 has reached the length of the viewed playlist; the following
`skipSoundUp` selects track 0 again: the first three tracks played are
0, 1, 0. -/
theorem lap_broken_when_another_playlist_is_viewed :
    (sampleLibrary 0 0 [] true).alreadyPlayedTracks = [] ∧
    (musicFilesOf sampleBrowsing 0).length = 3 ∧
    (playlistAt sampleBrowsing 0).playingFile = 0 ∧
    sampleBrowsing.alreadyPlayedTracks = [0] ∧
    sampleBrowsing.playlistFileFutures = [] ∧
    (skipSoundUp sampleEnv sampleBrowsing 0 [1]).map
        (fun s => ((playlistAt s 0).playingFile, s.alreadyPlayedTracks)) = some (1, []) ∧
    ((skipSoundUp sampleEnv sampleBrowsing 0 [1]).bind
        (fun s => skipSoundUp sampleEnv s 0 [0])).map
        (fun s => (playlistAt s 0).playingFile) = some 0 := by
  decide

/-- C20. With no load batch in flight and playing index `p` in `[0, len)`,
whatever the shuffle flag, `skipSoundDown` makes the playing index `p - 1`
when `p >= 1` and `len - 1` when `p = 0`; the playlist stays or becomes the
active one and the shuffle flag is unchanged. -/
theorem skip_down_decrements_with_wraparound (env : Env) (s : State) (pl : Int) (p : Nat)
    (hfut : s.playlistFileFutures = [])
    (hp : (playlistAt s pl).playingFile = (p : Int))
    (hlt : p < (musicFilesOf s pl).length) :
    (1 ≤ p → (playlistAt (skipSoundDown env s pl) pl).playingFile = (p : Int) - 1) ∧
    (p = 0 → (playlistAt (skipSoundDown env s pl) pl).playingFile
      = ((musicFilesOf s pl).length : Int) - 1) ∧
    (skipSoundDown env s pl).playingPlaylist = pl ∧
    (skipSoundDown env s pl).shuffle = s.shuffle := by
  obtain ⟨h0, h1⟩ := inRange_of_track s pl p hlt
  have hk : (if (playlistAt s pl).playingFile - 1 ≥ 0 then (playlistAt s pl).playingFile - 1
      else ((playlistAt s pl).musicFiles.length : Int) - 1)
      = (((if 1 ≤ p then p - 1 else (musicFilesOf s pl).length - 1 : Nat)) : Int) := by
    rw [hp]
    unfold musicFilesOf at hlt ⊢
    by_cases h1p : 1 ≤ p
    · rw [if_pos (by omega), if_pos h1p]
      omega
    · rw [if_neg (by omega), if_neg h1p]
      omega
  have hsel := playingFile_after_select env s pl
    (if 1 ≤ p then p - 1 else (musicFilesOf s pl).length - 1) h0 h1
  have hfut' : (setPlayingFile s pl
      (((if 1 ≤ p then p - 1 else (musicFilesOf s pl).length - 1 : Nat)) : Int)).playlistFileFutures
      = [] := by
    rw [(setPlayingFile_frame s pl _).2.1]
    exact hfut
  rw [skipSoundDown_eq, hk]
  refine ⟨?_, ?_, (playlistPlayFileWithIndex_effect env _ _ _ hfut').2.2.1,
    (playlistPlayFileWithIndex_shuffle env _ _ _).trans (setPlayingFile_shuffle s pl _)⟩
  · intro h
    rw [hsel, if_pos h]
    omega
  · intro h
    rw [hsel, if_neg (by omega)]
    omega

/-- Witness of C20: shuffle is on and track 0 of three plays. -/
theorem skip_down_decrements_with_wraparound_witness :
    sampleFirstPlay.shuffle = true ∧
    (playlistAt sampleFirstPlay 0).playingFile = 0 ∧
    (playlistAt (skipSoundDown sampleEnv sampleFirstPlay 0) 0).playingFile = 2 :=
  ⟨by decide, by decide,
   (skip_down_decrements_with_wraparound sampleEnv sampleFirstPlay 0 0
    (by decide) (by decide) (by decide)).2.1 rfl⟩


/-! ## Claims on the position clock -/

/-- C22. With an initialized session, the slider not held and replay on,
when the position counter has reached the track length (on entry, or by the
increment of this very frame) `updateSoundProgress` returns with the
position counter at 0 and the backend sought to 0; the playing state of the
session, the playlists with their playing indices, the active playlist, the
current-track pointer and the already-played set are unchanged, so no skip
has happened. -/
theorem replay_at_end_of_track (env : Env) (s : State) (draws : List Nat)
    (hinit : s.soundHandler.isInit = true)
    (hend : s.soundHandler.lengthInSeconds ≤ s.currentSoundPos
      ∨ (s.currentSoundPos + 1 = s.soundHandler.lengthInSeconds
        ∧ s.soundHandler.isPlaying = true
        ∧ s.soundPosUpdateTimer ≤ s.soundPosUpdateTime + s.deltaTime))
    (hheld : s.trackProgressSliderHeld = false) (hreplay : s.replayTrack = true) :
    ∃ s', updateSoundProgress env s draws = some s' ∧
      s'.currentSoundPos = 0 ∧
      s'.soundHandler = s.soundHandler.setPositionInSeconds 0 ∧
      s'.soundHandler.isPlaying = s.soundHandler.isPlaying ∧
      s'.playlists = s.playlists ∧
      s'.playingPlaylist = s.playingPlaylist ∧
      s'.currentSoundFile = s.currentSoundFile ∧
      s'.alreadyPlayedTracks = s.alreadyPlayedTracks := by
  rw [updateSoundProgress_of_init env s draws hinit]
  rcases hend with hend | ⟨hlast, hplay, hfull⟩
  · rw [advanceSoundPos_of_stalled s (fun h => by omega)]
    exact ⟨_, endOfTrack_replay env s draws hend hheld hreplay, rfl, rfl, rfl, rfl, rfl, rfl, rfl⟩
  · rw [advanceSoundPos_elapsed s (by omega) hplay hfull]
    exact ⟨_, endOfTrack_replay env _ draws (by
      show s.soundHandler.lengthInSeconds ≤ s.currentSoundPos + 1
      omega) hheld hreplay, rfl, rfl, rfl, rfl, rfl, rfl, rfl⟩

/-- Witness of C22: the sample track with the position at its length. -/
theorem replay_at_end_of_track_witness :
    ∃ s', updateSoundProgress sampleEnv { sampleReplaying with currentSoundPos := 180 } []
        = some s' ∧
      s'.currentSoundPos = 0 ∧
      s'.soundHandler.positionInSeconds = 0 ∧
      s'.soundHandler.isPlaying = true ∧
      (playlistAt s' 0).playingFile = 0 :=
  have h := replay_at_end_of_track sampleEnv { sampleReplaying with currentSoundPos := 180 } []
    (by decide) (Or.inl (by decide)) (by decide) (by decide)
  h.elim (fun s' hs' => ⟨s', hs'.1, hs'.2.1, by rw [hs'.2.2.1]; rfl,
    by rw [hs'.2.2.2.1]; decide,
    by rw [playlistAt_congr s' _ 0 hs'.2.2.2.2.1]; decide⟩)

/-- C24. For every playlist and every index `i` below its length,
`moveFileInPlaylistIdx(p, i, i)` logs no error and returns with the state it
was given; in particular the track collection has the same length and the
same track at every position. -/
theorem move_to_same_index_is_identity (s : State) (p : Int) (i : Nat)
    (h : i < (musicFilesOf s p).length) :
    moveFileInPlaylistIdx s p i i = { errorLogged := false, result := some s } := by
  obtain ⟨moved, hm, hout, _⟩ := moveFileInPlaylistIdx_spec s p i i h h
  obtain ⟨moved', hm', _, hget⟩ := moveFile_spec (musicFilesOf s p) i i h h
  have hsame : moved = musicFilesOf s p := by
    have hmm : moved = moved' := by
      rw [hm'] at hm
      exact (Option.some.inj hm).symm
    rw [hmm]
    apply List.ext_getElem?
    intro j
    rw [hget j]
    by_cases hj : j = i
    · rw [if_pos hj, hj]
    · rw [if_neg hj, if_neg (by omega), if_neg (by omega)]
  rw [hout, hsame]
  congr 2
  exact modifyPlaylist_eq_self s p _ rfl

/-- Witness of C24: the middle track of the three-track playlist. -/
theorem move_to_same_index_is_identity_witness :
    moveFileInPlaylistIdx (sampleLibrary 0 0 [] false) 0 1 1
      = { errorLogged := false, result := some (sampleLibrary 0 0 [] false) } :=
  move_to_same_index_is_identity (sampleLibrary 0 0 [] false) 0 1 (by decide)

/-- C25. For in-range indices `a` (from) and `b` (to), `moveFileInPlaylistIdx`
logs no error and returns; afterwards the length is unchanged, the track
that was at `a` is at `b`, the tracks that were strictly between the two
indices or at `b` have moved by one position towards `a`, and every track
outside the range between the two indices keeps its position. -/
theorem move_shifts_range_between_indices (s : State) (p : Int) (a b : Nat)
    (ha : a < (musicFilesOf s p).length) (hb : b < (musicFilesOf s p).length) :
    ∃ s', moveFileInPlaylistIdx s p a b = { errorLogged := false, result := some s' } ∧
      (musicFilesOf s' p).length = (musicFilesOf s p).length ∧
      (musicFilesOf s' p)[b]? = (musicFilesOf s p)[a]? ∧
      (∀ j, a ≤ j → j < b → (musicFilesOf s' p)[j]? = (musicFilesOf s p)[j + 1]?) ∧
      (∀ j, b < j → j ≤ a → (musicFilesOf s' p)[j]? = (musicFilesOf s p)[j - 1]?) ∧
      (∀ j, (j < a ∧ j < b) ∨ (a < j ∧ b < j) →
        (musicFilesOf s' p)[j]? = (musicFilesOf s p)[j]?) := by
  obtain ⟨moved, hm, hout, hfiles⟩ := moveFileInPlaylistIdx_spec s p a b ha hb
  obtain ⟨moved', hm', hlen, hget⟩ := moveFile_spec (musicFilesOf s p) a b ha hb
  have hmm : moved = moved' := by
    rw [hm'] at hm
    exact (Option.some.inj hm).symm
  subst hmm
  refine ⟨_, hout, ?_, ?_, ?_, ?_, ?_⟩
  · rw [hfiles, hlen]
  · rw [hfiles, hget b, if_pos rfl]
  · intro j h1 h2
    rw [hfiles, hget j, if_neg (by omega), if_pos ⟨h1, h2⟩]
  · intro j h1 h2
    rw [hfiles, hget j, if_neg (by omega), if_neg (by omega), if_pos ⟨h1, h2⟩]
  · intro j h
    rw [hfiles, hget j, if_neg (by omega), if_neg (by omega), if_neg (by omega)]

/-- Witness of C25: the first of three tracks is dragged behind the last. -/
theorem move_shifts_range_between_indices_witness :
    ∃ s', moveFileInPlaylistIdx (sampleLibrary 0 0 [] false) 0 0 2
        = { errorLogged := false, result := some s' } ∧
      (musicFilesOf s' 0).length = 3 ∧
      (musicFilesOf s' 0)[2]? = (musicFilesOf (sampleLibrary 0 0 [] false) 0)[0]? ∧
      (musicFilesOf s' 0)[0]? = (musicFilesOf (sampleLibrary 0 0 [] false) 0)[1]? ∧
      (musicFilesOf s' 0)[1]? = (musicFilesOf (sampleLibrary 0 0 [] false) 0)[2]? :=
  have h := move_shifts_range_between_indices (sampleLibrary 0 0 [] false) 0 0 2
    (by decide) (by decide)
  h.elim (fun s' hs' => ⟨s', hs'.1, hs'.2.1, hs'.2.2.1,
    hs'.2.2.2.1 0 (by decide) (by decide), hs'.2.2.2.1 1 (by decide) (by decide)⟩)

/-- C26 (code evaluated at the failing input). Whenever `LOG_ERROR` is called
the function does not return: it goes on to `files[fromIndex]`, `insert` and
`erase` and accesses the vector outside its bounds. On the playlist of three
tracks this happens for (from, to) = (5, 0), (0, 3) and (3, 3). -/
theorem move_out_of_range_goes_on_after_error :
    (∀ (s : State) (p : Int) (a b : Nat),
      (moveFileInPlaylistIdx s p a b).errorLogged = true
        ↔ (moveFileInPlaylistIdx s p a b).result = none) ∧
    (musicFilesOf (sampleLibrary 0 0 [] false) 0).length = 3 ∧
    moveFileInPlaylistIdx (sampleLibrary 0 0 [] false) 0 5 0
      = { errorLogged := true, result := none } ∧
    moveFileInPlaylistIdx (sampleLibrary 0 0 [] false) 0 0 3
      = { errorLogged := true, result := none } ∧
    moveFileInPlaylistIdx (sampleLibrary 0 0 [] false) 0 3 3
      = { errorLogged := true, result := none } := by
  refine ⟨?_, by decide, by decide, by decide, by decide⟩
  intro s p a b
  by_cases h : a < (musicFilesOf s p).length ∧ b < (musicFilesOf s p).length
  · obtain ⟨_, _, hout, _⟩ := moveFileInPlaylistIdx_spec s p a b h.1 h.2
    rw [hout]
    simp
  · have hor : (musicFilesOf s p).length ≤ a ∨ (musicFilesOf s p).length ≤ b := by omega
    have hnone := moveFile_out_of_range (musicFilesOf s p) a b hor
    unfold musicFilesOf at hnone hor
    unfold moveFileInPlaylistIdx
    simp only [hnone, Option.map_none', Bool.or_eq_true, decide_eq_true_eq, ge_iff_le, iff_true]
    exact hor

/-- C30. For in-range indices `a` and `b`, `moveFileInPlaylistIdx(p, a, b)`
followed by `moveFileInPlaylistIdx(p, b, a)` logs no error, returns both
times and restores the original track sequence. -/
theorem move_there_and_back_restores_sequence (s : State) (p : Int) (a b : Nat)
    (ha : a < (musicFilesOf s p).length) (hb : b < (musicFilesOf s p).length) :
    ∃ s1 s2, moveFileInPlaylistIdx s p a b = { errorLogged := false, result := some s1 } ∧
      moveFileInPlaylistIdx s1 p b a = { errorLogged := false, result := some s2 } ∧
      musicFilesOf s2 p = musicFilesOf s p := by
  obtain ⟨moved, hm, hout, hfiles⟩ := moveFileInPlaylistIdx_spec s p a b ha hb
  obtain ⟨moved', hm', hlen, hget⟩ := moveFile_spec (musicFilesOf s p) a b ha hb
  have hmm : moved = moved' := by
    rw [hm'] at hm
    exact (Option.some.inj hm).symm
  subst hmm
  have ha1 : a < (musicFilesOf (modifyPlaylist s p
      (fun q => { q with musicFiles := moved })) p).length := by
    rw [hfiles, hlen]
    exact ha
  have hb1 : b < (musicFilesOf (modifyPlaylist s p
      (fun q => { q with musicFiles := moved })) p).length := by
    rw [hfiles, hlen]
    exact hb
  obtain ⟨back, hk, hout2, hfiles2⟩ := moveFileInPlaylistIdx_spec
    (modifyPlaylist s p (fun q => { q with musicFiles := moved })) p b a hb1 ha1
  obtain ⟨back', hk', hlen2, hget2⟩ := moveFile_spec
    (musicFilesOf (modifyPlaylist s p (fun q => { q with musicFiles := moved })) p) b a hb1 ha1
  have hbb : back = back' := by
    rw [hk'] at hk
    exact (Option.some.inj hk).symm
  subst hbb
  refine ⟨_, _, hout, hout2, ?_⟩
  rw [hfiles2]
  apply List.ext_getElem?
  intro j
  rw [hget2 j, hfiles]
  by_cases hja : j = a
  · subst hja
    rw [if_pos rfl, hget b, if_pos rfl]
  · rw [if_neg hja]
    by_cases h1 : b ≤ j ∧ j < a
    · rw [if_pos h1, hget (j + 1), if_neg (by omega), if_neg (by omega), if_pos (by omega)]
      rfl
    · rw [if_neg h1]
      by_cases h2 : a < j ∧ j ≤ b
      · rw [if_pos h2, hget (j - 1), if_neg (by omega), if_pos (by omega)]
        congr 1
        omega
      · rw [if_neg h2, hget j, if_neg (by omega), if_neg (by omega), if_neg (by omega)]

/-- Witness of C30: the last of three tracks is dragged to the front and
back. -/
theorem move_there_and_back_restores_sequence_witness :
    ∃ s1 s2, moveFileInPlaylistIdx (sampleLibrary 0 0 [] false) 0 2 0
        = { errorLogged := false, result := some s1 } ∧
      moveFileInPlaylistIdx s1 0 0 2 = { errorLogged := false, result := some s2 } ∧
      musicFilesOf s2 0 = musicFilesOf (sampleLibrary 0 0 [] false) 0 :=
  move_there_and_back_restores_sequence (sampleLibrary 0 0 [] false) 0 2 0
    (by decide) (by decide)

/-! ## Claims on the membership file and the sort keys -/

/-- C27. Every add flow of `lyssa.cpp` that writes to a `.metadata` file
leaves the existing contents in front and appends, for each path it writes,
exactly the token made of a double quote, the path, a double quote and one
space: the favourites key, the creation of a playlist from a folder, the end
of a download, `Add All` and the single add from a folder (which record the
same paths as pending), and `addFileToPlaylistAsync` of the download sync. A
stream that could not be opened, and a task that returns early, write
nothing. -/
theorem metadata_writes_append_quoted_tokens :
    (∀ (metadata : AppendStream) (selectedPath : String),
      (appendFavourite metadata selectedPath).contents
        = if metadata.isOpen then metadata.contents ++ quotedToken selectedPath
          else metadata.contents) ∧
    (∀ (env : Env) (metadata : AppendStream) (entries : List DirectoryEntry),
      (writeFolderEntries env metadata entries).contents
        = if metadata.isOpen then
            metadata.contents ++ quotedTokens
              ((entries.filter (fun entry =>
                !entry.isDirectory && env.isValidSoundFile entry.path)).map
                (fun entry => entry.path))
          else metadata.contents) ∧
    (∀ (metadata : AppendStream) (entries : List DirectoryEntry),
      (writeDownloadedEntries metadata entries).contents
        = if metadata.isOpen then
            metadata.contents ++ quotedTokens
              ((entries.filter (fun entry =>
                entry.isRegularFile && extension entry.path == ".mp3")).map
                (fun entry => entry.path))
          else metadata.contents) ∧
    (∀ (env : Env) (onDisk : String) (metadata : AppendStream) (pending : List String)
        (folderContents : List DirectoryEntry),
      (addAllFromFolder env onDisk metadata pending folderContents).1.contents
        = (if metadata.isOpen then
            metadata.contents ++ quotedTokens
              ((folderContents.filter (fun entry =>
                !entry.isDirectory && !env.metadataContainsFile onDisk entry.path
                  && env.isValidSoundFile entry.path)).map (fun entry => entry.path))
          else metadata.contents) ∧
      (addAllFromFolder env onDisk metadata pending folderContents).2
        = pending ++ (folderContents.filter (fun entry =>
            !entry.isDirectory && !env.metadataContainsFile onDisk entry.path
              && env.isValidSoundFile entry.path)).map (fun entry => entry.path)) ∧
    (∀ (env : Env) (onDisk : String) (metadata : AppendStream) (pending : List String)
        (entry : DirectoryEntry),
      addFileFromFolder env onDisk metadata pending entry
        = if (!entry.isDirectory && !env.metadataContainsFile onDisk entry.path
              && env.isValidSoundFile entry.path) = true then
            ({ metadata with contents :=
                if metadata.isOpen then metadata.contents ++ quotedToken entry.path
                else metadata.contents }, pending ++ [entry.path])
          else (metadata, pending)) ∧
    (∀ (env : Env) (s : State) (files : Int) (path : String) (playlistIndex : Int),
      (playlistAt (addFileToPlaylistAsync env s files path playlistIndex) playlistIndex).metadata
        = if env.metadataIsOpen (playlistAt s playlistIndex).path = true
              ∧ env.fileGood path = true
              ∧ 0 ≤ playlistIndex ∧ playlistIndex.toNat < s.playlists.length
          then (playlistAt s playlistIndex).metadata ++ quotedToken path
          else (playlistAt s playlistIndex).metadata) ∧
    (appendFavourite { contents := "\"/music/a.mp3\" " } "/music/b.mp3").contents
      = "\"/music/a.mp3\" \"/music/b.mp3\" " := by
  refine ⟨?_, ?_, ?_, ?_, ?_, ?_, by decide⟩
  · intro metadata selectedPath
    unfold appendFavourite
    rw [write_quoted]
  · intro env metadata entries
    unfold writeFolderEntries
    rw [write_loop (fun entry => !entry.isDirectory && env.isValidSoundFile entry.path)]
  · intro metadata entries
    unfold writeDownloadedEntries
    rw [write_loop (fun entry => entry.isRegularFile && extension entry.path == ".mp3")]
  · intro env onDisk metadata pending folderContents
    unfold addAllFromFolder
    rw [write_and_record_loop (fun entry =>
      !entry.isDirectory && !env.metadataContainsFile onDisk entry.path
        && env.isValidSoundFile entry.path)]
    exact ⟨rfl, rfl⟩
  · intro env onDisk metadata pending entry
    unfold addFileFromFolder
    rw [write_quoted]
  · intro env s files path playlistIndex
    exact addFileToPlaylistAsync_metadata env s files path playlistIndex

/-- C28. `removeFileExtension` and `removeFileExtensionW` return the same
string for every input, so for every path the key of
`compareTextureDataByName` is the key of `compareSoundFilesByName`, and the
two comparison functions agree on a thumbnail buffer and a track with the
same paths. -/
theorem texture_and_track_sort_keys_agree :
    (∀ name : String, removeFileExtension name = removeFileExtensionW name) ∧
    (∀ path : String, removeFileExtension (filename path) = nameKey path) ∧
    (∀ (a b : TextureData) (x y : SoundFile),
      compareTextureDataByName a b
        = compareSoundFilesByName { x with path := a.path } { y with path := b.path }) :=
  ⟨fun _ => rfl, fun _ => rfl, fun _ _ _ _ => rfl⟩

/-- C29 (code evaluated at the failing input). Shuffle is on, track 0 of
playlist 0 plays and is the one index in the already-played set; the viewed
playlist 1 has one track. Every draw for playlist 1 is 0, which is in the
set: `skipSoundUp` on the viewed playlist does not leave the redraw loop for
any number of draws, neither when it is called for the key N nor when
`updateSoundProgress` calls it at the end of the track. -/
theorem redraw_loop_never_exits_on_viewed_playlist (n : Nat) :
    sampleBrowsing.shuffle = true ∧
    sampleBrowsing.currentPlaylist = 1 ∧
    sampleBrowsing.playingPlaylist = 0 ∧
    (musicFilesOf sampleBrowsing 1).length = 1 ∧
    sampleBrowsing.alreadyPlayedTracks = [0] ∧
    skipSoundUp sampleEnv sampleBrowsing 1 (List.replicate n 0) = none ∧
    updateSoundProgress sampleEnv sampleBrowsingEnd (List.replicate n 0) = none := by
  have hdraw : ∀ played : List Nat, played = [0] →
      shuffleDraw played (List.replicate n 0) = none := by
    intro played hplayed
    apply shuffleDraw_none
    intro d hd
    rw [List.eq_of_mem_replicate hd, hplayed]
    exact List.mem_singleton.mpr rfl
  refine ⟨by decide, by decide, by decide, by decide, by decide, ?_, ?_⟩
  · rw [skipSoundUp_shuffle sampleEnv sampleBrowsing 1 _ (by decide),
      hdraw _ (by decide)]
    rfl
  · rw [updateSoundProgress_of_init _ _ _ (by decide),
      advanceSoundPos_of_stalled _ (by decide),
      endOfTrack_skip _ _ _ (by decide) (by decide) (by decide),
      skipSoundUp_shuffle sampleEnv sampleBrowsingEnd _ _ (by decide),
      hdraw _ (by decide)]
    rfl

end Lyssa
